import Mathlib

/-!
# Ice-E connection core: a shallow embedding of `Connection.cpp`

The definitions below transcribe `src/cppe/src/IceE/Connection.cpp` built with
`ICEE_HAS_BATCH` and without `ICEE_PURE_CLIENT` / `ICEE_PURE_BLOCKING_CLIENT`
(the full configuration: server side, batches and thread-per-connection are
all compiled in).

Conventions of the embedding.

* A byte is a natural number (a wire byte is below 256); a buffer is a list of
  bytes.  `Ice::Int` is an integer kept in the signed 32-bit range by
  `wrapInt32` wherever the source can overflow or casts.
* The monitor locks, `notifyAll`, the trace and warning output and
  `_stateTime` carry no data the statements below speak about; they are left
  out.  A `wait()` loop whose condition holds is a call that cannot proceed on
  its own: the operation reports `Outcome.blocked` and changes nothing.
* `assert` is compiled out, except where the asserted pointer is
  dereferenced on the next line (`assert(_exception.get());
  _exception->ice_throw();`): there a failing assertion is the outcome
  `Outcome.assertFailed`.
* The transport behind `_transceiver` is not part of this file of the
  repository; it is the explicit state `Transceiver`, which records the calls
  made on it and carries the outcomes the environment has in store.
-/

namespace Ice

/-- A byte of a buffer; wire bytes are the values below 256. -/
abbrev Byte := Nat

/-- Modelled from the spec: `enum State` of `Connection.h`, which is not among
the sources.  The spec orders the states NotValidated < Active < Holding <
Closing < Closed, and the code compares them with that order
(`_state >= StateClosing`, `_state < StateHolding`). -/
inductive State
  | StateNotValidated
  | StateActive
  | StateHolding
  | StateClosing
  | StateClosed
  deriving DecidableEq, Repr

/-- The numerical value of a state enumerator. -/
def State.toNat : State → Nat
  | .StateNotValidated => 0
  | .StateActive => 1
  | .StateHolding => 2
  | .StateClosing => 3
  | .StateClosed => 4

/-- The exceptions derived from `Ice::LocalException` that the connection
creates or passes on, with the data members the code fills in. -/
inductive LocalException
  | BadMagicException (badMagic : List Byte)
  | UnsupportedProtocolException (badMajor badMinor major minor : Nat)
  | UnsupportedEncodingException (badMajor badMinor major minor : Nat)
  | FeatureNotSupportedException (unsupportedFeature : String)
  | IllegalMessageSizeException
  | MemoryLimitException
  | UnmarshalOutOfBoundsException
  | NegativeSizeException
  | UnknownMessageException
  | UnknownRequestIdException
  | ConnectionNotValidatedException
  | CloseConnectionException
  | ForcedCloseConnectionException
  | CommunicatorDestroyedException
  | ObjectAdapterDeactivatedException
  | ConnectionLostException
  | SocketException
  | TimeoutException
  | ConnectTimeoutException
  | CloseTimeoutException
  | UnknownException (unknown : String)
  deriving DecidableEq, Repr

/-- The argument of `Connection::destroy`. -/
inductive DestructionReason
  | ObjectAdapterDeactivated
  | CommunicatorDestroyed
  deriving DecidableEq, Repr

/-- An `Outgoing*`: the connection only compares and calls these handles, so
a handle is a number naming the caller's object. -/
abbrev Outgoing := Nat

/-- What an `Outgoing` was completed with: `finished(BasicStream&)` hands it
the buffer holding the reply, `finished(const LocalException&)` an error. -/
inductive Completion
  | reply (b : List Byte)
  | failed (ex : LocalException)
  deriving DecidableEq, Repr

/-- How a call ended.  `returned`: it returned to its caller; `raised ex`: it
threw `ex` to its caller; `assertFailed`: an `assert` guarding a dereference
failed; `blocked`: it is parked in a `wait()` loop; `invalidIterator`: it
dereferenced an iterator that refers to no entry of its map, after which
nothing is modelled. -/
inductive Outcome
  | returned
  | raised (ex : LocalException)
  | assertFailed
  | blocked
  | invalidIterator
  deriving DecidableEq, Repr

/-! ## Protocol constants -/

/-- Modelled from the spec: `headerSize` of `Protocol.h` (not among the
sources); the frame header is 14 bytes. -/
def headerSize : Nat := 14

/-- Modelled from the spec: `magic` of `Protocol.h`, the bytes 'I','c','e','P'. -/
def magic : List Byte := [0x49, 0x63, 0x65, 0x50]

/-- Modelled from the spec: `protocolMajor` of `Protocol.h` (the validate
frame of the spec reads I,c,e,P,1,0,1,0,3,0,14,0,0,0). -/
def protocolMajor : Byte := 1

/-- Modelled from the spec: `protocolMinor` of `Protocol.h`. -/
def protocolMinor : Byte := 0

/-- Modelled from the spec: `encodingMajor` of `Protocol.h`. -/
def encodingMajor : Byte := 1

/-- Modelled from the spec: `encodingMinor` of `Protocol.h`. -/
def encodingMinor : Byte := 0

/-- Modelled from the spec: message type `request=0` of `Protocol.h`. -/
def requestMsg : Byte := 0

/-- Modelled from the spec: message type `batch-request=1` of `Protocol.h`. -/
def requestBatchMsg : Byte := 1

/-- Modelled from the spec: message type `reply=2` of `Protocol.h`. -/
def replyMsg : Byte := 2

/-- Modelled from the spec: message type `validate=3` of `Protocol.h`. -/
def validateConnectionMsg : Byte := 3

/-- Modelled from the spec: message type `close=4` of `Protocol.h`. -/
def closeConnectionMsg : Byte := 4

/-! ## Machine integers and the stream encoding -/

/-- The value of an integer after conversion to the 32-bit signed `Ice::Int`
(two's complement wrap-around). -/
def wrapInt32 (x : Int) : Int := (x + 2147483648) % 4294967296 - 2147483648

/-- The four bytes of an `Ice::Int` in memory order on the wire: the loops
`*dest++ = *src++` (little-endian host) and `*dest++ = *src--` (big-endian
host) both store the least significant byte first. -/
def intBytes (v : Int) : List Byte :=
  [(v % 256).toNat, (v / 256 % 256).toNat, (v / 65536 % 256).toNat, (v / 16777216 % 256).toNat]

/-- The `Ice::Int` stored in four bytes, least significant first. -/
def bytesInt (b0 b1 b2 b3 : Byte) : Int :=
  wrapInt32 ((b0 : Int) + 256 * (b1 : Int) + 65536 * (b2 : Int) + 16777216 * (b3 : Int))

/-- The four stores `*dest++ = ...` through a pointer at offset `off` of the
buffer. -/
def patchInt (b : List Byte) (off : Nat) (v : Int) : List Byte :=
  (((b.set off ((v % 256).toNat)).set (off + 1) ((v / 256 % 256).toNat)).set (off + 2)
    ((v / 65536 % 256).toNat)).set (off + 3) ((v / 16777216 % 256).toNat)

/-- Modelled from the spec: `BasicStream::read(Int&)` (`BasicStream.cpp` is
not among the sources) at position `pos` of the buffer: integer fields are
little-endian on the wire; reading past the end of the buffer raises
`UnmarshalOutOfBoundsException`. -/
def readInt (b : List Byte) (pos : Nat) : Except LocalException Int :=
  match b.drop pos with
  | b0 :: b1 :: b2 :: b3 :: _ => .ok (bytesInt b0 b1 b2 b3)
  | _ => .error .UnmarshalOutOfBoundsException

/-! ## The transport -/

/-- The failures a transport reports from `read` and `write`: the peer is
gone, the timeout set with `setTimeouts` expired, or another socket error. -/
inductive TransportError
  | ConnectionLost
  | Timeout
  | Socket
  deriving DecidableEq, Repr

/-- The exception the transport throws for a failure. -/
def TransportError.toLocal : TransportError → LocalException
  | .ConnectionLost => .ConnectionLostException
  | .Timeout => .TimeoutException
  | .Socket => .SocketException

/-- The transport object behind `_transceiver`, as the connection observes
it.  `written` lists the buffers of the `write` calls that completed, oldest
first.  `writeFaults` holds what the environment has in store for the coming
`write` calls, one entry a call (`none`: the write completes, `some e`: it
raises the exception of `e` and the buffer does not count as written); when
the list is used up, writes complete.  `input` is what the peer has sent and
was not read yet, and `inputEnd` the failure a read meets when these bytes
run out. -/
structure Transceiver where
  written : List (List Byte)
  writeFaults : List (Option TransportError)
  input : List Byte
  inputEnd : TransportError
  shutdownCalls : Nat
  closeCalls : Nat
  deriving DecidableEq, Repr

/-- The call `_transceiver->write(stream)`: the raised exception, if any, and
the transport afterwards. -/
def Transceiver.write (t : Transceiver) (buf : List Byte) : Option LocalException × Transceiver :=
  match t.writeFaults with
  | [] => (none, { t with written := t.written ++ [buf] })
  | none :: rest => (none, { t with written := t.written ++ [buf], writeFaults := rest })
  | some e :: rest => (some e.toLocal, { t with writeFaults := rest })

/-- Whether the next `write` on the transport completes. -/
def Transceiver.nextWriteCompletes (t : Transceiver) : Bool :=
  match t.writeFaults with
  | some _ :: _ => false
  | _ => true

/-- The call `_transceiver->read(stream)` for a stream with `n` bytes still to
fill: the bytes read, or the exception raised when fewer than `n` are left. -/
def Transceiver.read (t : Transceiver) (n : Nat) : Except LocalException (List Byte) × Transceiver :=
  if n ≤ t.input.length then (.ok (t.input.take n), { t with input := t.input.drop n })
  else (.error t.inputEnd.toLocal, { t with input := [] })

/-- The call `_transceiver->shutdownReadWrite()`; the code calls it without
a handler, it is taken to return. -/
def Transceiver.shutdownReadWrite (t : Transceiver) : Transceiver :=
  { t with shutdownCalls := t.shutdownCalls + 1 }

/-- The call `_transceiver->close()` inside `try { ... } catch(const
LocalException&) { }`: whatever it raises is dropped. -/
def Transceiver.close (t : Transceiver) : Transceiver :=
  { t with closeCalls := t.closeCalls + 1 }

/-! ## The connection -/

/-- The data members of `Ice::Connection` the modelled operations read or
write.  `transceiver` says whether the pointer `_transceiver` is non-null and
`tr` is the transport object; `requests` is the map `_requests` as its
entries in key order and `requestsHint` the iterator `_requestsHint`
(`none`: `_requests.end()`, `some k`: the entry with key `k`); `adapter`
says whether `_in.getAdapter()` is non-null; `timeout` is
`_endpoint->timeout()`; `finished` logs the calls of `Outgoing::finished`,
oldest first. -/
structure Connection where
  transceiver : Bool
  tr : Transceiver
  blocking : Bool
  adapter : Bool
  messageSizeMax : Nat
  timeout : Int
  requests : List (Int × Outgoing)
  requestsHint : Option Int
  batchStream : List Byte
  batchStreamInUse : Bool
  batchRequestNum : Int
  dispatchCount : Int
  state : State
  exception : Option LocalException
  nextRequestId : Int
  finished : List (Outgoing × Completion)
  deriving DecidableEq, Repr

/-- The frame `initiateShutdown` marshals: the header with message type
close-connection, compression status 0 and `headerSize` as the size. -/
def closeConnectionFrame : List Byte :=
  magic ++ [protocolMajor, protocolMinor, encodingMajor, encodingMinor, closeConnectionMsg, 0]
    ++ intBytes (headerSize : Int)

/-- The function `Connection::initiateShutdown`: the exception the write
raised, if any, and the connection afterwards. -/
def initiateShutdown (c : Connection) : Option LocalException × Connection :=
  let r := c.tr.write closeConnectionFrame
  (r.1, { c with tr := r.2 })

/-- The call `setState(StateClosed)`: `Connection::setState(State)` with
`state == StateClosed`.  After `_state = state` the test `_state ==
StateClosing` fails, so the call makes no further call. -/
def setStateClosed (c : Connection) : Connection :=
  if c.state = .StateClosed then c
  else
    let c1 := { c with tr := c.tr.shutdownReadWrite }
    let c2 := if c1.blocking then { c1 with tr := c1.tr.close, transceiver := false } else c1
    { c2 with state := .StateClosed }

/-- The call `setState(StateClosed, ex)`: `Connection::setState(State, const
LocalException&)` with `state == StateClosed`. -/
def setStateClosedEx (ex : LocalException) (c : Connection) : Connection :=
  if c.state = .StateClosed then c
  else
    let c1 := if c.exception.isNone then { c with exception := some ex } else c
    setStateClosed c1

/-- The end of `Connection::setState(State)`, from `_state = state` on. -/
def setStateCommit (state : State) (c : Connection) : Connection :=
  let c1 := { c with state := state }
  if c1.state = .StateClosing ∧ c1.dispatchCount = 0 then
    match initiateShutdown c1 with
    | (none, c2) => if c2.blocking then setStateClosed c2 else c2
    | (some ex, c2) => setStateClosedEx ex c2
  else c1

/-- The function `Connection::setState(State)`. -/
def setState (state : State) (c : Connection) : Connection :=
  if c.state = state then c
  else
    match state with
    | .StateNotValidated => setStateCommit state c
    | .StateActive =>
      if c.state ≠ .StateHolding ∧ c.state ≠ .StateNotValidated then c
      else setStateCommit state c
    | .StateHolding =>
      if c.state ≠ .StateActive ∧ c.state ≠ .StateNotValidated then c
      else setStateCommit state c
    | .StateClosing =>
      if c.state = .StateClosed then c
      else setStateCommit state c
    | .StateClosed =>
      let c1 := { c with tr := c.tr.shutdownReadWrite }
      let c2 := if c1.blocking then { c1 with tr := c1.tr.close, transceiver := false } else c1
      setStateCommit state c2

/-- The function `Connection::setState(State, const LocalException&)`. -/
def setStateEx (state : State) (ex : LocalException) (c : Connection) : Connection :=
  if c.state = state then c
  else
    let c1 := if c.exception.isNone then { c with exception := some ex } else c
    setState state c1

/-- The function `Connection::activate`. -/
def activate (c : Connection) : Connection := setState .StateActive c

/-- The function `Connection::hold`. -/
def hold (c : Connection) : Connection := setState .StateHolding c

/-- The function `Connection::destroy`. -/
def destroy (reason : DestructionReason) (c : Connection) : Connection :=
  match reason with
  | .ObjectAdapterDeactivated => setStateEx .StateClosing .ObjectAdapterDeactivatedException c
  | .CommunicatorDestroyed => setStateEx .StateClosing .CommunicatorDestroyedException c

/-- The function `Connection::close`.  With `force == false` the call waits
while `_requests` is not empty. -/
def close (force : Bool) (c : Connection) : Outcome × Connection :=
  if force then (.returned, setStateEx .StateClosed .ForcedCloseConnectionException c)
  else if !c.requests.isEmpty then (.blocked, c)
  else (.returned, setStateEx .StateClosing .CloseConnectionException c)

/-! ## Receiving -/

/-- What `Connection::readStreamAndParseMessage` leaves behind: the exception
it raised, if any; the buffer `stream.b`; the reference parameters `requestId`
and `invokeNum`; and the connection, whose transport has given up the bytes
read.  The buffer is only looked at after a call that did not raise. -/
structure ParseResult where
  raised : Option LocalException
  stream : List Byte
  requestId : Int
  invokeNum : Int
  c : Connection
  deriving DecidableEq, Repr

/-- The `switch(messageType)` at the end of
`Connection::readStreamAndParseMessage`, the stream positioned at
`headerSize`. -/
def parseMessageType (messageType : Byte) (b : List Byte) (requestId invokeNum : Int)
    (c : Connection) : ParseResult :=
  if messageType = closeConnectionMsg then
    ⟨some .CloseConnectionException, b, requestId, invokeNum, c⟩
  else if messageType = replyMsg then
    match readInt b headerSize with
    | .error ex => ⟨some ex, b, requestId, invokeNum, c⟩
    | .ok v => ⟨none, b, v, invokeNum, c⟩
  else if messageType = requestMsg then
    match readInt b headerSize with
    | .error ex => ⟨some ex, b, requestId, invokeNum, c⟩
    | .ok v => ⟨none, b, v, 1, c⟩
  else if messageType = requestBatchMsg then
    match readInt b headerSize with
    | .error ex => ⟨some ex, b, requestId, invokeNum, c⟩
    | .ok v =>
      if v < 0 then ⟨some .NegativeSizeException, b, requestId, 0, c⟩
      else ⟨none, b, requestId, v, c⟩
  else if messageType = validateConnectionMsg then
    ⟨none, b, requestId, invokeNum, c⟩
  else
    ⟨some .UnknownMessageException, b, requestId, invokeNum, c⟩

/-- The header checks of `Connection::readStreamAndParseMessage`, from the
comparison with `magic` to the comparison with `messageSizeMax`, on the
`headerSize` bytes read: the exception thrown, or the local `size`. -/
def checkHeader (messageSizeMax : Nat) (header : List Byte) : Except LocalException Int :=
  if header.getD 0 0 ≠ magic.getD 0 0 ∨ header.getD 1 0 ≠ magic.getD 1 0
      ∨ header.getD 2 0 ≠ magic.getD 2 0 ∨ header.getD 3 0 ≠ magic.getD 3 0 then
    .error (.BadMagicException (header.take 4))
  else if header.getD 4 0 ≠ protocolMajor then
    .error (.UnsupportedProtocolException (header.getD 4 0) (header.getD 5 0)
      protocolMajor protocolMinor)
  else if header.getD 6 0 ≠ encodingMajor then
    .error (.UnsupportedEncodingException (header.getD 6 0) (header.getD 7 0)
      encodingMajor encodingMinor)
  else if header.getD 9 0 = 2 then
    .error (.FeatureNotSupportedException "compression")
  else
    match readInt header (headerSize - 4) with
    | .error ex => .error ex
    | .ok size =>
      if size < (headerSize : Int) then .error .IllegalMessageSizeException
      else if size > wrapInt32 (messageSizeMax : Int) then .error .MemoryLimitException
      else .ok size

/-- The function `Connection::readStreamAndParseMessage(stream, requestId,
invokeNum)`; `requestId` and `invokeNum` are the values the caller's
variables hold at the call. -/
def readStreamAndParseMessage (c : Connection) (requestId invokeNum : Int) : ParseResult :=
  match c.tr.read headerSize with
  | (.error ex, t) => ⟨some ex, [], requestId, invokeNum, { c with tr := t }⟩
  | (.ok header, t) =>
    let c1 := { c with tr := t }
    match checkHeader c1.messageSizeMax header with
    | .error ex => ⟨some ex, header, requestId, invokeNum, c1⟩
    | .ok size =>
      let messageType := header.getD 8 0
      if size > wrapInt32 (header.length : Int) then
        match c1.tr.read (size.toNat - header.length) with
        | (.error ex, t2) => ⟨some ex, header, requestId, invokeNum, { c1 with tr := t2 }⟩
        | (.ok rest, t2) =>
          parseMessageType messageType (header ++ rest) requestId invokeNum { c1 with tr := t2 }
      else
        parseMessageType messageType header requestId invokeNum c1

/-! ## Sending -/

/-- The lines `requestId = _nextRequestId++; if(requestId <= 0) {
_nextRequestId = 1; requestId = _nextRequestId++; }` of
`Connection::sendRequest`, on the counter `_nextRequestId`: the id and the
counter afterwards.  The increment wraps. -/
def allocRequestId (nextRequestId : Int) : Int × Int :=
  let requestId := nextRequestId
  let next1 := wrapInt32 (nextRequestId + 1)
  if requestId ≤ 0 then (1, wrapInt32 (1 + 1)) else (requestId, next1)

/-- The call `_requests.insert(_requests.end(), pair(requestId, out))` on the
entries of the map in key order: `std::map::insert` leaves the map as it is
when the key is present. -/
def mapInsert : List (Int × Outgoing) → Int → Outgoing → List (Int × Outgoing)
  | [], k, v => [(k, v)]
  | (k1, v1) :: rest, k, v =>
    if k < k1 then (k, v) :: (k1, v1) :: rest
    else if k = k1 then (k1, v1) :: rest
    else (k1, v1) :: mapInsert rest k v

/-- How the `try` block of `Connection::sendRequest` ended. -/
inductive TryEnd
  | done
  | thrown (ex : LocalException)
  | assertFailed
  | blocked
  deriving DecidableEq, Repr

/-- The `try` block of `Connection::sendRequest` at its end: how it ended,
the local `requestSent`, the local `requestId`, the caller's stream `os->b`
and the connection. -/
structure SendTry where
  ending : TryEnd
  requestSent : Bool
  requestId : Int
  os : List Byte
  c : Connection
  deriving DecidableEq, Repr

/-- The block `if(out) { ... }` of `Connection::sendRequest`: the local
`requestId` (not initialised, here 0, when `out` is null), the stream with the
id filled in at `headerSize`, and the connection with the counter advanced
and, unless `_blocking`, the outgoing registered. -/
def prepareRequest (os : List Byte) (out : Option Outgoing) (c : Connection) :
    Int × List Byte × Connection :=
  match out with
  | none => (0, os, c)
  | some o =>
    let a := allocRequestId c.nextRequestId
    let c1 := { c with nextRequestId := a.2 }
    let os1 := patchInt os headerSize a.1
    if !c1.blocking then
      (a.1, os1, { c1 with requests := mapInsert c1.requests a.1 o, requestsHint := some a.1 })
    else (a.1, os1, c1)

/-- The rest of the `try` block of `Connection::sendRequest` once the write
has completed and `out` is not null: in blocking mode the reply is read into
the same stream; otherwise the call waits for the outgoing to complete.
`completed` says whether `out->state()` left `StateInProgress` (the worker
completed the outgoing) before the timeout expired; with no timeout
(`tout <= 0`) and no completion the call stays parked. -/
def awaitReply (o : Outgoing) (requestId : Int) (os : List Byte) (completed : Bool)
    (c : Connection) : SendTry :=
  if c.blocking then
    let p := readStreamAndParseMessage c 0 0
    match p.raised with
    | some ex => ⟨.thrown ex, true, requestId, p.stream, p.c⟩
    | none =>
      if p.invokeNum > 0 then
        ⟨.thrown .UnknownMessageException, true, requestId, p.stream, p.c⟩
      else if requestId ≠ p.requestId then
        ⟨.thrown .UnknownRequestIdException, true, requestId, p.stream, p.c⟩
      else
        ⟨.done, true, requestId, p.stream,
          { p.c with finished := p.c.finished ++ [(o, .reply p.stream)] }⟩
  else if completed then ⟨.done, true, requestId, os, c⟩
  else if c.timeout > 0 then
    ⟨.done, true, requestId, os, setStateEx .StateClosed .TimeoutException c⟩
  else ⟨.blocked, true, requestId, os, c⟩

/-- The `try` block of `Connection::sendRequest(os, out)`; `out` is `none`
for a null pointer (a one-way call). -/
def sendRequestTry (os : List Byte) (out : Option Outgoing) (completed : Bool) (c : Connection) :
    SendTry :=
  if !c.transceiver then
    match c.exception with
    | none => ⟨.assertFailed, false, 0, os, c⟩
    | some e => ⟨.thrown e, false, 0, os, c⟩
  else
    let p := prepareRequest os out c
    let sz := wrapInt32 (p.2.1.length : Int)
    let os2 := patchInt p.2.1 10 sz
    match p.2.2.tr.write os2 with
    | (some ex, t) => ⟨.thrown ex, false, p.1, os2, { p.2.2 with tr := t }⟩
    | (none, t) =>
      match out with
      | none => ⟨.done, true, p.1, os2, { p.2.2 with tr := t }⟩
      | some o => awaitReply o p.1 os2 completed { p.2.2 with tr := t }

/-- What a call of `Connection::sendRequest` leaves behind: how it ended,
the caller's stream and the connection. -/
structure SendResult where
  outcome : Outcome
  os : List Byte
  c : Connection
  deriving DecidableEq, Repr

/-- The function `Connection::sendRequest(os, out)`: the `try` block and the
handler `catch(const LocalException& ex)`.  In the handler `out` is
dereferenced only when `requestSent` is set, which with a null `out` happens
only on the path that has returned from the `try` block. -/
def sendRequest (os : List Byte) (out : Option Outgoing) (completed : Bool) (c : Connection) :
    SendResult :=
  let t := sendRequestTry os out completed c
  match t.ending with
  | .done => ⟨.returned, t.os, t.c⟩
  | .assertFailed => ⟨.assertFailed, t.os, t.c⟩
  | .blocked => ⟨.blocked, t.os, t.c⟩
  | .thrown ex =>
    let c1 := setStateEx .StateClosed ex t.c
    match c1.exception with
    | none => ⟨.assertFailed, t.os, c1⟩
    | some e =>
      if t.requestSent then
        match out with
        | some o => ⟨.returned, t.os, { c1 with finished := c1.finished ++ [(o, .failed e)] }⟩
        | none => ⟨.assertFailed, t.os, c1⟩
      else ⟨.raised e, t.os, c1⟩

/-- The vector `_requestHdr` as the constructor fills it: `headerSize +
sizeof(Int)` bytes, zero where nothing is stored. -/
def requestHdr : List Byte :=
  magic ++ [protocolMajor, protocolMinor, encodingMajor, encodingMinor, requestMsg, 0]
    ++ [0, 0, 0, 0, 0, 0, 0, 0]

/-- The vector `_requestBatchHdr` as the constructor fills it. -/
def requestBatchHdr : List Byte :=
  magic ++ [protocolMajor, protocolMinor, encodingMajor, encodingMinor, requestBatchMsg, 0]
    ++ [0, 0, 0, 0, 0, 0, 0, 0]

/-- The vector `_replyHdr` as the constructor fills it: `headerSize` bytes. -/
def replyHdr : List Byte :=
  magic ++ [protocolMajor, protocolMinor, encodingMajor, encodingMinor, replyMsg, 0]
    ++ [0, 0, 0, 0]

/-- The lines `os->writeBlob(&_replyHdr[0], headerSize); os->write(requestId);`
of `Connection::run` on the output stream `os->b`; `BasicStream::write(Int)`
appends the four bytes of the value, least significant first. -/
def writeReplyHeader (os : List Byte) (requestId : Int) : List Byte :=
  os ++ replyHdr.take headerSize ++ intBytes requestId

/-- The `try` block of `Connection::flushBatchRequests`: the exception thrown
(or the failed assertion) and the connection. -/
def flushBatchTry (c : Connection) : TryEnd × Connection :=
  if !c.transceiver then
    match c.exception with
    | none => (.assertFailed, c)
    | some e => (.thrown e, c)
  else
    let b1 := patchInt c.batchStream headerSize c.batchRequestNum
    let sz := wrapInt32 (b1.length : Int)
    let b2 := patchInt b1 10 sz
    let c1 := { c with batchStream := b2 }
    match c1.tr.write b2 with
    | (some ex, t) => (.thrown ex, { c1 with tr := t })
    | (none, t) => (.done, { c1 with tr := t })

/-- The function `Connection::flushBatchRequests`. -/
def flushBatchRequests (c : Connection) : Outcome × Connection :=
  if c.batchStreamInUse ∧ c.exception.isNone then (.blocked, c)
  else
    match c.exception with
    | some e => (.raised e, c)
    | none =>
      if c.batchStream.isEmpty then (.returned, c)
      else
        let c1 := { c with batchStreamInUse := true }
        match flushBatchTry c1 with
        | (.thrown ex, c2) =>
          let c3 := setStateEx .StateClosed ex c2
          match c3.exception with
          | none => (.assertFailed, c3)
          | some e => (.raised e, c3)
        | (.done, c2) =>
          (.returned, { c2 with batchStream := [], batchRequestNum := 0, batchStreamInUse := false })
        | (.assertFailed, c2) => (.assertFailed, c2)
        | (.blocked, c2) => (.blocked, c2)

/-- The first `try` block of `Connection::sendResponse(os)` with its handler
`catch(const LocalException& ex) { setState(StateClosed, ex); }`. -/
def sendResponseWrite (os : List Byte) (c : Connection) : Outcome × Connection :=
  if !c.transceiver then
    match c.exception with
    | none => (.assertFailed, c)
    | some e => (.returned, setStateEx .StateClosed e c)
  else
    let sz := wrapInt32 (os.length : Int)
    let os1 := patchInt os 10 sz
    match c.tr.write os1 with
    | (some ex, t) => (.returned, setStateEx .StateClosed ex { c with tr := t })
    | (none, t) => (.returned, { c with tr := t })

/-- The function `Connection::sendNoResponse`, which is also the second
block of `Connection::sendResponse`. -/
def sendNoResponse (c : Connection) : Connection :=
  let c1 := { c with dispatchCount := c.dispatchCount - 1 }
  if c1.state = .StateClosing ∧ c1.dispatchCount = 0 then
    match initiateShutdown c1 with
    | (none, c2) => c2
    | (some ex, c2) => setStateEx .StateClosed ex c2
  else c1

/-- The function `Connection::sendResponse(os)`. -/
def sendResponse (os : List Byte) (c : Connection) : Outcome × Connection :=
  match sendResponseWrite os c with
  | (.returned, c1) => (.returned, sendNoResponse c1)
  | r => r

/-! ## Sequences of operations -/

/-- The operations on a connection that reach `setState`: the public
`activate`, `hold`, `destroy` and `close`; the send path (`sendRequest`,
`flushBatchRequests`, `sendResponse`, `sendNoResponse`); and both `setState`
functions themselves, which stand for the remaining callers (`validate`,
`waitUntilFinished`, `prepareBatchRequest` and the worker `run`, all of which
change `_state` and `_exception` by such a call only). -/
inductive Op
  | activate
  | hold
  | destroy (reason : DestructionReason)
  | close (force : Bool)
  | setState (state : State)
  | setStateEx (state : State) (ex : LocalException)
  | sendRequest (os : List Byte) (out : Option Outgoing) (completed : Bool)
  | flushBatchRequests
  | sendResponse (os : List Byte)
  | sendNoResponse
  deriving DecidableEq, Repr

/-- The call sites respect the assertions of `setState`: no caller passes
`StateNotValidated` (`assert(false)`), and a call with an exception passes
`StateClosing` or `StateClosed` only. -/
def Op.valid : Op → Bool
  | .setState s => s != .StateNotValidated
  | .setStateEx s _ => s == .StateClosing || s == .StateClosed
  | _ => true

/-- The connection after one operation. -/
def Op.apply (op : Op) (c : Connection) : Connection :=
  match op with
  | .activate => Ice.activate c
  | .hold => Ice.hold c
  | .destroy reason => Ice.destroy reason c
  | .close force => (Ice.close force c).2
  | .setState s => Ice.setState s c
  | .setStateEx s ex => Ice.setStateEx s ex c
  | .sendRequest os out completed => (Ice.sendRequest os out completed c).c
  | .flushBatchRequests => (Ice.flushBatchRequests c).2
  | .sendResponse os => (Ice.sendResponse os c).2
  | .sendNoResponse => Ice.sendNoResponse c

/-- The connection after a sequence of operations, first to last. -/
def applyOps (ops : List Op) (c : Connection) : Connection :=
  ops.foldl (fun acc op => op.apply acc) c

/-- The transition table of the spec: `allowed s t` says that the table has
"yes" in row `s`, column `t`. -/
def allowed : State → State → Bool
  | .StateNotValidated, .StateActive => true
  | .StateNotValidated, .StateHolding => true
  | .StateNotValidated, .StateClosing => true
  | .StateNotValidated, .StateClosed => true
  | .StateActive, .StateHolding => true
  | .StateActive, .StateClosing => true
  | .StateActive, .StateClosed => true
  | .StateHolding, .StateActive => true
  | .StateHolding, .StateClosing => true
  | .StateHolding, .StateClosed => true
  | .StateClosing, .StateClosed => true
  | _, _ => false

/-- The constructor `Connection::Connection`, up to the point where it
starts validation or the worker thread: the members as the initialiser list
sets them, for a given transport, mode, adapter and configuration. -/
def Connection.init (tr : Transceiver) (blocking adapter : Bool) (messageSizeMax : Nat)
    (timeout : Int) : Connection :=
  { transceiver := true, tr := tr, blocking := blocking, adapter := adapter,
    messageSizeMax := messageSizeMax, timeout := timeout,
    requests := [], requestsHint := none,
    batchStream := [], batchStreamInUse := false, batchRequestNum := 0,
    dispatchCount := 0, state := .StateNotValidated, exception := none,
    nextRequestId := 1, finished := [] }

/-- A transport on which nothing was written yet, with the given write
outcomes in store and the given bytes to read. -/
def Transceiver.fresh (writeFaults : List (Option TransportError)) (input : List Byte) :
    Transceiver :=
  { written := [], writeFaults := writeFaults, input := input,
    inputEnd := .ConnectionLost, shutdownCalls := 0, closeCalls := 0 }

/-- What every operation keeps between the connection before (`c`) and after
(`d`): the state value does not drop, except from Holding to Active; a stored
exception stays as it is; and an exception is stored only by a call that ends
in Closing or Closed. -/
def Advances (c d : Connection) : Prop :=
  (c.state.toNat ≤ d.state.toNat ∨ (c.state = .StateHolding ∧ d.state = .StateActive)) ∧
  (∀ e, c.exception = some e → d.exception = some e) ∧
  (c.exception = none → d.exception ≠ none →
    d.state = .StateClosing ∨ d.state = .StateClosed)

/-- A client connection in thread-per-connection mode as the constructor
leaves it: nothing written, no write fault in store, nothing to read, a
message size limit of 1 MB and no timeout. -/
def clientConnection : Connection :=
  Connection.init (Transceiver.fresh [] []) false false 1048576 (-1)

/-- The values the counter `_nextRequestId` takes: the constructor sets it to
1, and every allocation in `sendRequest` moves it on. -/
inductive ReachableCounter : Int → Prop
  | init : ReachableCounter 1
  | step {n : Int} : ReachableCounter n → ReachableCounter (allocRequestId n).2

/-- The counter `_nextRequestId` after `k` allocations, starting from `n`. -/
def counterAfter : Int → Nat → Int
  | n, 0 => n
  | n, k + 1 => counterAfter (allocRequestId n).2 k

/-- The request id of allocation number `k` (counted from 0) on a connection
whose counter starts at `n`. -/
def nthRequestId (n : Int) (k : Nat) : Int := (allocRequestId (counterAfter n k)).1

/-- An active client connection in thread-per-connection mode whose counter
has wrapped (it holds the most negative `Ice::Int`, the value after 2^31-1
allocations) while the outgoing of its first request, with id 1, is still
registered (handle 7). -/
def wrappedConnection : Connection :=
  { clientConnection with
    state := .StateActive, nextRequestId := -2147483648,
    requests := [(1, 7)], requestsHint := some 1 }

/-- The little-endian 32-bit encoding of a size or id, in the words of the
spec: the four bytes of the value, least significant first. -/
def le32 (n : Nat) : List Byte := [n % 256, n / 256 % 256, n / 65536 % 256, n / 16777216 % 256]

/-- The size field of a header read as the spec words it: the unsigned
32-bit little-endian value of bytes 10..13. -/
def sizeUnsigned (h : List Byte) : Nat :=
  h.getD 10 0 + 256 * h.getD 11 0 + 65536 * h.getD 12 0 + 16777216 * h.getD 13 0

/-- The size field of a header as `stream.read(size)` delivers it into an
`Ice::Int`: the signed 32-bit little-endian value of bytes 10..13. -/
def sizeSigned (h : List Byte) : Int :=
  bytesInt (h.getD 10 0) (h.getD 11 0) (h.getD 12 0) (h.getD 13 0)

/-- The validation rules of the spec for a 14-byte header, in the spec's
order, each with its error; `size` is the value the size rules are applied
to and `limit` the connection's message size limit. `none`: the header
passes all six rules. -/
def headerError (size limit : Int) (h : List Byte) : Option LocalException :=
  if h.take 4 ≠ magic then some (.BadMagicException (h.take 4))
  else if h.getD 4 0 ≠ protocolMajor then
    some (.UnsupportedProtocolException (h.getD 4 0) (h.getD 5 0) protocolMajor protocolMinor)
  else if h.getD 6 0 ≠ encodingMajor then
    some (.UnsupportedEncodingException (h.getD 6 0) (h.getD 7 0) encodingMajor encodingMinor)
  else if h.getD 9 0 = 2 then some (.FeatureNotSupportedException "compression")
  else if size < 14 then some .IllegalMessageSizeException
  else if size > limit then some .MemoryLimitException
  else none

/-- Whether an exception is one of the six errors of header validation. -/
def LocalException.isHeaderError : LocalException → Bool
  | .BadMagicException _ => true
  | .UnsupportedProtocolException _ _ _ _ => true
  | .UnsupportedEncodingException _ _ _ _ => true
  | .FeatureNotSupportedException _ => true
  | .IllegalMessageSizeException => true
  | .MemoryLimitException => true
  | _ => false

/-- A client connection whose peer has sent a request header with the size
bytes FF FF FF FF. -/
def hugeSizeConnection : Connection :=
  Connection.init
    (Transceiver.fresh [] [0x49, 0x63, 0x65, 0x50, 1, 0, 1, 0, 0, 0, 255, 255, 255, 255])
    false false 1048576 (-1)

/-- A client connection in blocking mode as the constructor leaves it, with
a transport on which writes complete and the peer sends nothing. -/
def blockingConnection : Connection :=
  Connection.init (Transceiver.fresh [] []) true false 1048576 5000

/-- A client connection in thread-per-connection mode whose transport times
out on the next write. -/
def faultyConnection : Connection :=
  Connection.init (Transceiver.fresh [some .Timeout] []) false false 1048576 5000

/-- A connection whose peer has sent the request frame with id 1 and the
three payload bytes 1, 2, 3. -/
def requestPeer : Connection :=
  Connection.init
    (Transceiver.fresh []
      [0x49, 0x63, 0x65, 0x50, 1, 0, 1, 0, 0, 0, 21, 0, 0, 0, 1, 0, 0, 0, 1, 2, 3])
    false true 1048576 (-1)

/-- An active connection holding a batch of two requests: the batch header
followed by the payload bytes 1, 2, 3. -/
def batchSender : Connection :=
  { clientConnection with
    state := .StateActive, batchStream := requestBatchHdr ++ [1, 2, 3], batchRequestNum := 2 }

/-- A connection whose peer has sent the batch frame of `batchSender`. -/
def batchPeer : Connection :=
  Connection.init
    (Transceiver.fresh []
      [0x49, 0x63, 0x65, 0x50, 1, 0, 1, 0, 1, 0, 21, 0, 0, 0, 2, 0, 0, 0, 1, 2, 3])
    false true 1048576 (-1)

/-- An active server connection with one dispatch in flight. -/
def replySender : Connection :=
  { Connection.init (Transceiver.fresh [] []) false true 1048576 (-1) with
    state := .StateActive, dispatchCount := 1 }

/-- A connection whose peer has sent the reply to request 5 with the body
bytes 1, 2, 3. -/
def replyPeer : Connection :=
  Connection.init
    (Transceiver.fresh []
      [0x49, 0x63, 0x65, 0x50, 1, 0, 1, 0, 2, 0, 21, 0, 0, 0, 5, 0, 0, 0, 1, 2, 3])
    false false 1048576 (-1)

/-! ## Validation -/

/-- The frame `Connection::validate` marshals on the active (server) side:
the header with message type validate-connection, compression status 0 and
`headerSize` as the size. -/
def validateConnectionFrame : List Byte :=
  magic ++ [protocolMajor, protocolMinor, encodingMajor, encodingMinor, validateConnectionMsg, 0]
    ++ intBytes (headerSize : Int)

/-- The handlers `catch(const TimeoutException&) { throw
ConnectTimeoutException(__FILE__, __LINE__); }` around `writeWithTimeout` and
`readWithTimeout` in `Connection::validate`. -/
def connectTimeout : LocalException → LocalException
  | .TimeoutException => .ConnectTimeoutException
  | ex => ex

/-- The checks of `Connection::validate` on the `headerSize` bytes read on
the passive side, in the order of the code; the compression status is read
and ignored. `none`: no check throws. -/
def validateHeader (is : List Byte) : Option LocalException :=
  if is.getD 0 0 ≠ magic.getD 0 0 ∨ is.getD 1 0 ≠ magic.getD 1 0
      ∨ is.getD 2 0 ≠ magic.getD 2 0 ∨ is.getD 3 0 ≠ magic.getD 3 0 then
    some (.BadMagicException (is.take 4))
  else if is.getD 4 0 ≠ protocolMajor then
    some (.UnsupportedProtocolException (is.getD 4 0) (is.getD 5 0) protocolMajor protocolMinor)
  else if is.getD 6 0 ≠ encodingMajor then
    some (.UnsupportedEncodingException (is.getD 6 0) (is.getD 7 0) encodingMajor encodingMinor)
  else if is.getD 8 0 ≠ validateConnectionMsg then
    some .ConnectionNotValidatedException
  else
    match readInt is 10 with
    | .error ex => some ex
    | .ok size =>
      if size ≠ (headerSize : Int) then some .IllegalMessageSizeException
      else none

/-- The `try` block of `Connection::validate`: the active side (an adapter is
set) writes the validate-connection frame, the passive side reads and checks
it. The exception thrown, if any, and the connection. -/
def validateTry (c : Connection) : Option LocalException × Connection :=
  if c.adapter then
    match c.tr.write validateConnectionFrame with
    | (some ex, t) => (some (connectTimeout ex), { c with tr := t })
    | (none, t) => (none, { c with tr := t })
  else
    match c.tr.read headerSize with
    | (.error ex, t) => (some (connectTimeout ex), { c with tr := t })
    | (.ok is, t) => (validateHeader is, { c with tr := t })

/-- The function `Connection::validate`. A connection found Closed throws
the stored exception before the `try` block; an exception of the `try` block
closes the connection and the stored exception is thrown; otherwise the
function ends with `hold()`. -/
def validate (c : Connection) : Outcome × Connection :=
  if c.state = .StateClosed then
    match c.exception with
    | none => (.assertFailed, c)
    | some e => (.raised e, c)
  else
    match validateTry c with
    | (some ex, c1) =>
      let c2 := setStateEx .StateClosed ex c1
      match c2.exception with
      | none => (.assertFailed, c2)
      | some e => (.raised e, c2)
    | (none, c1) => (.returned, hold c1)

/-! ## The worker -/

/-- The start of `Connection::run`: `validate()`, whose exception makes the
worker close and release the transport and return, then `activate()`. The
flag says whether the worker goes on to its loop. -/
def runStart (c : Connection) : Bool × Connection :=
  match validate c with
  | (.returned, c1) => (true, activate c1)
  | (.raised _, c1) => (false, { c1 with tr := c1.tr.close, transceiver := false })
  | (_, c1) => (false, c1)

/-- The locals of the loop body of `Connection::run`. -/
structure Worker where
  requestId : Int
  invokeNum : Int
  closed : Bool
  deriving DecidableEq, Repr

/-- The first block of the loop body of `Connection::run`:
`readStreamAndParseMessage(_stream, requestId, invokeNum)` with both locals
set to 0, and the handler that closes the connection with the exception. -/
def runRead (c : Connection) : ParseResult :=
  let p := readStreamAndParseMessage c 0 0
  match p.raised with
  | some ex => { p with c := setStateEx .StateClosed ex p.c }
  | none => p

/-- The call `_requests.find(requestId)`: the entry with that key. -/
def mapFind (m : List (Int × Outgoing)) (k : Int) : Option (Int × Outgoing) :=
  m.find? (fun p => p.1 == k)

/-- The call `_requests.erase(p)` for the entry with key `k`. -/
def mapErase (m : List (Int × Outgoing)) (k : Int) : List (Int × Outgoing) :=
  m.filter (fun p => p.1 != k)

/-- The iterator `p++` gives for the entry with key `k`: the key of the next
entry in key order, `none` for `_requests.end()`. -/
def mapNext : List (Int × Outgoing) → Int → Option Int
  | [], _ => none
  | (k1, _) :: rest, k => if k1 = k then rest.head?.map Prod.fst else mapNext rest k

/-- How the reply block of `Connection::run` ended: the reply was handed to
its outgoing; no entry was found and the connection was closed with
UnknownRequestIdException; or the hint, taken because its key is the request
id, does not refer to an entry of the map (a dereference of an invalid
iterator, whose effect is not modelled). -/
inductive ReplyEnd
  | delivered
  | unknownRequestId
  | invalidHint
  deriving DecidableEq, Repr

/-- The reply block of `Connection::run` (`requestId > 0`): the lookup that
tries `_requestsHint` first, `finished(_stream)` on the outgoing found, the
erase that moves the hint on when the hint was used, and the handler
`setState(StateClosed, ex)` for UnknownRequestIdException. -/
def processReply (stream : List Byte) (requestId : Int) (c : Connection) :
    ReplyEnd × Connection :=
  if c.requestsHint = some requestId then
    match mapFind c.requests requestId with
    | none => (.invalidHint, c)
    | some p =>
      (.delivered,
        { c with finished := c.finished ++ [(p.2, .reply stream)],
                 requestsHint := mapNext c.requests requestId,
                 requests := mapErase c.requests requestId })
  else
    match mapFind c.requests requestId with
    | none => (.unknownRequestId, setStateEx .StateClosed .UnknownRequestIdException c)
    | some p =>
      (.delivered,
        { c with finished := c.finished ++ [(p.2, .reply stream)],
                 requests := mapErase c.requests requestId })

/-- The block `if(_state != StateClosed) { ... }` of the locked part of the
loop body of `Connection::run`: a request or batch is counted in
`_dispatchCount` below Closing and dropped (`invokeNum = 0`) in Closing; a
reply is correlated. A reply block that dereferences a hint referring to no
entry of the map ends the block there (`invalidIterator`). -/
def classifyMessage (stream : List Byte) (w : Worker) (c : Connection) :
    Outcome × Worker × Connection :=
  if c.state ≠ .StateClosed then
    if w.invokeNum > 0 then
      if c.state.toNat < State.StateClosing.toNat then
        (.returned, w, { c with dispatchCount := c.dispatchCount + w.invokeNum })
      else if w.invokeNum = 1 then (.returned, { w with invokeNum := 0 }, c)
      else if w.invokeNum > 1 then (.returned, { w with invokeNum := 0 }, c)
      else (.returned, w, c)
    else if w.requestId > 0 then
      match processReply stream w.requestId c with
      | (.invalidHint, c1) => (.invalidIterator, w, c1)
      | (_, c1) => (.returned, w, c1)
    else (.returned, w, c)
  else (.returned, w, c)

/-- The two blocks `if(_state == StateClosed) { ... }` and `if(_state ==
StateClosed || _state == StateClosing) { ... }` that end the locked part of
the loop body of `Connection::run`: a Closed connection closes and releases
the transport and sets `closed`; in Closing or Closed every pending outgoing
gets `finished(*_exception.get())` and the map is cleared. -/
def classifyClose (w : Worker) (c : Connection) : Outcome × Worker × Connection :=
  let w1 := if c.state = .StateClosed then { w with closed := true } else w
  let c1 := if c.state = .StateClosed then { c with tr := c.tr.close, transceiver := false } else c
  if c1.state = .StateClosed ∨ c1.state = .StateClosing then
    match c1.exception with
    | none => (.assertFailed, w1, c1)
    | some e =>
      (.returned, w1,
        { c1 with finished := c1.finished ++ c1.requests.map (fun p => (p.2, .failed e)),
                  requests := [] })
  else (.returned, w1, c1)

/-- The locked part of the loop body of `Connection::run` (the
classification step) for a message parsed into `stream` and the locals `w`.
In Holding the worker waits between the two halves; a dereference of an
invalid hint in the reply block ends the step. -/
def runClassify (stream : List Byte) (w : Worker) (c : Connection) :
    Outcome × Worker × Connection :=
  let r := classifyMessage stream w c
  if r.1 = .invalidIterator then r
  else if r.2.2.state = .StateHolding then (.blocked, r.2.1, r.2.2)
  else classifyClose r.2.1 r.2.2

/-- Modelled from the spec: what one call `_in.invoke(response)` of the
dispatch adapter of this connection does (the Ice-E `Incoming` is not among
the sources). It either completes the invocation, which ends in exactly one
call of `sendResponse` (a response is expected; `body` is what the dispatch
marshalled after the reply header and request id) or of `sendNoResponse`; or
it raises, and then neither was called: a LocalException, a
`std::exception` with its `what()`, or anything else. -/
inductive InvokeOutcome
  | completed (body : List Byte)
  | raisedLocal (ex : LocalException)
  | raisedStd (what : String)
  | raisedOther
  deriving DecidableEq, Repr

/-- What the dispatch loop of `Connection::run` leaves behind: the local
`invokeNum`, the number of calls of `_in.invoke` made, the exception caught
around the loop, if any, and the connection. -/
structure DispatchEnd where
  invokeNum : Nat
  invoked : Nat
  caught : Option InvokeOutcome
  c : Connection
  deriving DecidableEq, Repr

/-- The loop `for(;invokeNum > 0; --invokeNum)` inside the `try` block of
`Connection::run`, for `invokeNum` invocations with the outcomes `script`
(first invocation first; an invocation past the end of the script completes
with an empty body). With `requestId != 0` the reply header and request id
are written before `_in.invoke(response)`. -/
def dispatchLoop (requestId : Int) : Nat → List InvokeOutcome → Connection → DispatchEnd
  | 0, _, c => ⟨0, 0, none, c⟩
  | n + 1, script, c =>
    match script.headD (.completed []) with
    | .completed body =>
      let c1 :=
        if requestId ≠ 0 then (sendResponse (writeReplyHeader [] requestId ++ body) c).2
        else sendNoResponse c
      let r := dispatchLoop requestId n script.tail c1
      { r with invoked := r.invoked + 1 }
    | o => ⟨n + 1, 1, some o, c⟩

/-- The part of the loop body of `Connection::run` after the lock is
released: the dispatch loop, the three handlers that close the connection,
and the final `if(invokeNum > 0) { _dispatchCount -= invokeNum; }`. -/
def runDispatch (w : Worker) (script : List InvokeOutcome) (c : Connection) : DispatchEnd :=
  let r := dispatchLoop w.requestId w.invokeNum.toNat script c
  let c1 :=
    match r.caught with
    | some (.raisedLocal ex) => setStateEx .StateClosed ex r.c
    | some (.raisedStd what) =>
      setStateEx .StateClosed (.UnknownException ("std::exception: " ++ what)) r.c
    | some .raisedOther =>
      setStateEx .StateClosed (.UnknownException "unknown c++ exception") r.c
    | _ => r.c
  if r.invokeNum > 0 then
    { r with c := { c1 with dispatchCount := c1.dispatchCount - (r.invokeNum : Int) } }
  else { r with c := c1 }

/-! ## The dispatch adapter of `src/cpp/src/Ice/Incoming.cpp` -/

/-- Modelled from the spec: `enum DispatchStatus` (its header is not among
the sources); the status byte of a reply is OK=0, ObjectNotExist=1,
LocationForward, LocalException, UnknownException in that order. -/
inductive DispatchStatus
  | DispatchOK
  | DispatchObjectNotExist
  | DispatchLocationForward
  | DispatchLocalException
  | DispatchUnknownException
  deriving DecidableEq, Repr

/-- The byte `static_cast<Byte>(status)` of a dispatch status. -/
def DispatchStatus.toByte : DispatchStatus → Byte
  | .DispatchOK => 0
  | .DispatchObjectNotExist => 1
  | .DispatchLocationForward => 2
  | .DispatchLocalException => 3
  | .DispatchUnknownException => 4

/-- What a call into the locator or the servant throws, as the three handlers
of `Incoming::invoke` tell it apart: a `LocationForward` with its proxy (here
the bytes `_os.write(p._prx)` marshals), a `LocalException`, or anything
else. -/
inductive Thrown
  | locationForward (prx : List Byte)
  | localException (ex : LocalException)
  | other
  deriving DecidableEq, Repr

/-- A servant as `Incoming::invoke` uses it for one invocation: a name for
the object, the bytes its `__dispatch` writes to the output stream, and the
status `__dispatch` returns or what it throws. -/
structure Servant where
  name : Nat
  written : List Byte
  result : Except Thrown DispatchStatus

/-- What `locator->locate(_adapter, identity, operation, cookie)` does: it
returns a servant or a null servant, with the cookie it stored, or throws. -/
inductive LocateResult
  | found (servant : Servant) (cookie : Nat)
  | notFound (cookie : Nat)
  | threw (t : Thrown)

/-- A servant locator: `locate`, and what the call number `n` (from 0) of
`finished` within the invocation throws, if anything. -/
structure ServantLocator where
  locate : String → String → LocateResult
  finished : Nat → Option Thrown

/-- The object adapter as `Incoming::invoke` uses it: `identityToServant`
and `getServantLocator`. -/
structure ObjectAdapter where
  identityToServant : String → Option Servant
  getServantLocator : Option ServantLocator

/-- The calls `Incoming::invoke` makes on the locator and the servant, in
order. -/
inductive DispatchEvent
  | locate (identity operation : String)
  | dispatch (servant : Nat) (operation : String)
  | finished (identity : String) (servant : Nat) (operation : String) (cookie : Nat)
  deriving DecidableEq, Repr

/-- The `try` block of `Incoming::invoke` at its end: what was thrown, if
anything, the locals `locator`, `servant` and `cookie`, the output stream
`_os.b` and the calls made. -/
structure InvokeTry where
  thrown : Option Thrown
  locator : Option ServantLocator
  servant : Option Servant
  cookie : Nat
  os : List Byte
  events : List DispatchEvent

/-- The first statement of the `try` block of `Incoming::invoke`, `if
(!servant) { locator = ...; if (locator) servant = locator->locate(...); }`,
for the servant `identityToServant` returned. -/
def locateServant (adapter : ObjectAdapter) (identity operation : String)
    (servant : Option Servant) (os : List Byte) : InvokeTry :=
  match servant with
  | some s => ⟨none, none, some s, 0, os, []⟩
  | none =>
    match adapter.getServantLocator with
    | none => ⟨none, none, none, 0, os, []⟩
    | some l =>
      match l.locate identity operation with
      | .found s cookie => ⟨none, some l, some s, cookie, os, [.locate identity operation]⟩
      | .notFound cookie => ⟨none, some l, none, cookie, os, [.locate identity operation]⟩
      | .threw t => ⟨some t, some l, none, 0, os, [.locate identity operation]⟩

/-- The `try` block of `Incoming::invoke`; `statusPos` is `_os.b.size()` at
entry. -/
def invokeTry (adapter : ObjectAdapter) (identity operation : String) (os : List Byte) :
    InvokeTry :=
  let statusPos := os.length
  let r := locateServant adapter identity operation (adapter.identityToServant identity) os
  match r.thrown with
  | some _ => r
  | none =>
    match r.servant with
    | none => { r with os := r.os ++ [DispatchStatus.DispatchObjectNotExist.toByte] }
    | some s =>
      let os1 := r.os ++ [DispatchStatus.DispatchOK.toByte]
      let events1 := r.events ++ [.dispatch s.name operation]
      match s.result with
      | .error t => { r with thrown := some t, os := os1 ++ s.written, events := events1 }
      | .ok status =>
        let os2 := (os1 ++ s.written).set statusPos status.toByte
        match r.locator with
        | none => { r with os := os2, events := events1 }
        | some l =>
          { r with thrown := l.finished 0, os := os2,
                   events := events1 ++ [.finished identity s.name operation r.cookie] }

/-- How `Incoming::invoke` ended. -/
inductive InvokeEnd
  | returned
  | threw (t : Thrown)
  deriving DecidableEq, Repr

/-- What `Incoming::invoke` leaves behind: how it ended, the output stream
`_os.b` and the calls made on the locator and the servant. -/
structure InvokeResult where
  ending : InvokeEnd
  os : List Byte
  events : List DispatchEvent
  deriving DecidableEq, Repr

/-- The function `Incoming::invoke` for a request whose identity and
operation were read from the input stream, with `os` the output stream at
entry. Each handler first calls `locator->finished` when `locator && servant`
(an exception of that call leaves the handler at once), then cuts the output
back to the status position and writes the status. -/
def invoke (adapter : ObjectAdapter) (identity operation : String) (os : List Byte) :
    InvokeResult :=
  let statusPos := os.length
  let t := invokeTry adapter identity operation os
  match t.thrown with
  | none => ⟨.returned, t.os, t.events⟩
  | some thrown =>
    let calls := t.events.countP (fun e => match e with | .finished _ _ _ _ => true | _ => false)
    let fin : Option (Option Thrown × DispatchEvent) :=
      match t.locator, t.servant with
      | some l, some s => some (l.finished calls, .finished identity s.name operation t.cookie)
      | _, _ => none
    let events1 := match fin with
      | some f => t.events ++ [f.2]
      | none => t.events
    match fin.bind (fun f => f.1) with
    | some t2 => ⟨.threw t2, t.os, events1⟩
    | none =>
      match thrown with
      | .locationForward prx =>
        ⟨.returned,
          t.os.take statusPos ++ [DispatchStatus.DispatchLocationForward.toByte] ++ prx, events1⟩
      | .localException ex =>
        ⟨.threw (.localException ex),
          t.os.take statusPos ++ [DispatchStatus.DispatchLocalException.toByte], events1⟩
      | .other =>
        ⟨.threw (.localException (.UnknownException "")),
          t.os.take statusPos ++ [DispatchStatus.DispatchUnknownException.toByte], events1⟩

/-! ## Definitions for the handshake, close and dispatch properties -/

/-- What every `setState` call keeps between the connection before (`c`) and
after (`d`): the outgoing registry with its hint, the log of completions, the
dispatch count and the mode. -/
def KeepsRegistry (c d : Connection) : Prop :=
  d.requests = c.requests ∧ d.requestsHint = c.requestsHint ∧ d.finished = c.finished ∧
  d.dispatchCount = c.dispatchCount ∧ d.blocking = c.blocking

/-- The handshake checks of the spec for the 14 bytes the passive side reads,
in the spec's order, each with its error. `none`: no check fails. -/
def handshakeError (h : List Byte) : Option LocalException :=
  if h.take 4 ≠ magic then some (.BadMagicException (h.take 4))
  else if h.getD 4 0 ≠ protocolMajor then
    some (.UnsupportedProtocolException (h.getD 4 0) (h.getD 5 0) protocolMajor protocolMinor)
  else if h.getD 6 0 ≠ encodingMajor then
    some (.UnsupportedEncodingException (h.getD 6 0) (h.getD 7 0) encodingMajor encodingMinor)
  else if h.getD 8 0 ≠ validateConnectionMsg then some .ConnectionNotValidatedException
  else if sizeSigned h ≠ 14 then some .IllegalMessageSizeException
  else none

/-- A client connection as the constructor leaves it whose peer has sent the
validate-connection frame. -/
def handshakePeer : Connection :=
  Connection.init
    (Transceiver.fresh [] [0x49, 0x63, 0x65, 0x50, 1, 0, 1, 0, 3, 0, 14, 0, 0, 0])
    false false 1048576 (-1)

/-- A client connection as the constructor leaves it whose peer has sent 14
bytes that start with X, Y, Z, W instead of the magic. -/
def badMagicPeer : Connection :=
  Connection.init
    (Transceiver.fresh [] [0x58, 0x59, 0x5A, 0x57, 1, 0, 1, 0, 3, 0, 14, 0, 0, 0])
    false false 1048576 (-1)

/-- An active client connection in thread-per-connection mode with one
two-way request written and its outgoing (handle 7, id 1) registered, the
caller parked waiting for the reply. -/
def pendingConnection : Connection :=
  (sendRequest requestHdr (some 7) false (applyOps [Op.hold, Op.activate] clientConnection)).c

/-- An active server connection in thread-per-connection mode with no
dispatch in flight. -/
def activeServer : Connection :=
  applyOps [Op.hold, Op.activate]
    (Connection.init (Transceiver.fresh [] []) false true 1048576 (-1))

/-- An adapter without servants and without a locator. -/
def emptyAdapter : ObjectAdapter :=
  { identityToServant := fun _ => none, getServantLocator := none }

/-- An adapter without servants whose locator finds nothing. -/
def idleLocatorAdapter : ObjectAdapter :=
  { identityToServant := fun _ => none,
    getServantLocator := some { locate := fun _ _ => .notFound 0, finished := fun _ => none } }

/-! ## Definitions for the dispatch, batch and reachability properties -/

/-- The function `Incoming::invoke` from the call
`_adapter->identityToServant(identity)` on, for a lookup that may throw: the
call stands before the `try` block, so what it throws leaves `invoke` at once,
no handler runs and nothing is written. `lookup` is what the call throws, if
anything. -/
def invokeFromLookup (lookup : Option Thrown) (adapter : ObjectAdapter)
    (identity operation : String) (os : List Byte) : InvokeResult :=
  match lookup with
  | some t => ⟨.threw t, os, []⟩
  | none => invoke adapter identity operation os

/-- Whether a call recorded by `Incoming::invoke` is a call of
`locator->finished`. -/
def DispatchEvent.isFinished : DispatchEvent → Bool
  | .finished _ _ _ _ => true
  | _ => false

/-- The number of calls of `locator->finished` among the calls made. -/
def finishedCalls (events : List DispatchEvent) : Nat := events.countP DispatchEvent.isFinished

/-- A servant (object 1) whose `__dispatch` writes the bytes 7, 8 and returns
the status ObjectNotExist. -/
def plainServant : Servant := { name := 1, written := [7, 8], result := .ok .DispatchObjectNotExist }

/-- A servant (object 2) whose `__dispatch` writes the bytes 7, 8 and then
throws a LocationForward with the proxy bytes 5, 6. -/
def forwardingServant : Servant :=
  { name := 2, written := [7, 8], result := .error (.locationForward [5, 6]) }

/-- An adapter whose servant map holds `plainServant` under every identity. -/
def mapAdapter : ObjectAdapter :=
  { identityToServant := fun _ => some plainServant, getServantLocator := none }

/-- An adapter with an empty servant map whose locator supplies the servant
`sv` with cookie 3; `fin` says what each call of `finished` throws. -/
def locatorAdapter (sv : Servant) (fin : Nat → Option Thrown) : ObjectAdapter :=
  { identityToServant := fun _ => none,
    getServantLocator := some { locate := fun _ _ => .found sv 3, finished := fin } }

/-- The call `_requests.find(requestId)` as an iterator: the position of the
entry with that key among the entries of the map in key order, `none` for
`_requests.end()`. -/
def mapFindPos : List (Int × Outgoing) → Int → Option Nat
  | [], _ => none
  | (k1, _) :: rest, k => if k1 = k then some 0 else (mapFindPos rest k).map (· + 1)

/-- The lookup of the reply block of `Connection::run`, with iterators as
positions in the map (`none`: `_requests.end()`): `p = _requests.end();
if(p != _requestsHint) { if(_requestsHint->first == requestId) { p =
_requestsHint; } } if(p == _requests.end()) { p = _requests.find(requestId);
}`. The iterator `p` the lookup ends with. -/
def selectWithHint (m : List (Int × Outgoing)) (requestsHint : Option Nat) (requestId : Int) :
    Option Nat :=
  let p : Option Nat :=
    match requestsHint with
    | none => none
    | some i => if (m[i]?).map Prod.fst = some requestId then some i else none
  match p with
  | some i => some i
  | none => mapFindPos m requestId

/-- A registry with the three entries 3, 5 and 8. -/
def threeRequests : List (Int × Outgoing) := [(3, 30), (5, 50), (8, 80)]

/-- The connection of a blocking client at the line `os->reset()` of
`Connection::sendRequest`, the two-way request written: the counter
`_nextRequestId` has moved on and the transport has taken the frame. -/
def blockingSent (os : List Byte) (c : Connection) : Connection :=
  let requestId := (allocRequestId c.nextRequestId).1
  let os1 := patchInt os headerSize requestId
  let os2 := patchInt os1 10 (wrapInt32 (os1.length : Int))
  { c with nextRequestId := (allocRequestId c.nextRequestId).2, tr := (c.tr.write os2).2 }

/-- What the blocking branch of `Connection::sendRequest` hands to
`out->finished` for the message it read, parsed into `p`, after the request
with id `requestId`: the reply stream, or the exception the `try` block
throws. -/
def blockingCompletion (requestId : Int) (p : ParseResult) : Completion :=
  match p.raised with
  | some ex => .failed ex
  | none =>
    if p.invokeNum > 0 then .failed .UnknownMessageException
    else if requestId ≠ p.requestId then .failed .UnknownRequestIdException
    else .reply p.stream

/-- An active client connection in blocking mode whose peer has sent the
reply to request 1 with the body bytes 0, 9. -/
def blockingReplied : Connection :=
  { Connection.init
      (Transceiver.fresh []
        [0x49, 0x63, 0x65, 0x50, 1, 0, 1, 0, 2, 0, 20, 0, 0, 0, 1, 0, 0, 0, 0, 9])
      true false 1048576 5000 with state := .StateActive }

/-! ## Batch requests -/

/-- The function `Connection::prepareBatchRequest(os)`: how the call ended,
the caller's stream `os->b` and the connection. An empty batch stream first
gets the `headerSize + sizeof(Int)` bytes of `_requestBatchHdr` (the write
into the empty stream is taken to succeed); the swap hands the batch stream
to the caller. -/
def prepareBatchRequest (os : List Byte) (c : Connection) : Outcome × List Byte × Connection :=
  if c.batchStreamInUse ∧ c.exception.isNone then (.blocked, os, c)
  else
    match c.exception with
    | some e => (.raised e, os, c)
    | none =>
      let b := if c.batchStream.isEmpty then c.batchStream ++ requestBatchHdr else c.batchStream
      (.returned, b, { c with batchStreamInUse := true, batchStream := os })

/-- The function `Connection::finishBatchRequest(os)`: the caller's stream
after the swap and the connection. The increment wraps. -/
def finishBatchRequest (os : List Byte) (c : Connection) : List Byte × Connection :=
  (c.batchStream,
    { c with batchStream := os, batchRequestNum := wrapInt32 (c.batchRequestNum + 1),
             batchStreamInUse := false })

/-- The function `Connection::abortBatchRequest`. -/
def abortBatchRequest (c : Connection) : Connection :=
  { c with batchStream := [], batchRequestNum := 0, batchStreamInUse := false }

/-- The calls of a client that batches requests: the three batch functions
around the marshalling of a request into the stream the caller holds, and
the flush. -/
inductive BatchOp
  | prepare
  | marshal (bytes : List Byte)
  | finish
  | abort
  | flush
  deriving DecidableEq, Repr

/-- A caller and its connection between batch calls: the stream the caller
holds, the connection, and the number of `finishBatchRequest` calls since the
batch stream was last reset (by `abortBatchRequest`, by a flush that wrote
the batch, or by the constructor). -/
structure BatchRun where
  os : List Byte
  c : Connection
  finishes : Nat
  deriving DecidableEq, Repr

/-- One call of a batching client; a call that raises or blocks leaves what
the function left. -/
def BatchOp.apply : BatchOp → BatchRun → BatchRun
  | .prepare, r =>
    { r with os := (prepareBatchRequest r.os r.c).2.1, c := (prepareBatchRequest r.os r.c).2.2 }
  | .marshal bytes, r => { r with os := r.os ++ bytes }
  | .finish, r =>
    { os := (finishBatchRequest r.os r.c).1, c := (finishBatchRequest r.os r.c).2,
      finishes := r.finishes + 1 }
  | .abort, r => { r with c := abortBatchRequest r.c, finishes := 0 }
  | .flush, r =>
    { r with c := (flushBatchRequests r.c).2,
             finishes :=
               if (flushBatchRequests r.c).1 = .returned ∧ r.c.batchStream ≠ [] then 0
               else r.finishes }

/-- A sequence of calls of a batching client, first call first. -/
def runBatchOps : List BatchOp → BatchRun → BatchRun
  | [], r => r
  | op :: ops, r => runBatchOps ops (op.apply r)

/-- The number of `finish` calls in a sequence. -/
def countFinish (ops : List BatchOp) : Nat := ops.countP (fun op => op == .finish)

/-- The calls that batch the requests with the given payloads: for each,
`prepareBatchRequest`, the marshalling of the payload, `finishBatchRequest`. -/
def batchCalls : List (List Byte) → List BatchOp
  | [] => []
  | p :: ps => .prepare :: .marshal p :: .finish :: batchCalls ps

/-- The batch stream after one more request with the marshalled bytes `p`
was batched: `prepareBatchRequest` puts the batch header into an empty
stream, the caller appends. -/
def batchWith (b p : List Byte) : List Byte :=
  (if b.isEmpty then b ++ requestBatchHdr else b) ++ p

/-- An active client connection in thread-per-connection mode with nothing
batched. -/
def activeClient : Connection := applyOps [Op.hold, Op.activate] clientConnection

/-! ## Reachable connections -/

/-- The function `Connection::waitForValidation`: it waits while the
connection is not validated and rethrows the stored exception when the state
is Closing or Closed. -/
def waitForValidation (c : Connection) : Outcome :=
  if c.state = .StateNotValidated then .blocked
  else if c.state.toNat ≥ State.StateClosing.toNat then
    match c.exception with
    | none => .assertFailed
    | some e => .raised e
  else .returned

/-- The operations as the code calls them: `setState(State)` is called from
outside `setState` with `StateActive` (`activate`) and `StateHolding` (`hold`)
only, its calls with `StateClosing` and `StateClosed` come from
`setState(State, ex)` and from `setState(State)` itself; `setState(State,
ex)` is called with `StateClosing` and `StateClosed` only. -/
def Op.callSite : Op → Bool
  | .setState s => s == .StateActive || s == .StateHolding
  | .setStateEx s _ => s == .StateClosing || s == .StateClosed
  | _ => true

/-- The connections the modelled functions can produce: the constructor's
connection, and from a reachable connection the result of any operation the
code calls, of `validate`, of a step of the worker (`run`: its start, the
read, the classification, the dispatch), and of the batch functions. -/
inductive Reachable : Connection → Prop
  | init (tr : Transceiver) (blocking adapter : Bool) (messageSizeMax : Nat) (timeout : Int) :
    Reachable (Connection.init tr blocking adapter messageSizeMax timeout)
  | op {c : Connection} (o : Op) : Reachable c → o.callSite = true → Reachable (o.apply c)
  | validate {c : Connection} : Reachable c → Reachable (validate c).2
  | runStart {c : Connection} : Reachable c → Reachable (runStart c).2
  | runRead {c : Connection} : Reachable c → Reachable (runRead c).c
  | runClassify {c : Connection} (stream : List Byte) (w : Worker) :
    Reachable c → Reachable (runClassify stream w c).2.2
  | runDispatch {c : Connection} (w : Worker) (script : List InvokeOutcome) :
    Reachable c → Reachable (runDispatch w script c).c
  | prepareBatchRequest {c : Connection} (os : List Byte) :
    Reachable c → Reachable (prepareBatchRequest os c).2.2
  | finishBatchRequest {c : Connection} (os : List Byte) :
    Reachable c → Reachable (finishBatchRequest os c).2
  | abortBatchRequest {c : Connection} : Reachable c → Reachable (abortBatchRequest c)

/-- The two facts that tie `_exception`, `_state` and `_transceiver`
together: a fatal error is stored exactly in Closing and Closed, and the
transport is released in Closed only. -/
def Consistent (c : Connection) : Prop :=
  (c.exception ≠ none ↔ (c.state = .StateClosing ∨ c.state = .StateClosed)) ∧
  (c.transceiver = false → c.state = .StateClosed)

/-- What a step that touches neither `_state`, `_exception` nor the pointer
`_transceiver` keeps. -/
def SameCore (c d : Connection) : Prop :=
  d.state = c.state ∧ d.exception = c.exception ∧ d.transceiver = c.transceiver

/-! ## Definitions for the registry and send-failure properties -/

/-- The iterator `_requestsHint` is valid for the map `_requests`: it is
`_requests.end()` or it refers to an entry of the map. -/
def HintValid (c : Connection) : Prop :=
  ∀ k, c.requestsHint = some k → k ∈ c.requests.map Prod.fst

/-- A client connection in thread-per-connection mode that `destroy` has
moved to Closing (the close-connection frame is written) and whose transport
times out on the next write. -/
def closingFaultyConnection : Connection :=
  destroy .CommunicatorDestroyed
    (applyOps [Op.hold, Op.activate]
      (Connection.init (Transceiver.fresh [none, some .Timeout] []) false false 1048576 5000))

/-- The connection `pendingConnection` (one two-way request pending under id
1, the hint at its entry) after `destroy` moved it to Closing and the worker
handled a message that is neither request nor reply: the fail-all block has
completed the outgoing with the stored error and cleared the map. -/
def staleHintConnection : Connection :=
  (runClassify [] ⟨0, 0, false⟩ (destroy .CommunicatorDestroyed pendingConnection)).2.2

/-- A server connection with one dispatch in flight (`replySender`) that
`destroy` has moved to Closing. -/
def closingReplySender : Connection := destroy .CommunicatorDestroyed replySender

/-! ## Properties -/

theorem setState_closed_eq (c : Connection) : setState .StateClosed c = setStateClosed c := by
  unfold setState setStateClosed setStateCommit
  by_cases h : c.state = .StateClosed
  · simp [h]
  · simp [h]

theorem setStateEx_closed_eq (ex : LocalException) (c : Connection) :
    setStateEx .StateClosed ex c = setStateClosedEx ex c := by
  unfold setStateEx setStateClosedEx
  by_cases h : c.state = .StateClosed
  · simp [h]
  · simp [h, setState_closed_eq]

theorem Advances.refl (c : Connection) : Advances c c :=
  ⟨Or.inl (Nat.le_refl _), fun _ h => h, fun h h1 => absurd h h1⟩

theorem Advances.trans {a b c : Connection} (h1 : Advances a b) (h2 : Advances b c) :
    Advances a c := by
  obtain ⟨m1, e1, s1⟩ := h1
  obtain ⟨m2, e2, s2⟩ := h2
  refine ⟨?_, fun e h => e2 e (e1 e h), ?_⟩
  · rcases m1 with m1 | ⟨ha, hb⟩
    · rcases m2 with m2 | ⟨hb, hc⟩
      · exact Or.inl (Nat.le_trans m1 m2)
      · rw [hb] at m1
        rw [hc]
        revert m1
        cases a.state <;> simp [State.toNat]
    · rcases m2 with m2 | ⟨hb2, _⟩
      · rw [hb] at m2
        rw [ha]
        revert m2
        cases c.state <;> simp [State.toNat]
      · rw [hb] at hb2
        cases hb2
  · intro ha hc
    cases hb : b.exception with
    | none => exact s2 hb hc
    | some e =>
      have hbs := s1 ha (by rw [hb]; simp)
      rcases m2 with m2 | ⟨hb2, _⟩
      · revert m2
        rcases hbs with hbs | hbs <;> rw [hbs] <;> cases c.state <;> simp [State.toNat]
      · rcases hbs with hbs | hbs <;> rw [hbs] at hb2 <;> cases hb2

theorem setStateClosed_state (c : Connection) : (setStateClosed c).state = .StateClosed := by
  unfold setStateClosed
  by_cases h : c.state = .StateClosed
  · simp [h]
  · by_cases hb : c.blocking = true <;> simp [h, hb]

theorem setStateClosed_exception (c : Connection) :
    (setStateClosed c).exception = c.exception := by
  unfold setStateClosed
  by_cases h : c.state = .StateClosed
  · simp [h]
  · by_cases hb : c.blocking = true <;> simp [h, hb]

theorem setStateClosed_of_closed (c : Connection) (h : c.state = .StateClosed) :
    setStateClosed c = c := by
  simp [setStateClosed, h]

theorem setStateClosedEx_state (ex : LocalException) (c : Connection) :
    (setStateClosedEx ex c).state = .StateClosed := by
  unfold setStateClosedEx
  by_cases h : c.state = .StateClosed
  · simp [h]
  · simp [h, setStateClosed_state]

theorem setStateClosedEx_exception (ex : LocalException) (c : Connection) :
    (setStateClosedEx ex c).exception =
      if c.state = .StateClosed then c.exception
      else if c.exception.isNone then some ex else c.exception := by
  unfold setStateClosedEx
  by_cases h : c.state = .StateClosed
  · simp [h]
  · by_cases hn : c.exception.isNone = true <;> simp [h, hn, setStateClosed_exception]

theorem state_le_closed (s : State) : s.toNat ≤ State.StateClosed.toNat := by
  cases s <;> simp [State.toNat]

theorem advances_setStateClosed (c : Connection) : Advances c (setStateClosed c) := by
  refine ⟨Or.inl ?_, ?_, ?_⟩
  · rw [setStateClosed_state]; exact state_le_closed _
  · intro e h; rw [setStateClosed_exception]; exact h
  · intro _ _; exact Or.inr (setStateClosed_state c)

theorem advances_setStateClosedEx (ex : LocalException) (c : Connection) :
    Advances c (setStateClosedEx ex c) := by
  refine ⟨Or.inl ?_, ?_, ?_⟩
  · rw [setStateClosedEx_state]; exact state_le_closed _
  · intro e h
    rw [setStateClosedEx_exception]
    by_cases hs : c.state = .StateClosed <;> simp [hs, h]
  · intro _ _; exact Or.inr (setStateClosedEx_state ex c)

theorem advances_of_fields {c d : Connection} (hs : d.state = c.state)
    (he : d.exception = c.exception) : Advances c d := by
  refine ⟨Or.inl (by rw [hs]), ?_, ?_⟩
  · intro e h; rw [he]; exact h
  · intro h h1; rw [he] at h1; exact absurd h h1

theorem initiateShutdown_state (c : Connection) : (initiateShutdown c).2.state = c.state := rfl

theorem initiateShutdown_exception (c : Connection) :
    (initiateShutdown c).2.exception = c.exception := rfl

theorem advances_initiateShutdown (c : Connection) : Advances c (initiateShutdown c).2 :=
  advances_of_fields rfl rfl

theorem advances_setStateCommit_self (t : State) (c : Connection) :
    Advances { c with state := t } (setStateCommit t c) := by
  unfold setStateCommit
  dsimp only
  split
  · split
    · rename_i c2 hw
      have h1 := advances_initiateShutdown { c with state := t }
      rw [hw] at h1
      split
      · exact h1.trans (advances_setStateClosed c2)
      · exact h1
    · rename_i ex c2 hw
      have h1 := advances_initiateShutdown { c with state := t }
      rw [hw] at h1
      exact h1.trans (advances_setStateClosedEx ex c2)
  · exact Advances.refl _

theorem advances_setStateCommit (t : State) (c : Connection)
    (h : c.state.toNat ≤ t.toNat ∨ (c.state = .StateHolding ∧ t = .StateActive)) :
    Advances c (setStateCommit t c) := by
  have h0 : Advances c { c with state := t } :=
    ⟨h, fun _ he => he, fun hn h1 => absurd hn h1⟩
  exact h0.trans (advances_setStateCommit_self t c)

theorem advances_setState (t : State) (c : Connection) (ht : t ≠ .StateNotValidated) :
    Advances c (setState t c) := by
  unfold setState
  split
  · exact Advances.refl _
  · rename_i h
    cases t with
    | StateNotValidated => exact absurd rfl ht
    | StateActive =>
      dsimp only
      split
      · exact Advances.refl _
      · rename_i h1
        apply advances_setStateCommit
        revert h1
        cases c.state <;> simp [State.toNat]
    | StateHolding =>
      dsimp only
      split
      · exact Advances.refl _
      · rename_i h1
        apply advances_setStateCommit
        revert h1
        cases c.state <;> simp [State.toNat]
    | StateClosing =>
      dsimp only
      split
      · exact Advances.refl _
      · rename_i h1
        apply advances_setStateCommit
        revert h1 h
        cases c.state <;> simp [State.toNat]
    | StateClosed =>
      have h2 := setState_closed_eq c
      unfold setState at h2
      rw [if_neg h] at h2
      dsimp only at h2 ⊢
      rw [h2]
      exact advances_setStateClosed c

theorem setStateCommit_state (t : State) (c : Connection) :
    (setStateCommit t c).state = t ∨
      (t = .StateClosing ∧ (setStateCommit t c).state = .StateClosed) := by
  unfold setStateCommit
  dsimp only
  split
  · rename_i h
    split
    · rename_i c2 hw
      have h1 := initiateShutdown_state { c with state := t }
      rw [hw] at h1
      split
      · exact Or.inr ⟨h.1, setStateClosed_state c2⟩
      · exact Or.inl h1
    · rename_i ex c2 hw
      exact Or.inr ⟨h.1, setStateClosedEx_state ex c2⟩
  · exact Or.inl rfl

theorem setState_state_closing (t : State) (c : Connection)
    (ht : t = .StateClosing ∨ t = .StateClosed) :
    (setState t c).state = .StateClosing ∨ (setState t c).state = .StateClosed := by
  rcases ht with ht | ht
  · subst ht
    unfold setState
    split
    · rename_i h; exact Or.inl h
    · dsimp only
      split
      · rename_i h; exact Or.inr h
      · rcases setStateCommit_state .StateClosing c with h | ⟨_, h⟩
        · exact Or.inl h
        · exact Or.inr h
  · subst ht
    rw [setState_closed_eq]
    exact Or.inr (setStateClosed_state c)

theorem advances_setStateEx (t : State) (ex : LocalException) (c : Connection)
    (ht : t = .StateClosing ∨ t = .StateClosed) : Advances c (setStateEx t ex c) := by
  have htn : t ≠ .StateNotValidated := by rcases ht with h | h <;> rw [h] <;> simp
  unfold setStateEx
  split
  · exact Advances.refl _
  · rename_i h
    dsimp only
    split
    · rename_i hn
      have h1 := advances_setState t { c with exception := some ex } htn
      obtain ⟨m, _, _⟩ := h1
      refine ⟨m, ?_, ?_⟩
      · intro e he
        rw [he] at hn
        simp at hn
      · intro _ _
        exact setState_state_closing t _ ht
    · exact advances_setState t c htn

theorem advances_activate (c : Connection) : Advances c (activate c) :=
  advances_setState _ c (by simp)

theorem advances_hold (c : Connection) : Advances c (hold c) :=
  advances_setState _ c (by simp)

theorem advances_destroy (reason : DestructionReason) (c : Connection) :
    Advances c (destroy reason c) := by
  cases reason <;> exact advances_setStateEx _ _ c (Or.inl rfl)

theorem advances_close (force : Bool) (c : Connection) : Advances c (close force c).2 := by
  unfold close
  split
  · exact advances_setStateEx _ _ c (Or.inr rfl)
  · split
    · exact Advances.refl _
    · exact advances_setStateEx _ _ c (Or.inl rfl)

theorem advances_sendNoResponse (c : Connection) : Advances c (sendNoResponse c) := by
  unfold sendNoResponse
  dsimp only
  have h0 : Advances c { c with dispatchCount := c.dispatchCount - 1 } :=
    advances_of_fields rfl rfl
  split
  · split
    · rename_i c2 hw
      have h1 := advances_initiateShutdown { c with dispatchCount := c.dispatchCount - 1 }
      rw [hw] at h1
      exact h0.trans h1
    · rename_i ex c2 hw
      have h1 := advances_initiateShutdown { c with dispatchCount := c.dispatchCount - 1 }
      rw [hw] at h1
      exact h0.trans (h1.trans (advances_setStateEx _ ex c2 (Or.inr rfl)))
  · exact h0

theorem advances_sendResponseWrite (os : List Byte) (c : Connection) :
    Advances c (sendResponseWrite os c).2 := by
  unfold sendResponseWrite
  split
  · split
    · exact Advances.refl _
    · exact advances_setStateEx _ _ c (Or.inr rfl)
  · dsimp only
    split
    · rename_i ex t hw
      exact (advances_of_fields rfl rfl : Advances c { c with tr := t }).trans
        (advances_setStateEx _ ex _ (Or.inr rfl))
    · exact advances_of_fields rfl rfl

theorem advances_sendResponse (os : List Byte) (c : Connection) :
    Advances c (sendResponse os c).2 := by
  unfold sendResponse
  have h := advances_sendResponseWrite os c
  split
  · rename_i c1 hw
    rw [hw] at h
    exact h.trans (advances_sendNoResponse c1)
  · exact h

theorem advances_flushBatchTry (c : Connection) : Advances c (flushBatchTry c).2 := by
  unfold flushBatchTry
  split
  · split <;> exact Advances.refl _
  · dsimp only
    split <;> exact advances_of_fields rfl rfl

theorem advances_flushBatchRequests (c : Connection) :
    Advances c (flushBatchRequests c).2 := by
  unfold flushBatchRequests
  split
  · exact Advances.refl _
  · split
    · exact Advances.refl _
    · split
      · exact Advances.refl _
      · dsimp only
        have h0 : Advances c { c with batchStreamInUse := true } := advances_of_fields rfl rfl
        have h1 := advances_flushBatchTry { c with batchStreamInUse := true }
        split
        · rename_i ex c2 hw
          rw [hw] at h1
          have h2 := advances_setStateEx .StateClosed ex c2 (Or.inr rfl)
          split <;> exact h0.trans (h1.trans h2)
        · rename_i c2 hw
          rw [hw] at h1
          exact h0.trans (h1.trans (advances_of_fields rfl rfl))
        · rename_i c2 hw
          rw [hw] at h1
          exact h0.trans h1
        · rename_i c2 hw
          rw [hw] at h1
          exact h0.trans h1

theorem parseMessageType_c (messageType : Byte) (b : List Byte) (requestId invokeNum : Int)
    (c : Connection) : (parseMessageType messageType b requestId invokeNum c).c = c := by
  unfold parseMessageType
  repeat' split
  all_goals rfl

theorem Transceiver.read_written (t : Transceiver) (n : Nat) :
    (t.read n).2.written = t.written ∧ (t.read n).2.writeFaults = t.writeFaults := by
  unfold Transceiver.read
  split <;> exact ⟨rfl, rfl⟩

theorem Transceiver.read_written_of {t t2 : Transceiver} {n : Nat}
    {r : Except LocalException (List Byte)} (h : t.read n = (r, t2)) :
    t2.written = t.written := by
  have h1 := (Transceiver.read_written t n).1
  rw [h] at h1
  exact h1

theorem readStreamAndParseMessage_c (c : Connection) (requestId invokeNum : Int) :
    (readStreamAndParseMessage c requestId invokeNum).c =
      { c with tr := (readStreamAndParseMessage c requestId invokeNum).c.tr } := by
  unfold readStreamAndParseMessage
  split
  · rfl
  · dsimp only
    repeat' split
    all_goals first
      | rfl
      | (rw [parseMessageType_c])

theorem readStreamAndParseMessage_written (c : Connection) (requestId invokeNum : Int) :
    (readStreamAndParseMessage c requestId invokeNum).c.tr.written = c.tr.written := by
  unfold readStreamAndParseMessage
  have h1 := Transceiver.read_written c.tr headerSize
  split
  · rename_i ex t hr
    rw [hr] at h1
    exact h1.1
  · rename_i header t hr
    rw [hr] at h1
    dsimp only
    repeat' split
    all_goals first
      | exact h1.1
      | (rw [parseMessageType_c]; exact h1.1)
      | (rename_i t2 hr2
         have h2 := Transceiver.read_written_of hr2
         first
           | exact h2.trans h1.1
           | (rw [parseMessageType_c]; exact h2.trans h1.1))

theorem setStateClosed_written (c : Connection) :
    (setStateClosed c).tr.written = c.tr.written ∧ (setStateClosed c).finished = c.finished := by
  unfold setStateClosed
  split
  · exact ⟨rfl, rfl⟩
  · dsimp only
    split <;> exact ⟨rfl, rfl⟩

theorem setStateClosedEx_written (ex : LocalException) (c : Connection) :
    (setStateClosedEx ex c).tr.written = c.tr.written ∧
      (setStateClosedEx ex c).finished = c.finished := by
  unfold setStateClosedEx
  split
  · exact ⟨rfl, rfl⟩
  · dsimp only
    split
    · exact setStateClosed_written _
    · exact setStateClosed_written _

theorem Transceiver.write_written (t : Transceiver) (buf : List Byte) :
    ((t.write buf).1 = none ∧ (t.write buf).2.written = t.written ++ [buf]) ∨
    ((t.write buf).1 ≠ none ∧ (t.write buf).2.written = t.written) := by
  unfold Transceiver.write
  split
  · exact Or.inl ⟨rfl, rfl⟩
  · exact Or.inl ⟨rfl, rfl⟩
  · exact Or.inr ⟨by simp, rfl⟩

theorem Transceiver.write_of {t t2 : Transceiver} {buf : List Byte} {r : Option LocalException}
    (h : t.write buf = (r, t2)) :
    (r = none → t2.written = t.written ++ [buf]) ∧ (r ≠ none → t2.written = t.written) := by
  have h1 := Transceiver.write_written t buf
  rw [h] at h1
  rcases h1 with ⟨h1, h2⟩ | ⟨h1, h2⟩
  · exact ⟨fun _ => h2, fun hr => absurd h1 hr⟩
  · exact ⟨fun hr => absurd hr h1, fun _ => h2⟩

theorem prepareRequest_fields (os : List Byte) (out : Option Outgoing) (c : Connection) :
    (prepareRequest os out c).2.2.tr = c.tr ∧
    (prepareRequest os out c).2.2.state = c.state ∧
    (prepareRequest os out c).2.2.exception = c.exception ∧
    (prepareRequest os out c).2.2.finished = c.finished ∧
    (prepareRequest os out c).2.1 = (match out with
      | some _ => patchInt os headerSize (allocRequestId c.nextRequestId).1
      | none => os) := by
  unfold prepareRequest
  cases out with
  | none => exact ⟨rfl, rfl, rfl, rfl, rfl⟩
  | some o =>
    dsimp only
    split <;> exact ⟨rfl, rfl, rfl, rfl, rfl⟩

theorem awaitReply_spec (o : Outgoing) (requestId : Int) (os : List Byte) (completed : Bool)
    (c : Connection) :
    (awaitReply o requestId os completed c).requestSent = true ∧
    (awaitReply o requestId os completed c).c.tr.written = c.tr.written ∧
    (∀ ex, (awaitReply o requestId os completed c).ending = .thrown ex →
      (awaitReply o requestId os completed c).c.finished = c.finished) ∧
    Advances c (awaitReply o requestId os completed c).c := by
  have hc := readStreamAndParseMessage_c c 0 0
  have hw := readStreamAndParseMessage_written c 0 0
  have ha : Advances c (readStreamAndParseMessage c 0 0).c := by
    rw [hc]; exact advances_of_fields rfl rfl
  have hf : (readStreamAndParseMessage c 0 0).c.finished = c.finished := by rw [hc]
  unfold awaitReply
  split
  · dsimp only
    split
    · exact ⟨rfl, hw, fun _ _ => hf, ha⟩
    · split
      · exact ⟨rfl, hw, fun _ _ => hf, ha⟩
      · split
        · exact ⟨rfl, hw, fun _ _ => hf, ha⟩
        · refine ⟨rfl, hw, ?_, ha.trans (advances_of_fields rfl rfl)⟩
          intro ex h
          simp at h
  · split
    · exact ⟨rfl, rfl, fun _ _ => rfl, Advances.refl _⟩
    · split
      · rw [setStateEx_closed_eq]
        exact ⟨rfl, (setStateClosedEx_written _ c).1, fun _ _ => (setStateClosedEx_written _ c).2,
          advances_setStateClosedEx _ c⟩
      · exact ⟨rfl, rfl, fun _ _ => rfl, Advances.refl _⟩

/-- The buffer `Connection::sendRequest` hands to `_transceiver->write`, and
what the `try` block keeps. -/
theorem sendRequestTry_spec (os : List Byte) (out : Option Outgoing) (completed : Bool)
    (c : Connection) :
    (sendRequestTry os out completed c).c.tr.written =
      (if (sendRequestTry os out completed c).requestSent then
        c.tr.written ++ [patchInt (match out with
          | some _ => patchInt os headerSize (allocRequestId c.nextRequestId).1
          | none => os) 10 (wrapInt32 ((match out with
          | some _ => patchInt os headerSize (allocRequestId c.nextRequestId).1
          | none => os).length : Int))]
      else c.tr.written) ∧
    ((sendRequestTry os out completed c).ending = .done →
      (sendRequestTry os out completed c).requestSent = true) ∧
    (∀ ex, (sendRequestTry os out completed c).ending = .thrown ex →
      (sendRequestTry os out completed c).c.finished = c.finished ∧
      ((sendRequestTry os out completed c).requestSent = true → out ≠ none)) ∧
    Advances c (sendRequestTry os out completed c).c := by
  obtain ⟨ptr, pst, pex, pfin, pos⟩ := prepareRequest_fields os out c
  have hp : Advances c (prepareRequest os out c).2.2 := advances_of_fields pst pex
  unfold sendRequestTry
  split
  · split
    · exact ⟨rfl, by simp, by simp, Advances.refl _⟩
    · exact ⟨rfl, by simp, by simp, Advances.refl _⟩
  · dsimp only
    split
    · rename_i ex t hw
      have h := (Transceiver.write_of hw).2 (by simp)
      rw [ptr] at h
      exact ⟨by simpa using h, by simp, fun _ _ => ⟨pfin, by simp⟩,
        hp.trans (advances_of_fields rfl rfl)⟩
    · rename_i t hw
      have h := (Transceiver.write_of hw).1 rfl
      rw [ptr, pos] at h
      cases out with
      | none =>
        dsimp only at h ⊢
        exact ⟨by simpa using h, by simp, by simp, hp.trans (advances_of_fields rfl rfl)⟩
      | some o =>
        dsimp only at h ⊢
        obtain ⟨a1, a2, a3, a4⟩ := awaitReply_spec o (prepareRequest os (some o) c).1
          (patchInt (prepareRequest os (some o) c).2.1 10
            (wrapInt32 ((prepareRequest os (some o) c).2.1.length : Int))) completed
          { (prepareRequest os (some o) c).2.2 with tr := t }
        refine ⟨?_, fun _ => a1, ?_, ?_⟩
        · rw [a1, a2]
          simpa using h
        · intro ex hex
          exact ⟨(a3 ex hex).trans pfin, by simp⟩
        · exact hp.trans ((advances_of_fields rfl rfl :
            Advances _ { (prepareRequest os (some o) c).2.2 with tr := t }).trans a4)

theorem advances_sendRequest (os : List Byte) (out : Option Outgoing) (completed : Bool)
    (c : Connection) : Advances c (sendRequest os out completed c).c := by
  have h := (sendRequestTry_spec os out completed c).2.2.2
  unfold sendRequest
  dsimp only
  split
  · exact h
  · exact h
  · exact h
  · rename_i ex _
    have h1 := h.trans (advances_setStateEx .StateClosed ex _ (Or.inr rfl))
    split
    · exact h1
    · split
      · split
        · exact h1.trans (advances_of_fields rfl rfl)
        · exact h1
      · exact h1

theorem advances_apply (op : Op) (c : Connection) (hv : op.valid = true) :
    Advances c (op.apply c) := by
  cases op with
  | activate => exact advances_activate c
  | hold => exact advances_hold c
  | destroy reason => exact advances_destroy reason c
  | close force => exact advances_close force c
  | setState s =>
    apply advances_setState
    intro h
    simp [Op.valid, h] at hv
  | setStateEx s ex =>
    apply advances_setStateEx
    simpa [Op.valid] using hv
  | sendRequest os out completed => exact advances_sendRequest os out completed c
  | flushBatchRequests => exact advances_flushBatchRequests c
  | sendResponse os => exact advances_sendResponse os c
  | sendNoResponse => exact advances_sendNoResponse c

theorem advances_applyOps (ops : List Op) (c : Connection)
    (hv : ∀ op ∈ ops, op.valid = true) : Advances c (applyOps ops c) := by
  induction ops generalizing c with
  | nil => exact Advances.refl c
  | cons op rest ih =>
    have h1 := advances_apply op c (hv op (List.mem_cons_self _ _))
    have h2 := ih (op.apply c) (fun o ho => hv o (List.mem_cons_of_mem _ ho))
    exact h1.trans h2

theorem setState_of_not_allowed (t : State) (c : Connection) (ht : t ≠ .StateNotValidated)
    (h : allowed c.state t = false) : setState t c = c := by
  unfold setState
  split
  · rfl
  · rename_i hne
    revert h hne
    cases t <;> cases hs : c.state <;> simp [allowed] at ht ⊢

theorem setState_of_allowed (t : State) (c : Connection) (h : allowed c.state t = true) :
    (setState t c).state = t ∨ (t = .StateClosing ∧ (setState t c).state = .StateClosed) := by
  by_cases hc : t = .StateClosed
  · subst hc
    rw [setState_closed_eq]
    exact Or.inl (setStateClosed_state c)
  · have : setState t c = setStateCommit t c := by
      unfold setState
      revert h hc
      cases t <;> cases hs : c.state <;> simp [allowed]
    rw [this]
    exact setStateCommit_state t c

/-- C2. For every connection and every target among Active, Holding, Closing
and Closed, `setState` changes the state exactly when the transition table
allows the move; an allowed move ends in the target (or, for Closing, in
Closed when the shutdown that follows closes the connection); any other call
leaves the whole connection as it was; and no operation changes the state of
a Closed connection. -/
theorem setState_follows_transition_table (c : Connection) (t : State)
    (ht : t ≠ .StateNotValidated) :
    ((setState t c).state ≠ c.state ↔ allowed c.state t = true) ∧
    (allowed c.state t = true →
      (setState t c).state = t ∨ (t = .StateClosing ∧ (setState t c).state = .StateClosed)) ∧
    (allowed c.state t = false → setState t c = c) ∧
    (c.state = .StateClosed →
      ∀ op : Op, op.valid = true → (op.apply c).state = .StateClosed) := by
  refine ⟨?_, setState_of_allowed t c, setState_of_not_allowed t c ht, ?_⟩
  · constructor
    · intro hne
      by_contra hna
      have := setState_of_not_allowed t c ht (by simpa using hna)
      rw [this] at hne
      exact hne rfl
    · intro ha hEq
      have h1 := setState_of_allowed t c ha
      rw [hEq] at h1
      revert ha h1
      cases t <;> cases hs : c.state <;> simp [allowed]
  · intro hcl op hv
    have h := (advances_apply op c hv).1
    rw [hcl] at h
    revert h
    cases (op.apply c).state <;> simp [State.toNat]

/-- C3 (as stated, refuted). The start-up path of every connection, `hold`
(at the end of `validate`) followed by `activate` (in `run`), takes the state
from Holding (value 2) down to Active (value 1). -/
theorem state_value_drops_from_holding_to_active :
    (applyOps [Op.hold] clientConnection).state = .StateHolding ∧
    (Op.activate.apply (applyOps [Op.hold] clientConnection)).state = .StateActive ∧
    ¬ ((applyOps [Op.hold] clientConnection).state.toNat ≤
        (Op.activate.apply (applyOps [Op.hold] clientConnection)).state.toNat) := by
  decide

/-- C3 (amended). Along every sequence of operations the state value never
decreases, except that a connection in Holding may return to Active; in
particular from Closing on the value never decreases. -/
theorem state_never_drops_except_holding_to_active (ops : List Op) (c : Connection)
    (hv : ∀ op ∈ ops, op.valid = true) :
    (c.state.toNat ≤ (applyOps ops c).state.toNat ∨
      (c.state = .StateHolding ∧ (applyOps ops c).state = .StateActive)) ∧
    (State.StateClosing.toNat ≤ c.state.toNat →
      c.state.toNat ≤ (applyOps ops c).state.toNat) := by
  have h := (advances_applyOps ops c hv).1
  refine ⟨h, ?_⟩
  intro hc
  rcases h with h | ⟨h1, _⟩
  · exact h
  · rw [h1] at hc
    simp [State.toNat] at hc

theorem state_never_drops_witness :
    (∀ op ∈ [Op.hold, Op.activate, Op.close true], op.valid = true) ∧
    (clientConnection.state.toNat ≤
        (applyOps [Op.hold, Op.activate, Op.close true] clientConnection).state.toNat ∨
      (clientConnection.state = .StateHolding ∧
        (applyOps [Op.hold, Op.activate, Op.close true] clientConnection).state =
          .StateActive)) :=
  ⟨by decide,
    (state_never_drops_except_holding_to_active [Op.hold, Op.activate, Op.close true]
      clientConnection (by decide)).1⟩

theorem setState_transition_table_witness :
    State.StateActive ≠ State.StateNotValidated ∧
    ((setState .StateActive clientConnection).state ≠ clientConnection.state ↔
      allowed clientConnection.state .StateActive = true) :=
  ⟨by decide,
    (setState_follows_transition_table clientConnection .StateActive (by decide)).1⟩

/-- C4. Once a fatal error is stored, no sequence of operations replaces it:
the stored error stays the one of the first call that stored one, also when a
connection in Closing is moved to Closed with another exception; and a
`setState` call with an exception on a connection without a stored error
stores that call's exception or none. -/
theorem stored_exception_set_once (ops : List Op) (c : Connection) (e : LocalException)
    (hv : ∀ op ∈ ops, op.valid = true) (he : c.exception = some e) :
    (applyOps ops c).exception = some e ∧
    (∀ ex2 : LocalException,
      (setStateEx .StateClosed ex2 c).state = .StateClosed ∧
      (setStateEx .StateClosed ex2 c).exception = some e) ∧
    (∀ (d : Connection) (s : State) (ex : LocalException),
      s = .StateClosing ∨ s = .StateClosed → d.exception = none →
      (setStateEx s ex d).exception = none ∨ (setStateEx s ex d).exception = some ex) := by
  refine ⟨(advances_applyOps ops c hv).2.1 e he, ?_, ?_⟩
  · intro ex2
    rw [setStateEx_closed_eq]
    exact ⟨setStateClosedEx_state ex2 c,
      (advances_setStateClosedEx ex2 c).2.1 e he⟩
  · intro d s ex hs hd
    unfold setStateEx
    split
    · exact Or.inl hd
    · dsimp only
      have hsn : s ≠ .StateNotValidated := by rcases hs with h | h <;> rw [h] <;> simp
      split
      · exact Or.inr ((advances_setState s { d with exception := some ex } hsn).2.1 ex rfl)
      · rename_i hn
        rw [hd] at hn
        simp at hn

theorem stored_exception_set_once_witness :
    (∀ op ∈ [Op.close true, Op.destroy .CommunicatorDestroyed], op.valid = true) ∧
    (applyOps [Op.close false] clientConnection).exception =
      some .CloseConnectionException ∧
    (applyOps [Op.close true, Op.destroy .CommunicatorDestroyed]
      (applyOps [Op.close false] clientConnection)).exception =
      some .CloseConnectionException :=
  ⟨by decide, by decide,
    (stored_exception_set_once [Op.close true, Op.destroy .CommunicatorDestroyed]
      (applyOps [Op.close false] clientConnection) .CloseConnectionException
      (by decide) (by decide)).1⟩

/-- C5 (as stated, refuted). `destroy` on an active connection without a
stored error stores CommunicatorDestroyedException, and the connection ends in
Closing, not in Closed. -/
theorem closing_stores_fatal_error :
    (applyOps [Op.hold, Op.activate] clientConnection).state = .StateActive ∧
    (applyOps [Op.hold, Op.activate] clientConnection).exception = none ∧
    ((Op.destroy .CommunicatorDestroyed).apply
        (applyOps [Op.hold, Op.activate] clientConnection)).exception =
      some .CommunicatorDestroyedException ∧
    ((Op.destroy .CommunicatorDestroyed).apply
        (applyOps [Op.hold, Op.activate] clientConnection)).state = .StateClosing ∧
    ((Op.destroy .CommunicatorDestroyed).apply
        (applyOps [Op.hold, Op.activate] clientConnection)).state ≠ .StateClosed := by
  decide

/-- C5 (amended). Entering Closing or Closed are the only transitions that
set the stored fatal error: for every operation and every connection without
a stored error, if the connection has a stored error afterwards then it is in
Closing or in Closed. -/
theorem stored_exception_only_in_closing_or_closed (op : Op) (c : Connection)
    (hv : op.valid = true) (hn : c.exception = none) (hs : (op.apply c).exception ≠ none) :
    (op.apply c).state = .StateClosing ∨ (op.apply c).state = .StateClosed :=
  (advances_apply op c hv).2.2 hn hs

theorem stored_exception_only_in_closing_or_closed_witness :
    (Op.close true).valid = true ∧ clientConnection.exception = none ∧
    ((Op.close true).apply clientConnection).exception ≠ none ∧
    (((Op.close true).apply clientConnection).state = .StateClosing ∨
      ((Op.close true).apply clientConnection).state = .StateClosed) :=
  ⟨by decide, by decide, by decide,
    stored_exception_only_in_closing_or_closed (Op.close true) clientConnection
      (by decide) (by decide) (by decide)⟩

theorem allocRequestId_eq (n : Int) :
    allocRequestId n = if n ≤ 0 then (1, 2) else (n, wrapInt32 (n + 1)) := by
  unfold allocRequestId
  dsimp only
  split
  · rfl
  · rfl

theorem reachableCounter_range {n : Int} (h : ReachableCounter n) :
    (1 ≤ n ∧ n ≤ 2147483647) ∨ n = -2147483648 := by
  induction h with
  | init => left; omega
  | step _ ih =>
    rw [allocRequestId_eq]
    split
    · left; simp
    · simp only [wrapInt32]
      omega

theorem allocRequestId_fst_range {n : Int}
    (h : (1 ≤ n ∧ n ≤ 2147483647) ∨ n = -2147483648) :
    1 ≤ (allocRequestId n).1 ∧ (allocRequestId n).1 ≤ 2147483647 := by
  rw [allocRequestId_eq]
  split
  · simp
  · simp only
    omega

theorem allocRequestId_next {n : Int}
    (h : (1 ≤ n ∧ n ≤ 2147483647) ∨ n = -2147483648) :
    (allocRequestId (allocRequestId n).2).1 = (allocRequestId n).1 % 2147483647 + 1 := by
  rw [allocRequestId_eq n]
  split
  · simp [allocRequestId_eq]
  · rw [allocRequestId_eq]
    simp only [wrapInt32]
    split <;> omega

theorem nthRequestId_closed_form (k : Nat) (n : Int) (h : ReachableCounter n) :
    nthRequestId n k = ((allocRequestId n).1 - 1 + (k : Int)) % 2147483647 + 1 := by
  induction k generalizing n with
  | zero =>
    have h1 := allocRequestId_fst_range (reachableCounter_range h)
    simp only [nthRequestId, counterAfter]
    omega
  | succ k ih =>
    have h1 := allocRequestId_fst_range (reachableCounter_range h)
    have h2 := allocRequestId_next (reachableCounter_range h)
    have h3 := ih (allocRequestId n).2 (ReachableCounter.step h)
    have h4 : nthRequestId n (k + 1) = nthRequestId (allocRequestId n).2 k := rfl
    rw [h4, h3, h2]
    push_cast
    omega

theorem reachableCounter_nat (k : Nat) (hk : (k : Int) + 1 ≤ 2147483647) :
    ReachableCounter ((k : Int) + 1) := by
  induction k with
  | zero => exact ReachableCounter.init
  | succ k ih =>
    have h1 := ReachableCounter.step (ih (by omega))
    rw [allocRequestId_eq] at h1
    have h2 : ¬ ((k : Int) + 1 ≤ 0) := by omega
    rw [if_neg h2] at h1
    simp only [wrapInt32] at h1
    have h3 : ((k : Int) + 1 + 1 + 2147483648) % 4294967296 - 2147483648 = ((k + 1 : Nat) : Int) + 1 := by
      push_cast
      omega
    rw [h3] at h1
    exact h1

theorem reachableCounter_wrapped : ReachableCounter (-2147483648) := by
  have h1 := ReachableCounter.step (reachableCounter_nat 2147483646 (by norm_num))
  have h2 : (allocRequestId (((2147483646 : Nat) : Int) + 1)).2 = -2147483648 := by decide
  rw [h2] at h1
  exact h1

theorem setStateClosedEx_nextRequestId (ex : LocalException) (c : Connection) :
    (setStateClosedEx ex c).nextRequestId = c.nextRequestId := by
  unfold setStateClosedEx setStateClosed
  dsimp only
  repeat' split
  all_goals rfl

theorem awaitReply_requestId (o : Outgoing) (requestId : Int) (os : List Byte)
    (completed : Bool) (c : Connection) :
    (awaitReply o requestId os completed c).requestId = requestId ∧
    (awaitReply o requestId os completed c).c.nextRequestId = c.nextRequestId := by
  have hc := readStreamAndParseMessage_c c 0 0
  have hn : (readStreamAndParseMessage c 0 0).c.nextRequestId = c.nextRequestId := by rw [hc]
  unfold awaitReply
  dsimp only
  repeat' split
  all_goals first
    | exact ⟨rfl, hn⟩
    | exact ⟨rfl, rfl⟩
    | exact ⟨rfl, by rw [setStateEx_closed_eq]; exact setStateClosedEx_nextRequestId _ c⟩

theorem sendRequestTry_requestId (os : List Byte) (o : Outgoing) (completed : Bool)
    (c : Connection) (ht : c.transceiver = true) :
    (sendRequestTry os (some o) completed c).requestId = (allocRequestId c.nextRequestId).1 ∧
    (sendRequestTry os (some o) completed c).c.nextRequestId =
      (allocRequestId c.nextRequestId).2 := by
  have hp1 : (prepareRequest os (some o) c).1 = (allocRequestId c.nextRequestId).1 := by
    unfold prepareRequest
    dsimp only
    split <;> rfl
  have hp2 : (prepareRequest os (some o) c).2.2.nextRequestId =
      (allocRequestId c.nextRequestId).2 := by
    unfold prepareRequest
    dsimp only
    split <;> rfl
  unfold sendRequestTry
  rw [if_neg (by simp [ht])]
  dsimp only
  split
  · exact ⟨hp1, hp2⟩
  · rename_i t hw
    have h := awaitReply_requestId o (prepareRequest os (some o) c).1
      (patchInt (prepareRequest os (some o) c).2.1 10
        (wrapInt32 ((prepareRequest os (some o) c).2.1.length : Int))) completed
      { (prepareRequest os (some o) c).2.2 with tr := t }
    exact ⟨h.1.trans hp1, h.2.trans hp2⟩

/-- C6. For every value of the counter `_nextRequestId` reachable from its
initial value 1, the id a two-way `sendRequest` allocates lies in
1..2^31-1; the counter it leaves is reachable again; and the id allocated
next is the id plus 1, except that the id after 2^31-1 is 1. -/
theorem request_id_positive_and_successive (c : Connection) (os : List Byte) (o : Outgoing)
    (completed : Bool) (ht : c.transceiver = true) (hr : ReachableCounter c.nextRequestId) :
    1 ≤ (sendRequestTry os (some o) completed c).requestId ∧
    (sendRequestTry os (some o) completed c).requestId ≤ 2147483647 ∧
    ReachableCounter (sendRequestTry os (some o) completed c).c.nextRequestId ∧
    (∀ (d : Connection) (os2 : List Byte) (o2 : Outgoing) (completed2 : Bool),
      d.transceiver = true →
      d.nextRequestId = (sendRequestTry os (some o) completed c).c.nextRequestId →
      (sendRequestTry os2 (some o2) completed2 d).requestId =
        if (sendRequestTry os (some o) completed c).requestId = 2147483647 then 1
        else (sendRequestTry os (some o) completed c).requestId + 1) := by
  obtain ⟨h1, h2⟩ := sendRequestTry_requestId os o completed c ht
  have hrange := reachableCounter_range hr
  have hb := allocRequestId_fst_range hrange
  rw [h1, h2]
  refine ⟨hb.1, hb.2, ReachableCounter.step hr, ?_⟩
  intro d os2 o2 completed2 hd hn
  rw [(sendRequestTry_requestId os2 o2 completed2 d hd).1, hn, allocRequestId_next hrange]
  split <;> omega

theorem request_id_positive_and_successive_witness :
    clientConnection.transceiver = true ∧ ReachableCounter clientConnection.nextRequestId ∧
    1 ≤ (sendRequestTry requestHdr (some 7) true clientConnection).requestId ∧
    (sendRequestTry requestHdr (some 7) true clientConnection).requestId ≤ 2147483647 :=
  ⟨by decide, ReachableCounter.init,
    (request_id_positive_and_successive clientConnection requestHdr 7 true (by decide)
      ReachableCounter.init).1,
    (request_id_positive_and_successive clientConnection requestHdr 7 true (by decide)
      ReachableCounter.init).2.1⟩

/-- C7 (as stated, refuted). The counter value after 2^31-1 allocations is
reachable, and on a connection whose first request (id 1) is still pending a
two-way `sendRequest` then allocates id 1 again: the wrap skips the values
below 1 but not the live id, the map keeps the old entry, and the new
outgoing (handle 8) is not registered. -/
theorem wrapped_counter_reuses_live_id :
    ReachableCounter wrappedConnection.nextRequestId ∧
    wrappedConnection.requests = [(1, 7)] ∧
    (sendRequestTry requestHdr (some 8) true wrappedConnection).requestId = 1 ∧
    (sendRequest requestHdr (some 8) true wrappedConnection).outcome = .returned ∧
    (sendRequest requestHdr (some 8) true wrappedConnection).c.requests = [(1, 7)] ∧
    (sendRequest requestHdr (some 8) true wrappedConnection).c.tr.written =
      [[0x49, 0x63, 0x65, 0x50, 1, 0, 1, 0, 0, 0, 18, 0, 0, 0, 1, 0, 0, 0]] :=
  ⟨reachableCounter_wrapped, by decide, by decide, by decide, by decide, by decide⟩

/-- C7 (amended). Request ids are positive and run through 1..2^31-1 in a
cycle: two allocations fewer than 2^31-1 apart get different ids, and the
allocation 2^31-1 after another gets the same id again. The wrap skips 0
and the negative values only; the registry is not consulted. -/
theorem request_ids_distinct_within_cycle (n : Int) (i j : Nat) (hr : ReachableCounter n)
    (hij : i < j) (hj : j < i + 2147483647) :
    nthRequestId n i ≠ nthRequestId n j ∧
    1 ≤ nthRequestId n i ∧ nthRequestId n i ≤ 2147483647 ∧
    nthRequestId n (i + 2147483647) = nthRequestId n i ∧
    (∀ (c : Connection) (os : List Byte) (o : Outgoing) (completed : Bool),
      c.transceiver = true → c.nextRequestId = counterAfter n i →
      (sendRequestTry os (some o) completed c).requestId = nthRequestId n i) := by
  refine ⟨?_, ?_, ?_, ?_, ?_⟩
  · rw [nthRequestId_closed_form i n hr, nthRequestId_closed_form j n hr]
    omega
  · rw [nthRequestId_closed_form i n hr]
    omega
  · rw [nthRequestId_closed_form i n hr]
    omega
  · rw [nthRequestId_closed_form i n hr, nthRequestId_closed_form (i + 2147483647) n hr]
    push_cast
    omega
  · intro c os o completed ht hn
    rw [(sendRequestTry_requestId os o completed c ht).1, hn]
    rfl

theorem request_ids_distinct_within_cycle_witness :
    ReachableCounter 1 ∧ (0 : Nat) < 5 ∧ (5 : Nat) < 0 + 2147483647 ∧
    nthRequestId 1 0 ≠ nthRequestId 1 5 :=
  ⟨ReachableCounter.init, by decide, by decide,
    (request_ids_distinct_within_cycle 1 0 5 ReachableCounter.init (by decide)
      (by decide)).1⟩

theorem patchInt_cons (x : Byte) (b : List Byte) (off : Nat) (v : Int) :
    patchInt (x :: b) (off + 1) v = x :: patchInt b off v := by
  simp [patchInt, List.set]

theorem patchInt_eq (b : List Byte) (off : Nat) (v : Int) (h : off + 4 ≤ b.length) :
    patchInt b off v = b.take off ++ intBytes v ++ b.drop (off + 4) := by
  induction off generalizing b with
  | zero =>
    match b, h with
    | x0 :: x1 :: x2 :: x3 :: rest, _ => simp [patchInt, intBytes, List.set]
  | succ off ih =>
    match b, h with
    | x :: rest, h =>
      rw [patchInt_cons, ih rest (by simpa using h)]
      simp

theorem patchInt_length (b : List Byte) (off : Nat) (v : Int) :
    (patchInt b off v).length = b.length := by
  simp [patchInt]

theorem bytesInt_intBytes (v : Int) (h1 : -2147483648 ≤ v) (h2 : v ≤ 2147483647) :
    bytesInt (v % 256).toNat (v / 256 % 256).toNat (v / 65536 % 256).toNat
      (v / 16777216 % 256).toNat = v := by
  unfold bytesInt wrapInt32
  have e0 : (((v % 256).toNat : Nat) : Int) = v % 256 := Int.toNat_of_nonneg (by omega)
  have e1 : (((v / 256 % 256).toNat : Nat) : Int) = v / 256 % 256 :=
    Int.toNat_of_nonneg (by omega)
  have e2 : (((v / 65536 % 256).toNat : Nat) : Int) = v / 65536 % 256 :=
    Int.toNat_of_nonneg (by omega)
  have e3 : (((v / 16777216 % 256).toNat : Nat) : Int) = v / 16777216 % 256 :=
    Int.toNat_of_nonneg (by omega)
  rw [e0, e1, e2, e3]
  omega

theorem toNat_eq_of {x : Int} {n : Nat} (h : x = (n : Int)) : x.toNat = n := by
  subst h
  simp

theorem intBytes_wrapInt32 (n : Nat) : intBytes (wrapInt32 (n : Int)) = le32 n := by
  unfold intBytes wrapInt32 le32
  simp only [List.cons.injEq, and_true]
  refine ⟨?_, ?_, ?_, ?_⟩ <;> apply toNat_eq_of <;> push_cast <;> omega

theorem intBytes_of_nonneg (v : Int) (h : 0 ≤ v) : intBytes v = le32 v.toNat := by
  obtain ⟨n, rfl⟩ := Int.eq_ofNat_of_zero_le h
  unfold intBytes le32
  simp only [Int.toNat_ofNat, List.cons.injEq, and_true]
  refine ⟨?_, ?_, ?_, ?_⟩ <;> apply toNat_eq_of <;> push_cast <;> omega

theorem Transceiver.write_of_completes (t : Transceiver) (buf : List Byte)
    (h : t.nextWriteCompletes = true) : (t.write buf).1 = none := by
  unfold Transceiver.nextWriteCompletes at h
  unfold Transceiver.write
  split
  · rfl
  · rfl
  · rename_i hf
    rw [hf] at h
    simp at h

theorem sendRequestTry_sent (os : List Byte) (out : Option Outgoing) (completed : Bool)
    (c : Connection) (ht : c.transceiver = true) (hw : c.tr.nextWriteCompletes = true) :
    (sendRequestTry os out completed c).requestSent = true := by
  have hp := (prepareRequest_fields os out c).1
  unfold sendRequestTry
  rw [if_neg (by simp [ht])]
  dsimp only
  split
  · rename_i ex t hwr
    have h1 := Transceiver.write_of_completes (prepareRequest os out c).2.2.tr
      (patchInt (prepareRequest os out c).2.1 10
        (wrapInt32 ((prepareRequest os out c).2.1.length : Int))) (by rw [hp]; exact hw)
    rw [hwr] at h1
    simp at h1
  · split
    · rfl
    · exact (awaitReply_spec _ _ _ _ _).1

theorem sendRequest_written (os : List Byte) (out : Option Outgoing) (completed : Bool)
    (c : Connection) :
    (sendRequest os out completed c).c.tr.written =
      (sendRequestTry os out completed c).c.tr.written := by
  unfold sendRequest
  dsimp only
  split
  · rfl
  · rfl
  · rfl
  · rename_i ex _
    have h := (setStateClosedEx_written ex (sendRequestTry os out completed c).c).1
    rw [← setStateEx_closed_eq] at h
    repeat' split
    all_goals exact h

theorem sendRequest_frame (c : Connection) (os : List Byte)
    (out : Option Outgoing) (completed : Bool) (ht : c.transceiver = true)
    (hw : c.tr.nextWriteCompletes = true) (hr : ReachableCounter c.nextRequestId)
    (hn : 18 ≤ os.length) :
    (sendRequest os out completed c).c.tr.written = c.tr.written ++
      [match out with
        | some _ => os.take 10 ++ le32 os.length ++
            le32 (sendRequestTry os out completed c).requestId.toNat ++ os.drop 18
        | none => os.take 10 ++ le32 os.length ++ os.drop 14] := by
  rw [sendRequest_written, (sendRequestTry_spec os out completed c).1,
    sendRequestTry_sent os out completed c ht hw, if_pos rfl]
  cases out with
  | none =>
    dsimp only
    rw [patchInt_eq os 10 _ (by omega), intBytes_wrapInt32]
  | some o =>
    dsimp only
    have hid := allocRequestId_fst_range (reachableCounter_range hr)
    rw [(sendRequestTry_requestId os o completed c ht).1,
      patchInt_eq _ 10 _ (by rw [patchInt_length]; omega), patchInt_length,
      intBytes_wrapInt32, patchInt_eq os headerSize _ (by unfold headerSize; omega),
      intBytes_of_nonneg _ (by omega)]
    have h14 : (List.take 14 os).length = 14 := by
      rw [List.length_take]; omega
    have hl : (le32 (allocRequestId c.nextRequestId).1.toNat).length = 4 := rfl
    simp only [headerSize, List.append_assoc, List.cons.injEq, and_true]
    have e1 : List.take 10 (List.take 14 os ++
        (le32 (allocRequestId c.nextRequestId).1.toNat ++ List.drop (14 + 4) os)) =
        List.take 10 os := by
      rw [List.take_append_of_le_length (by omega), List.take_take]
      rfl
    have e2 : List.drop (10 + 4) (List.take 14 os ++
        (le32 (allocRequestId c.nextRequestId).1.toNat ++ List.drop (14 + 4) os)) =
        le32 (allocRequestId c.nextRequestId).1.toNat ++ List.drop 18 os := by
      rw [List.drop_append_of_le_length (by omega)]
      simp
    rw [e1, e2]

/-- C8. For every payload buffer of at least 18 bytes handed to `sendRequest`
on a connection that still owns its transport and whose write completes, the
transport receives exactly one buffer: the payload with bytes 10..13 replaced
by the little-endian encoding of its length and, for a two-way call, bytes
14..17 replaced by the little-endian encoding of the allocated id; a one-way
call leaves bytes 14..17 as supplied; every other byte is unchanged. -/
theorem sendRequest_writes_patched_frame (c : Connection) (os : List Byte)
    (out : Option Outgoing) (completed : Bool) (ht : c.transceiver = true)
    (hw : c.tr.nextWriteCompletes = true) (hr : ReachableCounter c.nextRequestId)
    (hn : 18 ≤ os.length) :
    (sendRequest os out completed c).c.tr.written = c.tr.written ++
      [match out with
        | some _ => os.take 10 ++ le32 os.length ++
            le32 (sendRequestTry os out completed c).requestId.toNat ++ os.drop 18
        | none => os.take 10 ++ le32 os.length ++ os.drop 14] :=
  sendRequest_frame c os out completed ht hw hr hn

theorem Transceiver.read_append (t : Transceiver) (h rest : List Byte)
    (hin : t.input = h ++ rest) :
    t.read h.length = (.ok h, { t with input := rest }) := by
  unfold Transceiver.read
  rw [hin]
  simp

theorem Transceiver.read_error {t t2 : Transceiver} {n : Nat} {ex : LocalException}
    (h : t.read n = (.error ex, t2)) : ex.isHeaderError = false := by
  unfold Transceiver.read at h
  split at h
  · simp at h
  · simp only [Prod.mk.injEq, Except.error.injEq] at h
    rw [← h.1]
    cases t.inputEnd <;> rfl

theorem readInt_error (b : List Byte) (pos : Nat) (ex : LocalException)
    (h : readInt b pos = .error ex) : ex = .UnmarshalOutOfBoundsException := by
  unfold readInt at h
  split at h
  · simp at h
  · simp at h
    exact h.symm

theorem parseMessageType_raised (messageType : Byte) (b : List Byte) (requestId invokeNum : Int)
    (c : Connection) (e : LocalException)
    (h : (parseMessageType messageType b requestId invokeNum c).raised = some e) :
    e.isHeaderError = false := by
  unfold parseMessageType at h
  repeat' split at h
  all_goals first
    | (simp at h; done)
    | (simp at h; subst h; rfl)
    | (rename_i ex hr
       simp at h
       subst h
       rw [readInt_error _ _ _ hr]
       rfl)

/-- C10 (as stated, refuted). A header with the size bytes FF FF FF FF has the
unsigned size 4294967295, which is not below 14 and is above the limit of
1 MB, so the rules read on the unsigned value give MemoryLimit; the code reads
the size as a signed `Ice::Int`, gets -1 and raises IllegalMessageSize. -/
theorem huge_size_is_illegal_not_memory_limit :
    hugeSizeConnection.tr.input.length = 14 ∧
    sizeUnsigned hugeSizeConnection.tr.input = 4294967295 ∧
    headerError (sizeUnsigned hugeSizeConnection.tr.input : Int)
      (hugeSizeConnection.messageSizeMax : Int) hugeSizeConnection.tr.input =
      some .MemoryLimitException ∧
    sizeSigned hugeSizeConnection.tr.input = -1 ∧
    (readStreamAndParseMessage hugeSizeConnection 0 0).raised =
      some .IllegalMessageSizeException := by
  decide

theorem checkHeader_eq (messageSizeMax : Nat) (h : List Byte) (hl : h.length = 14) :
    checkHeader messageSizeMax h =
      match headerError (sizeSigned h) (wrapInt32 (messageSizeMax : Int)) h with
      | some e => .error e
      | none => .ok (sizeSigned h) := by
  match h, hl with
  | [h0, h1, h2, h3, h4, h5, h6, h7, h8, h9, h10, h11, h12, h13], _ =>
    have hm : ([h0, h1, h2, h3, h4, h5, h6, h7, h8, h9, h10, h11, h12, h13].take 4 ≠ magic) ↔
        (h0 ≠ 0x49 ∨ h1 ≠ 0x63 ∨ h2 ≠ 0x65 ∨ h3 ≠ 0x50) := by
      simp only [List.take, magic, ne_eq, List.cons.injEq, and_true, not_and_or]
    unfold checkHeader headerError
    rw [if_congr hm rfl rfl]
    simp only [List.getD_cons_zero, List.getD_cons_succ, magic, sizeSigned, readInt, headerSize,
      List.drop, Nat.reduceSub, Nat.cast_ofNat]
    repeat' split
    all_goals first
      | rfl
      | (exfalso; simp_all; done)
      | simp_all

/-- C10 (amended). For every 14-byte header the transport delivers,
`readStreamAndParseMessage` raises the error of the first failing rule in the
order magic, protocol major, encoding major, compression byte 2, size below
14, size above the limit, where size is the signed 32-bit little-endian value
of bytes 10..13 (so a size field with the top bit set is negative and gives
IllegalMessageSize); a header that passes all six rules raises none of these
six errors. -/
theorem header_rules_in_order (c : Connection) (h rest : List Byte) (r i : Int)
    (hl : h.length = 14) (hin : c.tr.input = h ++ rest) :
    (∀ e, headerError (sizeSigned h) (wrapInt32 (c.messageSizeMax : Int)) h = some e →
      (readStreamAndParseMessage c r i).raised = some e) ∧
    (headerError (sizeSigned h) (wrapInt32 (c.messageSizeMax : Int)) h = none →
      ∀ e, (readStreamAndParseMessage c r i).raised = some e → e.isHeaderError = false) := by
  have hread := Transceiver.read_append c.tr h rest hin
  rw [hl] at hread
  have hck := checkHeader_eq c.messageSizeMax h hl
  unfold readStreamAndParseMessage
  rw [show headerSize = 14 from rfl, hread]
  dsimp only
  rw [hck]
  constructor
  · intro e he
    rw [he]
  · intro hn e
    rw [hn]
    dsimp only
    split
    · split
      · rename_i hrd
        intro he
        simp only [Option.some.injEq] at he
        subst he
        exact Transceiver.read_error hrd
      · exact parseMessageType_raised _ _ _ _ _ e
    · exact parseMessageType_raised _ _ _ _ _ e

theorem bytesInt_le32 (n : Nat) (h : n ≤ 2147483647) :
    bytesInt (n % 256) (n / 256 % 256) (n / 65536 % 256) (n / 16777216 % 256) = (n : Int) := by
  unfold bytesInt wrapInt32
  push_cast
  omega

theorem wrapInt32_le (x : Int) : wrapInt32 x ≤ 2147483647 := by
  unfold wrapInt32
  omega

/-- Reading back a frame: when the 14 header bytes pass validation and the
size field is the length of header and body, the body is read in full and the
message type decides. -/
theorem readStreamAndParseMessage_ok (c : Connection) (h body rest : List Byte) (r i : Int)
    (hl : h.length = 14)
    (hhe : headerError (sizeSigned h) (wrapInt32 (c.messageSizeMax : Int)) h = none)
    (hsz : sizeSigned h = ((14 + body.length : Nat) : Int))
    (hin : c.tr.input = h ++ body ++ rest) :
    readStreamAndParseMessage c r i =
      parseMessageType (h.getD 8 0) (h ++ body) r i
        { c with tr := { c.tr with input := rest } } := by
  have hin1 : c.tr.input = h ++ (body ++ rest) := by rw [hin, List.append_assoc]
  have hread := Transceiver.read_append c.tr h (body ++ rest) hin1
  rw [hl] at hread
  have hck := checkHeader_eq c.messageSizeMax h hl
  rw [hhe] at hck
  have hread2 := Transceiver.read_append { c.tr with input := body ++ rest } body rest rfl
  have hw14 : wrapInt32 ((14 : Nat) : Int) = 14 := by decide
  unfold readStreamAndParseMessage
  rw [show headerSize = 14 from rfl, hread]
  dsimp only
  rw [hck]
  dsimp only
  rw [hl, hw14, hsz]
  by_cases hb : body = []
  · subst hb
    rw [if_neg (by simp)]
    simp
  · have hpos : 0 < body.length := List.length_pos.mpr hb
    rw [if_pos (by push_cast; omega)]
    have hl2 : ((14 + body.length : Nat) : Int).toNat - 14 = body.length := by
      rw [Int.toNat_ofNat]; omega
    rw [hl2, hread2]

theorem initiateShutdown_written (c : Connection) :
    ∃ more, (initiateShutdown c).2.tr.written = c.tr.written ++ more := by
  unfold initiateShutdown
  rcases Transceiver.write_written c.tr closeConnectionFrame with ⟨_, h⟩ | ⟨_, h⟩
  · exact ⟨[closeConnectionFrame], h⟩
  · exact ⟨[], by simpa using h⟩

theorem sendNoResponse_written (c : Connection) :
    ∃ more, (sendNoResponse c).tr.written = c.tr.written ++ more := by
  unfold sendNoResponse
  dsimp only
  split
  · obtain ⟨more, h⟩ := initiateShutdown_written { c with dispatchCount := c.dispatchCount - 1 }
    split
    · rename_i c2 hq
      rw [hq] at h
      exact ⟨more, h⟩
    · rename_i ex c2 hq
      rw [hq] at h
      rw [setStateEx_closed_eq, (setStateClosedEx_written ex c2).1]
      exact ⟨more, h⟩
  · exact ⟨[], by simp⟩

theorem sendResponse_frame (os : List Byte) (c : Connection) (ht : c.transceiver = true)
    (hw : c.tr.nextWriteCompletes = true) :
    ∃ more, (sendResponse os c).2.tr.written =
      c.tr.written ++ patchInt os 10 (wrapInt32 (os.length : Int)) :: more := by
  have h1 := Transceiver.write_of_completes c.tr (patchInt os 10 (wrapInt32 (os.length : Int))) hw
  have hsw : sendResponseWrite os c = (.returned, { c with tr :=
      (c.tr.write (patchInt os 10 (wrapInt32 (os.length : Int)))).2 }) := by
    unfold sendResponseWrite
    rw [if_neg (by simp [ht])]
    dsimp only
    split
    · rename_i ex t hq
      rw [hq] at h1
      simp at h1
    · rename_i t hq
      rw [hq]
  unfold sendResponse
  rw [hsw]
  dsimp only
  obtain ⟨more, hm⟩ := sendNoResponse_written { c with tr :=
      (c.tr.write (patchInt os 10 (wrapInt32 (os.length : Int)))).2 }
  refine ⟨more, ?_⟩
  rw [hm]
  rcases Transceiver.write_written c.tr (patchInt os 10 (wrapInt32 (os.length : Int))) with
    ⟨_, h⟩ | ⟨h, _⟩
  · dsimp only
    rw [h]
    simp
  · exact absurd h1 h

theorem flushBatchRequests_frame (c : Connection) (ht : c.transceiver = true)
    (hw : c.tr.nextWriteCompletes = true) (he : c.exception = none)
    (hu : c.batchStreamInUse = false) (hb : c.batchStream ≠ []) :
    (flushBatchRequests c).1 = .returned ∧
    (flushBatchRequests c).2.tr.written = c.tr.written ++
      [patchInt (patchInt c.batchStream headerSize c.batchRequestNum) 10
        (wrapInt32 ((patchInt c.batchStream headerSize c.batchRequestNum).length : Int))] ∧
    (flushBatchRequests c).2.batchStream = [] ∧
    (flushBatchRequests c).2.batchRequestNum = 0 ∧
    (flushBatchRequests c).2.batchStreamInUse = false := by
  have h1 := Transceiver.write_of_completes c.tr
    (patchInt (patchInt c.batchStream headerSize c.batchRequestNum) 10
      (wrapInt32 ((patchInt c.batchStream headerSize c.batchRequestNum).length : Int))) hw
  have h2 := Transceiver.write_written c.tr
    (patchInt (patchInt c.batchStream headerSize c.batchRequestNum) 10
      (wrapInt32 ((patchInt c.batchStream headerSize c.batchRequestNum).length : Int)))
  have hft : flushBatchTry { c with batchStreamInUse := true } = (.done,
      { c with batchStreamInUse := true,
               batchStream := patchInt (patchInt c.batchStream headerSize c.batchRequestNum) 10
                 (wrapInt32 ((patchInt c.batchStream headerSize c.batchRequestNum).length : Int)),
               tr := (c.tr.write (patchInt (patchInt c.batchStream headerSize c.batchRequestNum) 10
                 (wrapInt32 ((patchInt c.batchStream headerSize c.batchRequestNum).length : Int)))).2 }) := by
    unfold flushBatchTry
    rw [if_neg (by simp [ht])]
    dsimp only
    split
    · rename_i ex t hq
      rw [hq] at h1
      simp at h1
    · rename_i t hq
      rw [hq]
  unfold flushBatchRequests
  rw [if_neg (by simp [hu])]
  split
  · rename_i e hex
    rw [he] at hex
    simp at hex
  · rw [if_neg (by simpa using hb)]
    dsimp only
    rw [hft]
    dsimp only
    rcases h2 with ⟨_, h⟩ | ⟨h, _⟩
    · exact ⟨rfl, h, rfl, rfl, rfl⟩
    · exact absurd h1 h

theorem parseMessageType_request (v0 v1 v2 v3 : Byte) (pre tail : List Byte) (r i : Int)
    (c : Connection) (hp : pre.length = 14) :
    parseMessageType requestMsg (pre ++ [v0, v1, v2, v3] ++ tail) r i c =
      ⟨none, pre ++ [v0, v1, v2, v3] ++ tail, bytesInt v0 v1 v2 v3, 1, c⟩ := by
  have hd : (pre ++ [v0, v1, v2, v3] ++ tail).drop headerSize = v0 :: v1 :: v2 :: v3 :: tail := by
    rw [List.append_assoc, List.drop_append_of_le_length (by rw [hp]; decide),
      show headerSize = pre.length from hp.symm]
    simp
  unfold parseMessageType readInt
  rw [hd, if_neg (by decide), if_neg (by decide), if_pos rfl]

theorem parseMessageType_batch (v0 v1 v2 v3 : Byte) (pre tail : List Byte) (r i : Int)
    (c : Connection) (hp : pre.length = 14) (hv : 0 ≤ bytesInt v0 v1 v2 v3) :
    parseMessageType requestBatchMsg (pre ++ [v0, v1, v2, v3] ++ tail) r i c =
      ⟨none, pre ++ [v0, v1, v2, v3] ++ tail, r, bytesInt v0 v1 v2 v3, c⟩ := by
  have hd : (pre ++ [v0, v1, v2, v3] ++ tail).drop headerSize = v0 :: v1 :: v2 :: v3 :: tail := by
    rw [List.append_assoc, List.drop_append_of_le_length (by rw [hp]; decide),
      show headerSize = pre.length from hp.symm]
    simp
  unfold parseMessageType readInt
  rw [hd, if_neg (by decide), if_neg (by decide), if_neg (by decide), if_pos rfl]
  dsimp only
  rw [if_neg (by omega)]

theorem parseMessageType_reply (v0 v1 v2 v3 : Byte) (pre tail : List Byte) (r i : Int)
    (c : Connection) (hp : pre.length = 14) :
    parseMessageType replyMsg (pre ++ [v0, v1, v2, v3] ++ tail) r i c =
      ⟨none, pre ++ [v0, v1, v2, v3] ++ tail, bytesInt v0 v1 v2 v3, i, c⟩ := by
  have hd : (pre ++ [v0, v1, v2, v3] ++ tail).drop headerSize = v0 :: v1 :: v2 :: v3 :: tail := by
    rw [List.append_assoc, List.drop_append_of_le_length (by rw [hp]; decide),
      show headerSize = pre.length from hp.symm]
    simp
  unfold parseMessageType readInt
  rw [hd, if_neg (by decide), if_pos rfl]

theorem singleton_of_append_eq {α : Type} {l : List α} {a b : α} (h : l ++ [a] = l ++ [b]) :
    a = b := by
  simpa using h

theorem readStreamAndParseMessage_frame (c : Connection) (mt : Byte) (n : Nat)
    (v0 v1 v2 v3 : Byte) (tail rest : List Byte) (r i : Int) (hn : n = 18 + tail.length)
    (hlim : (n : Int) ≤ wrapInt32 (c.messageSizeMax : Int))
    (hin : c.tr.input =
      ([0x49, 0x63, 0x65, 0x50, 1, 0, 1, 0, mt, 0] ++ le32 n ++ [v0, v1, v2, v3] ++ tail) ++ rest) :
    readStreamAndParseMessage c r i =
      parseMessageType mt
        ([0x49, 0x63, 0x65, 0x50, 1, 0, 1, 0, mt, 0] ++ le32 n ++ [v0, v1, v2, v3] ++ tail)
        r i { c with tr := { c.tr with input := rest } } := by
  have hn31 : n ≤ 2147483647 := by
    have := wrapInt32_le (c.messageSizeMax : Int)
    omega
  have hsz : sizeSigned ([0x49, 0x63, 0x65, 0x50, 1, 0, 1, 0, mt, 0] ++ le32 n) =
      ((14 + ([v0, v1, v2, v3] ++ tail).length : Nat) : Int) := by
    have h1 : sizeSigned ([0x49, 0x63, 0x65, 0x50, 1, 0, 1, 0, mt, 0] ++ le32 n) =
        bytesInt (n % 256) (n / 256 % 256) (n / 65536 % 256) (n / 16777216 % 256) := rfl
    rw [h1, bytesInt_le32 n hn31, hn]
    simp
    omega
  have hhe : headerError (sizeSigned ([0x49, 0x63, 0x65, 0x50, 1, 0, 1, 0, mt, 0] ++ le32 n))
      (wrapInt32 (c.messageSizeMax : Int))
      ([0x49, 0x63, 0x65, 0x50, 1, 0, 1, 0, mt, 0] ++ le32 n) = none := by
    rw [hsz]
    have hn14 : ¬ (((14 + ([v0, v1, v2, v3] ++ tail).length : Nat) : Int) < 14) := by omega
    have hnl : ¬ (((14 + ([v0, v1, v2, v3] ++ tail).length : Nat) : Int) >
        wrapInt32 (c.messageSizeMax : Int)) := by
      simp only [List.length_append, List.length_cons, List.length_nil]
      omega
    simp only [headerError, hn14, hnl, if_false]
    simp [magic, protocolMajor, encodingMajor, le32]
  have h := readStreamAndParseMessage_ok c ([0x49, 0x63, 0x65, 0x50, 1, 0, 1, 0, mt, 0] ++ le32 n)
    ([v0, v1, v2, v3] ++ tail) rest r i rfl hhe hsz
    (by rw [hin]; simp only [List.append_assoc])
  rw [h]
  simp only [List.append_assoc]
  rfl
theorem patchInt_id_size (os : List Byte) (v : Int) (hv : 0 ≤ v) (hn : 18 ≤ os.length) :
    patchInt (patchInt os headerSize v) 10
        (wrapInt32 ((patchInt os headerSize v).length : Int)) =
      os.take 10 ++ le32 os.length ++ le32 v.toNat ++ os.drop 18 := by
  rw [patchInt_eq _ 10 _ (by rw [patchInt_length]; omega), patchInt_length,
    intBytes_wrapInt32, patchInt_eq os headerSize _ (by unfold headerSize; omega),
    intBytes_of_nonneg _ hv]
  have h14 : (List.take 14 os).length = 14 := by
    rw [List.length_take]; omega
  have hl : (le32 v.toNat).length = 4 := rfl
  simp only [headerSize, List.append_assoc]
  have e1 : List.take 10 (List.take 14 os ++ (le32 v.toNat ++ List.drop (14 + 4) os)) =
      List.take 10 os := by
    rw [List.take_append_of_le_length (by omega), List.take_take]
    rfl
  have e2 : List.drop (10 + 4) (List.take 14 os ++ (le32 v.toNat ++ List.drop (14 + 4) os)) =
      le32 v.toNat ++ List.drop 18 os := by
    rw [List.drop_append_of_le_length (by omega)]
    simp
  rw [e1, e2]

theorem cons_of_append_eq {α : Type} {l m1 m2 : List α} {a b : α}
    (h : l ++ a :: m1 = l ++ b :: m2) : a = b := by
  have := List.append_cancel_left h
  simp at this
  exact this.1

/-- C9. Header round trip. A request buffer that starts with the request
header template, sent two-way by `sendRequest` with its length within the
receiver's message size limit, is parsed by `readStreamAndParseMessage`
without error into the allocated request id and `invokeNum = 1`, the payload
after offset 18 unchanged; a batch buffer flushed by `flushBatchRequests` with
batch count `k` parses to `invokeNum = k`; and a reply (reply header, request
id, body) sent by `sendResponse` parses to that request id. -/
theorem frame_round_trip (c peer : Connection) (payload rest : List Byte) (o : Outgoing)
    (completed : Bool) (r i : Int) (ht : c.transceiver = true)
    (hw : c.tr.nextWriteCompletes = true) (hr : ReachableCounter c.nextRequestId)
    (hlim : ((requestHdr ++ payload).length : Int) ≤ wrapInt32 (peer.messageSizeMax : Int)) :
    (∀ frame : List Byte,
      (sendRequest (requestHdr ++ payload) (some o) completed c).c.tr.written =
        c.tr.written ++ [frame] →
      peer.tr.input = frame ++ rest →
      readStreamAndParseMessage peer r i =
        ⟨none, frame, (sendRequestTry (requestHdr ++ payload) (some o) completed c).requestId, 1,
          { peer with tr := { peer.tr with input := rest } }⟩ ∧
      frame.drop 18 = payload) ∧
    (∀ (b : Connection) (k : Int) (frame : List Byte),
      b.transceiver = true → b.tr.nextWriteCompletes = true → b.exception = none →
      b.batchStreamInUse = false → b.batchStream = requestBatchHdr ++ payload →
      b.batchRequestNum = k → 0 ≤ k → k ≤ 2147483647 →
      (flushBatchRequests b).2.tr.written = b.tr.written ++ [frame] →
      peer.tr.input = frame ++ rest →
      readStreamAndParseMessage peer r i =
        ⟨none, frame, r, k, { peer with tr := { peer.tr with input := rest } }⟩ ∧
      frame.drop 18 = payload) ∧
    (∀ (s : Connection) (id : Int) (frame : List Byte) (more : List (List Byte)),
      s.transceiver = true → s.tr.nextWriteCompletes = true →
      -2147483648 ≤ id → id ≤ 2147483647 →
      (sendResponse (writeReplyHeader [] id ++ payload) s).2.tr.written =
        s.tr.written ++ frame :: more →
      peer.tr.input = frame ++ rest →
      readStreamAndParseMessage peer r i =
        ⟨none, frame, id, i, { peer with tr := { peer.tr with input := rest } }⟩ ∧
      frame.drop 18 = payload) := by
  have hlen : (requestHdr ++ payload).length = 18 + payload.length := by
    simp [requestHdr, magic]; omega
  refine ⟨?_, ?_, ?_⟩
  · intro frame hfr hin
    have hid := allocRequestId_fst_range (reachableCounter_range hr)
    have hrid := (sendRequestTry_requestId (requestHdr ++ payload) o completed c ht).1
    have hF := sendRequest_frame c (requestHdr ++ payload) (some o) completed ht hw hr
      (by rw [hlen]; omega)
    rw [hfr] at hF
    have hframe := singleton_of_append_eq hF
    dsimp only at hframe
    rw [hrid] at hframe ⊢
    have ht10 : (requestHdr ++ payload).take 10 = [0x49, 0x63, 0x65, 0x50, 1, 0, 1, 0, 0, 0] := rfl
    have hd18 : (requestHdr ++ payload).drop 18 = payload := rfl
    rw [ht10, hd18, hlen] at hframe
    rw [hlen] at hlim
    have hparse := readStreamAndParseMessage_frame peer 0 (18 + payload.length)
      ((allocRequestId c.nextRequestId).1.toNat % 256)
      ((allocRequestId c.nextRequestId).1.toNat / 256 % 256)
      ((allocRequestId c.nextRequestId).1.toNat / 65536 % 256)
      ((allocRequestId c.nextRequestId).1.toNat / 16777216 % 256)
      payload rest r i rfl hlim (by rw [hin, hframe]; simp only [le32, List.append_assoc])
    have hpm := parseMessageType_request
      ((allocRequestId c.nextRequestId).1.toNat % 256)
      ((allocRequestId c.nextRequestId).1.toNat / 256 % 256)
      ((allocRequestId c.nextRequestId).1.toNat / 65536 % 256)
      ((allocRequestId c.nextRequestId).1.toNat / 16777216 % 256)
      ([0x49, 0x63, 0x65, 0x50, 1, 0, 1, 0, 0, 0] ++ le32 (18 + payload.length)) payload r i
      { peer with tr := { peer.tr with input := rest } } (by simp [le32])
    have hb := bytesInt_le32 (allocRequestId c.nextRequestId).1.toNat (by omega)
    rw [Int.toNat_of_nonneg (by omega)] at hb
    rw [hb] at hpm
    rw [hparse, hframe]
    exact ⟨hpm, by simp [le32]⟩
  · intro b k frame hbt hbw hbe hbu hbs hbk hk0 hk1 hfr hin
    have hbl : (requestBatchHdr ++ payload).length = 18 + payload.length := by
      simp [requestBatchHdr, magic]; omega
    have hF := (flushBatchRequests_frame b hbt hbw hbe hbu
      (by rw [hbs]; simp [requestBatchHdr, magic])).2.1
    rw [hfr, hbs, hbk, patchInt_id_size _ k hk0 (by rw [hbl]; omega)] at hF
    have hframe := singleton_of_append_eq hF
    have ht10 : (requestBatchHdr ++ payload).take 10 =
        [0x49, 0x63, 0x65, 0x50, 1, 0, 1, 0, 1, 0] := rfl
    have hd18 : (requestBatchHdr ++ payload).drop 18 = payload := rfl
    rw [ht10, hd18, hbl] at hframe
    rw [hlen] at hlim
    have hparse := readStreamAndParseMessage_frame peer 1 (18 + payload.length)
      (k.toNat % 256) (k.toNat / 256 % 256) (k.toNat / 65536 % 256) (k.toNat / 16777216 % 256)
      payload rest r i rfl hlim (by rw [hin, hframe]; simp only [le32, List.append_assoc])
    have hb := bytesInt_le32 k.toNat (by omega)
    rw [Int.toNat_of_nonneg hk0] at hb
    have hpm := parseMessageType_batch
      (k.toNat % 256) (k.toNat / 256 % 256) (k.toNat / 65536 % 256) (k.toNat / 16777216 % 256)
      ([0x49, 0x63, 0x65, 0x50, 1, 0, 1, 0, 1, 0] ++ le32 (18 + payload.length)) payload r i
      { peer with tr := { peer.tr with input := rest } } (by simp [le32]) (by rw [hb]; exact hk0)
    rw [hb] at hpm
    rw [hparse, hframe]
    exact ⟨hpm, by simp [le32]⟩
  · intro s id frame more hst hsw hid0 hid1 hfr hin
    have hsl : (writeReplyHeader [] id ++ payload).length = 18 + payload.length := by
      simp [writeReplyHeader, replyHdr, magic, headerSize, intBytes]; omega
    obtain ⟨more2, hF⟩ := sendResponse_frame (writeReplyHeader [] id ++ payload) s hst hsw
    rw [hfr, patchInt_eq _ 10 _ (by rw [hsl]; omega), intBytes_wrapInt32] at hF
    have hframe := cons_of_append_eq hF
    have ht10 : (writeReplyHeader [] id ++ payload).take 10 =
        [0x49, 0x63, 0x65, 0x50, 1, 0, 1, 0, 2, 0] := rfl
    have hd14 : (writeReplyHeader [] id ++ payload).drop (10 + 4) = intBytes id ++ payload := rfl
    rw [ht10, hd14, hsl] at hframe
    rw [hlen] at hlim
    have hparse := readStreamAndParseMessage_frame peer 2 (18 + payload.length)
      (id % 256).toNat (id / 256 % 256).toNat (id / 65536 % 256).toNat
      (id / 16777216 % 256).toNat
      payload rest r i rfl hlim
      (by rw [hin, hframe]; simp only [le32, intBytes, List.append_assoc])
    have hpm := parseMessageType_reply
      (id % 256).toNat (id / 256 % 256).toNat (id / 65536 % 256).toNat
      (id / 16777216 % 256).toNat
      ([0x49, 0x63, 0x65, 0x50, 1, 0, 1, 0, 2, 0] ++ le32 (18 + payload.length)) payload r i
      { peer with tr := { peer.tr with input := rest } } (by simp [le32])
    rw [bytesInt_intBytes id hid0 hid1] at hpm
    rw [hparse, hframe]
    exact ⟨by simpa [intBytes] using hpm, by simp [le32, intBytes]⟩

theorem setStateClosedEx_stored (ex : LocalException) (c : Connection)
    (hinv : c.state = .StateClosed → c.exception ≠ none) :
    (setStateClosedEx ex c).exception ≠ none := by
  rw [setStateClosedEx_exception]
  split
  · rename_i h; exact hinv h
  · split
    · simp
    · rename_i h; simpa using h

theorem awaitReply_inv (o : Outgoing) (requestId : Int) (os : List Byte) (completed : Bool)
    (c : Connection) (hinv : c.state = .StateClosed → c.exception ≠ none) :
    (awaitReply o requestId os completed c).c.state = .StateClosed →
      (awaitReply o requestId os completed c).c.exception ≠ none := by
  have hc := readStreamAndParseMessage_c c 0 0
  have hs : (readStreamAndParseMessage c 0 0).c.state = c.state := by rw [hc]
  have he : (readStreamAndParseMessage c 0 0).c.exception = c.exception := by rw [hc]
  unfold awaitReply
  dsimp only
  repeat' split
  all_goals first
    | (intro h; rw [he]; rw [hs] at h; exact hinv h)
    | exact hinv
    | (intro _; rw [setStateEx_closed_eq]; exact setStateClosedEx_stored _ c hinv)

theorem sendRequestTry_inv (os : List Byte) (out : Option Outgoing) (completed : Bool)
    (c : Connection) (hinv : c.state = .StateClosed → c.exception ≠ none) :
    (sendRequestTry os out completed c).c.state = .StateClosed →
      (sendRequestTry os out completed c).c.exception ≠ none := by
  obtain ⟨_, pst, pex, _, _⟩ := prepareRequest_fields os out c
  unfold sendRequestTry
  split
  · split <;> exact hinv
  · dsimp only
    split
    · intro h
      rw [pex]
      exact hinv (pst ▸ h)
    · split
      · intro h
        rw [pex]
        exact hinv (pst ▸ h)
      · apply awaitReply_inv
        intro h
        rw [pex]
        exact hinv (pst ▸ h)


/-- C1. For every call of `sendRequest` on a connection whose Closed state has
a stored error: the call raises only when `requestSent` is still false, the
transport has then written nothing of the frame, and the exception raised is
the stored error; when a LocalException is thrown after the write completed,
the call returns and `out->finished` receives the stored error; and whenever
the call returns, the frame was written exactly once. -/
theorem sendRequest_at_most_once (c : Connection) (os : List Byte) (out : Option Outgoing)
    (completed : Bool) (hinv : c.state = .StateClosed → c.exception ≠ none) :
    (∀ ex, (sendRequest os out completed c).outcome = .raised ex →
      (sendRequestTry os out completed c).requestSent = false ∧
      (sendRequest os out completed c).c.tr.written = c.tr.written ∧
      (sendRequest os out completed c).c.exception = some ex) ∧
    (∀ ex, (sendRequestTry os out completed c).ending = .thrown ex →
      (sendRequestTry os out completed c).requestSent = true →
      ∃ o e, out = some o ∧
        (sendRequest os out completed c).outcome = .returned ∧
        (sendRequest os out completed c).c.exception = some e ∧
        (sendRequest os out completed c).c.finished = c.finished ++ [(o, .failed e)]) ∧
    ((sendRequest os out completed c).outcome = .returned →
      ∃ frame, (sendRequest os out completed c).c.tr.written = c.tr.written ++ [frame]) := by
  obtain ⟨hwr, hdone, hthrown, _⟩ := sendRequestTry_spec os out completed c
  have hI := sendRequestTry_inv os out completed c hinv
  have hW := sendRequest_written os out completed c
  refine ⟨?_, ?_, ?_⟩
  · intro ex hout
    have hsent : (sendRequestTry os out completed c).requestSent = false ∧
        (sendRequest os out completed c).c.exception = some ex := by
      unfold sendRequest at hout ⊢
      dsimp only at hout ⊢
      split at hout
      · simp at hout
      · simp at hout
      · simp at hout
      · split at hout
        · simp at hout
        · rename_i e he
          split at hout
          · split at hout <;> simp at hout
          · rename_i hs
            simp only [Outcome.raised.injEq] at hout
            subst hout
            rw [if_neg hs]
            exact ⟨by simpa using hs, he⟩
    refine ⟨hsent.1, ?_, hsent.2⟩
    rw [hW, hwr, hsent.1]
    simp
  · intro ex hth hsent
    obtain ⟨hfin, hout⟩ := hthrown ex hth
    have hst := setStateClosedEx_stored ex (sendRequestTry os out completed c).c hI
    obtain ⟨e, he⟩ := Option.ne_none_iff_exists'.mp hst
    have hf2 := (setStateClosedEx_written ex (sendRequestTry os out completed c).c).2
    rw [← setStateEx_closed_eq] at he hf2
    cases hout0 : out with
    | none => exact absurd hout0 (hout hsent)
    | some o =>
      subst hout0
      refine ⟨o, e, rfl, ?_⟩
      unfold sendRequest
      dsimp only
      rw [hth]
      dsimp only
      rw [he]
      dsimp only
      rw [if_pos hsent]
      dsimp only
      refine ⟨rfl, rfl, ?_⟩
      rw [hf2, hfin]
  · intro hret
    have hsent : (sendRequestTry os out completed c).requestSent = true := by
      unfold sendRequest at hret
      dsimp only at hret
      split at hret
      · rename_i heq; exact hdone heq
      · simp at hret
      · simp at hret
      · split at hret
        · simp at hret
        · split at hret
          · rename_i hs; exact hs
          · simp at hret
    rw [hW, hwr, hsent]
    exact ⟨_, rfl⟩


theorem sendRequest_at_most_once_witness :
    (blockingConnection.state = .StateClosed → blockingConnection.exception ≠ none) ∧
    (∃ o e, some 7 = some o ∧
      (sendRequest requestHdr (some 7) true blockingConnection).outcome = .returned ∧
      (sendRequest requestHdr (some 7) true blockingConnection).c.exception = some e ∧
      (sendRequest requestHdr (some 7) true blockingConnection).c.finished =
        blockingConnection.finished ++ [(o, .failed e)]) ∧
    (sendRequest requestHdr (some 7) true faultyConnection).outcome =
      .raised .TimeoutException ∧
    (sendRequest requestHdr (some 7) true faultyConnection).c.tr.written =
      faultyConnection.tr.written :=
  ⟨by decide,
    (sendRequest_at_most_once blockingConnection requestHdr (some 7) true (by decide)).2.1
      .ConnectionLostException (by decide) (by decide),
    by decide,
    ((sendRequest_at_most_once faultyConnection requestHdr (some 7) true (by decide)).1
      .TimeoutException (by decide)).2.1⟩

theorem sendRequest_writes_patched_frame_witness :
    clientConnection.transceiver = true ∧ clientConnection.tr.nextWriteCompletes = true ∧
    18 ≤ (requestHdr ++ [1, 2, 3]).length ∧
    (sendRequest (requestHdr ++ [1, 2, 3]) (some 7) true clientConnection).c.tr.written =
      clientConnection.tr.written ++
        [(requestHdr ++ [1, 2, 3]).take 10 ++ le32 (requestHdr ++ [1, 2, 3]).length ++
          le32 (sendRequestTry (requestHdr ++ [1, 2, 3]) (some 7) true
            clientConnection).requestId.toNat ++ (requestHdr ++ [1, 2, 3]).drop 18] :=
  ⟨by decide, by decide, by decide,
    sendRequest_writes_patched_frame clientConnection (requestHdr ++ [1, 2, 3]) (some 7) true
      (by decide) (by decide) ReachableCounter.init (by decide)⟩

theorem frame_round_trip_witness :
    ((requestHdr ++ [1, 2, 3]).length : Int) ≤ wrapInt32 (requestPeer.messageSizeMax : Int) ∧
    (sendRequest (requestHdr ++ [1, 2, 3]) (some 7) true clientConnection).c.tr.written =
      clientConnection.tr.written ++ [requestPeer.tr.input] ∧
    (readStreamAndParseMessage requestPeer 0 0 =
      ⟨none, requestPeer.tr.input,
        (sendRequestTry (requestHdr ++ [1, 2, 3]) (some 7) true clientConnection).requestId, 1,
        { requestPeer with tr := { requestPeer.tr with input := [] } }⟩ ∧
      requestPeer.tr.input.drop 18 = [1, 2, 3]) ∧
    (flushBatchRequests batchSender).2.tr.written =
      batchSender.tr.written ++ [batchPeer.tr.input] ∧
    (readStreamAndParseMessage batchPeer 0 0 =
      ⟨none, batchPeer.tr.input, 0, 2,
        { batchPeer with tr := { batchPeer.tr with input := [] } }⟩ ∧
      batchPeer.tr.input.drop 18 = [1, 2, 3]) ∧
    (sendResponse (writeReplyHeader [] 5 ++ [1, 2, 3]) replySender).2.tr.written =
      replySender.tr.written ++ replyPeer.tr.input :: [] ∧
    (readStreamAndParseMessage replyPeer 0 0 =
      ⟨none, replyPeer.tr.input, 5, 0,
        { replyPeer with tr := { replyPeer.tr with input := [] } }⟩ ∧
      replyPeer.tr.input.drop 18 = [1, 2, 3]) :=
  ⟨by decide, by decide,
    (frame_round_trip clientConnection requestPeer [1, 2, 3] [] 7 true 0 0 (by decide)
      (by decide) ReachableCounter.init (by decide)).1 requestPeer.tr.input (by decide)
      (by decide),
    by decide,
    (frame_round_trip clientConnection batchPeer [1, 2, 3] [] 7 true 0 0 (by decide)
      (by decide) ReachableCounter.init (by decide)).2.1 batchSender 2 batchPeer.tr.input
      (by decide) (by decide) (by decide) (by decide) (by decide) (by decide) (by decide)
      (by decide) (by decide) (by decide),
    by decide,
    (frame_round_trip clientConnection replyPeer [1, 2, 3] [] 7 true 0 0 (by decide)
      (by decide) ReachableCounter.init (by decide)).2.2 replySender 5 replyPeer.tr.input []
      (by decide) (by decide) (by decide) (by decide) (by decide) (by decide)⟩

theorem header_rules_in_order_witness :
    hugeSizeConnection.tr.input.length = 14 ∧
    (readStreamAndParseMessage hugeSizeConnection 0 0).raised =
      some .IllegalMessageSizeException :=
  ⟨by decide,
    (header_rules_in_order hugeSizeConnection hugeSizeConnection.tr.input [] 0 0 (by decide)
      (by decide)).1 .IllegalMessageSizeException (by decide)⟩

/-! ## Message classification, handshake, close and dispatch -/

theorem readInt_after_header (h body : List Byte) (hl : h.length = 14) :
    readInt (h ++ body) headerSize = readInt body 0 := by
  unfold readInt
  rw [show headerSize = h.length from hl.symm, List.drop_left]
  rfl

theorem readInt_short (body : List Byte) (hb : body.length < 4) :
    readInt body 0 = .error .UnmarshalOutOfBoundsException := by
  match body, hb with
  | [], _ => rfl
  | [_], _ => rfl
  | [_, _], _ => rfl
  | [_, _, _], _ => rfl
  | _ :: _ :: _ :: _ :: _, hb => simp at hb; omega

/-- C11. For every frame that passes header validation (`headerError` finds
nothing, the size field is the length of the frame), `readStreamAndParseMessage`
classifies by the message-type byte. With the first four body bytes b0..b3
(bytes 14..17 of the frame): a reply returns `requestId` as their
little-endian value and leaves `invokeNum` untouched; a request returns that
`requestId` and `invokeNum` 1; a batch request returns `invokeNum` as that
value when it is not negative, and otherwise raises NegativeSizeException
with `invokeNum` reset to 0. Close-connection raises
CloseConnectionException; validate-connection raises nothing and leaves both
locals untouched; every other type byte raises UnknownMessageException. -/
theorem parse_classifies_by_message_type (c : Connection) (h body rest : List Byte) (r i : Int)
    (hl : h.length = 14)
    (hhe : headerError (sizeSigned h) (wrapInt32 (c.messageSizeMax : Int)) h = none)
    (hsz : sizeSigned h = ((14 + body.length : Nat) : Int))
    (hin : c.tr.input = h ++ body ++ rest) :
    (readStreamAndParseMessage c r i).stream = h ++ body ∧
    (h.getD 8 0 = closeConnectionMsg →
      (readStreamAndParseMessage c r i).raised = some .CloseConnectionException) ∧
    (h.getD 8 0 = validateConnectionMsg →
      (readStreamAndParseMessage c r i).raised = none ∧
      (readStreamAndParseMessage c r i).requestId = r ∧
      (readStreamAndParseMessage c r i).invokeNum = i) ∧
    (h.getD 8 0 ≠ closeConnectionMsg → h.getD 8 0 ≠ replyMsg → h.getD 8 0 ≠ requestMsg →
      h.getD 8 0 ≠ requestBatchMsg → h.getD 8 0 ≠ validateConnectionMsg →
      (readStreamAndParseMessage c r i).raised = some .UnknownMessageException) ∧
    (∀ (b0 b1 b2 b3 : Byte) (tail : List Byte), body = b0 :: b1 :: b2 :: b3 :: tail →
      (h.getD 8 0 = replyMsg →
        (readStreamAndParseMessage c r i).raised = none ∧
        (readStreamAndParseMessage c r i).requestId = bytesInt b0 b1 b2 b3 ∧
        (readStreamAndParseMessage c r i).invokeNum = i) ∧
      (h.getD 8 0 = requestMsg →
        (readStreamAndParseMessage c r i).raised = none ∧
        (readStreamAndParseMessage c r i).requestId = bytesInt b0 b1 b2 b3 ∧
        (readStreamAndParseMessage c r i).invokeNum = 1) ∧
      (h.getD 8 0 = requestBatchMsg → 0 ≤ bytesInt b0 b1 b2 b3 →
        (readStreamAndParseMessage c r i).raised = none ∧
        (readStreamAndParseMessage c r i).requestId = r ∧
        (readStreamAndParseMessage c r i).invokeNum = bytesInt b0 b1 b2 b3) ∧
      (h.getD 8 0 = requestBatchMsg → bytesInt b0 b1 b2 b3 < 0 →
        (readStreamAndParseMessage c r i).raised = some .NegativeSizeException ∧
        (readStreamAndParseMessage c r i).requestId = r ∧
        (readStreamAndParseMessage c r i).invokeNum = 0)) := by
  rw [readStreamAndParseMessage_ok c h body rest r i hl hhe hsz hin]
  have hri := readInt_after_header h body hl
  generalize h.getD 8 0 = mt
  refine ⟨?_, ?_, ?_, ?_, ?_⟩
  · unfold parseMessageType
    rw [hri]
    repeat' split
    all_goals rfl
  · intro hm
    subst hm
    rfl
  · intro hm
    subst hm
    exact ⟨rfl, rfl, rfl⟩
  · intro h1 h2 h3 h4 h5
    unfold parseMessageType
    rw [if_neg h1, if_neg h2, if_neg h3, if_neg h4, if_neg h5]
  · intro b0 b1 b2 b3 tail hb
    have hv : readInt (h ++ body) headerSize = .ok (bytesInt b0 b1 b2 b3) := by
      rw [hri, hb]; rfl
    refine ⟨?_, ?_, ?_, ?_⟩
    · intro hm
      subst hm
      unfold parseMessageType
      rw [if_neg (by decide), if_pos rfl, hv]
      exact ⟨rfl, rfl, rfl⟩
    · intro hm
      subst hm
      unfold parseMessageType
      rw [if_neg (by decide), if_neg (by decide), if_pos rfl, hv]
      exact ⟨rfl, rfl, rfl⟩
    · intro hm hpos
      subst hm
      unfold parseMessageType
      rw [if_neg (by decide), if_neg (by decide), if_neg (by decide), if_pos rfl, hv]
      dsimp only
      rw [if_neg (by omega)]
      exact ⟨rfl, rfl, rfl⟩
    · intro hm hneg
      subst hm
      unfold parseMessageType
      rw [if_neg (by decide), if_neg (by decide), if_neg (by decide), if_pos rfl, hv]
      dsimp only
      rw [if_pos hneg]
      exact ⟨rfl, rfl, rfl⟩

/-- A frame that passes header validation but ends before byte 18, of a type
whose body starts with an integer (reply, request, batch request): the read
of that integer, as modelled in `readInt`, raises
UnmarshalOutOfBoundsException, and neither local is changed. -/
theorem parse_short_body_raises (c : Connection) (h body rest : List Byte) (r i : Int)
    (hl : h.length = 14)
    (hhe : headerError (sizeSigned h) (wrapInt32 (c.messageSizeMax : Int)) h = none)
    (hsz : sizeSigned h = ((14 + body.length : Nat) : Int))
    (hin : c.tr.input = h ++ body ++ rest) (hb : body.length < 4)
    (hm : h.getD 8 0 = replyMsg ∨ h.getD 8 0 = requestMsg ∨ h.getD 8 0 = requestBatchMsg) :
    (readStreamAndParseMessage c r i).raised = some .UnmarshalOutOfBoundsException ∧
    (readStreamAndParseMessage c r i).requestId = r ∧
    (readStreamAndParseMessage c r i).invokeNum = i := by
  rw [readStreamAndParseMessage_ok c h body rest r i hl hhe hsz hin]
  have hv : readInt (h ++ body) headerSize = .error .UnmarshalOutOfBoundsException := by
    rw [readInt_after_header h body hl]; exact readInt_short body hb
  generalize h.getD 8 0 = mt at hm
  rcases hm with hm | hm | hm
  · subst hm
    unfold parseMessageType
    rw [if_neg (by decide), if_pos rfl, hv]
    exact ⟨rfl, rfl, rfl⟩
  · subst hm
    unfold parseMessageType
    rw [if_neg (by decide), if_neg (by decide), if_pos rfl, hv]
    exact ⟨rfl, rfl, rfl⟩
  · subst hm
    unfold parseMessageType
    rw [if_neg (by decide), if_neg (by decide), if_neg (by decide), if_pos rfl, hv]
    exact ⟨rfl, rfl, rfl⟩

theorem validateHeader_eq (h : List Byte) (hl : h.length = 14) :
    validateHeader h = handshakeError h := by
  match h, hl with
  | [h0, h1, h2, h3, h4, h5, h6, h7, h8, h9, h10, h11, h12, h13], _ =>
    have hm : ([h0, h1, h2, h3, h4, h5, h6, h7, h8, h9, h10, h11, h12, h13].take 4 ≠ magic) ↔
        (h0 ≠ 0x49 ∨ h1 ≠ 0x63 ∨ h2 ≠ 0x65 ∨ h3 ≠ 0x50) := by
      simp only [List.take, magic, ne_eq, List.cons.injEq, and_true, not_and_or]
    unfold validateHeader handshakeError
    rw [if_congr hm rfl rfl]
    simp only [List.getD_cons_zero, List.getD_cons_succ, magic, sizeSigned, readInt, headerSize,
      List.drop, Nat.cast_ofNat]

theorem hold_of_notValidated (c : Connection) (hs : c.state = .StateNotValidated) :
    hold c = { c with state := .StateHolding } := by
  unfold hold setState setStateCommit
  simp [hs]

theorem activate_of_holding (c : Connection) (hs : c.state = .StateHolding) :
    activate c = { c with state := .StateActive } := by
  unfold activate setState setStateCommit
  simp [hs]

theorem validateTry_passive (c : Connection) (h rest : List Byte) (hl : h.length = 14)
    (ha : c.adapter = false) (hin : c.tr.input = h ++ rest) :
    validateTry c = (validateHeader h, { c with tr := { c.tr with input := rest } }) := by
  have hread := Transceiver.read_append c.tr h rest hin
  rw [hl] at hread
  unfold validateTry
  rw [ha, show headerSize = 14 from rfl, hread]
  simp

theorem validate_passive (c : Connection) (h rest : List Byte) (hl : h.length = 14)
    (hs : c.state = .StateNotValidated) (he : c.exception = none) (ha : c.adapter = false)
    (hin : c.tr.input = h ++ rest) :
    validate c =
      match handshakeError h with
      | some e =>
        (.raised e, setStateClosed
          { c with tr := { c.tr with input := rest }, exception := some e })
      | none => (.returned, { c with tr := { c.tr with input := rest }, state := .StateHolding }) := by
  have hvt := validateTry_passive c h rest hl ha hin
  rw [validateHeader_eq h hl] at hvt
  unfold validate
  rw [if_neg (by rw [hs]; decide), hvt]
  cases hh : handshakeError h with
  | none =>
    dsimp only
    rw [hold_of_notValidated { c with tr := { c.tr with input := rest } } hs]
  | some e =>
    dsimp only
    rw [setStateEx_closed_eq]
    unfold setStateClosedEx
    rw [if_neg (by rw [hs]; decide)]
    dsimp only
    rw [he]
    dsimp only [Option.isNone]
    rw [if_pos rfl, setStateClosed_exception]

/-- C12. Handshake success on the passive side: when a connection that is
not validated, has no adapter and no stored error reads the 14 bytes
I,c,e,P,1,0,1,0,3,0,14,0,0,0, `validate` returns, nothing is written to the
transport, no error is stored, and after `validate` and `activate` at the
start of `run` the connection is Active. -/
theorem handshake_success_passive (c : Connection) (rest : List Byte)
    (hs : c.state = .StateNotValidated) (he : c.exception = none) (ha : c.adapter = false)
    (hin : c.tr.input = [0x49, 0x63, 0x65, 0x50, 1, 0, 1, 0, 3, 0, 14, 0, 0, 0] ++ rest) :
    (validate c).1 = .returned ∧
    (validate c).2.tr.written = c.tr.written ∧
    (validate c).2.exception = none ∧
    (runStart c).1 = true ∧
    (runStart c).2.state = .StateActive ∧
    (runStart c).2.tr.written = c.tr.written ∧
    (runStart c).2.exception = none := by
  have hv := validate_passive c [0x49, 0x63, 0x65, 0x50, 1, 0, 1, 0, 3, 0, 14, 0, 0, 0] rest rfl
    hs he ha hin
  have hh : handshakeError [0x49, 0x63, 0x65, 0x50, 1, 0, 1, 0, 3, 0, 14, 0, 0, 0] = none := by
    decide
  rw [hh] at hv
  dsimp only at hv
  have hr : runStart c =
      (true, { c with tr := { c.tr with input := rest }, state := .StateActive }) := by
    unfold runStart
    rw [hv]
    dsimp only
    rw [activate_of_holding
      { c with tr := { c.tr with input := rest }, state := .StateHolding } rfl]
  rw [hv, hr]
  exact ⟨rfl, rfl, he, rfl, rfl, rfl, he⟩

/-- C13. Handshake failure on the passive side: for every 14-byte header a
connection that is not validated, has no adapter and no stored error reads
during validation, `validate` raises the error of the first failing check in
the order magic, protocol major, encoding major, message type, size, the
connection ends in Closed with exactly that error stored; and `validate`
returns exactly when no check fails. -/
theorem handshake_failure_passive (c : Connection) (h rest : List Byte) (hl : h.length = 14)
    (hs : c.state = .StateNotValidated) (he : c.exception = none) (ha : c.adapter = false)
    (hin : c.tr.input = h ++ rest) :
    (∀ e, handshakeError h = some e →
      (validate c).1 = .raised e ∧
      (validate c).2.state = .StateClosed ∧
      (validate c).2.exception = some e) ∧
    ((validate c).1 = .returned ↔ handshakeError h = none) := by
  have hv := validate_passive c h rest hl hs he ha hin
  constructor
  · intro e hh
    rw [hh] at hv
    dsimp only at hv
    rw [hv]
    exact ⟨rfl, setStateClosed_state _, by rw [setStateClosed_exception]⟩
  · cases hh : handshakeError h with
    | none =>
      rw [hh] at hv
      dsimp only at hv
      rw [hv]
      simp
    | some e =>
      rw [hh] at hv
      dsimp only at hv
      rw [hv]
      simp

theorem keepsRegistry_refl (c : Connection) : KeepsRegistry c c := ⟨rfl, rfl, rfl, rfl, rfl⟩

theorem keepsRegistry_trans {a b c : Connection} (h1 : KeepsRegistry a b)
    (h2 : KeepsRegistry b c) : KeepsRegistry a c :=
  ⟨h2.1.trans h1.1, h2.2.1.trans h1.2.1, h2.2.2.1.trans h1.2.2.1,
    h2.2.2.2.1.trans h1.2.2.2.1, h2.2.2.2.2.trans h1.2.2.2.2⟩

theorem keeps_of_fields {c d : Connection} (h1 : d.requests = c.requests)
    (h2 : d.requestsHint = c.requestsHint) (h3 : d.finished = c.finished)
    (h4 : d.dispatchCount = c.dispatchCount) (h5 : d.blocking = c.blocking) :
    KeepsRegistry c d := ⟨h1, h2, h3, h4, h5⟩

theorem keeps_setStateClosed (c : Connection) : KeepsRegistry c (setStateClosed c) := by
  unfold setStateClosed
  split
  · exact keepsRegistry_refl c
  · dsimp only
    split <;> exact ⟨rfl, rfl, rfl, rfl, rfl⟩

theorem keeps_setStateClosedEx (ex : LocalException) (c : Connection) :
    KeepsRegistry c (setStateClosedEx ex c) := by
  unfold setStateClosedEx
  split
  · exact keepsRegistry_refl c
  · dsimp only
    split
    · exact keepsRegistry_trans (keeps_of_fields rfl rfl rfl rfl rfl) (keeps_setStateClosed _)
    · exact keeps_setStateClosed c

theorem keeps_setStateCommit (t : State) (c : Connection) :
    KeepsRegistry c (setStateCommit t c) := by
  have h0 : KeepsRegistry c { c with state := t } := keeps_of_fields rfl rfl rfl rfl rfl
  unfold setStateCommit
  dsimp only
  split
  · split
    · rename_i c2 hw
      have h1 : KeepsRegistry { c with state := t } (initiateShutdown { c with state := t }).2 :=
        keeps_of_fields rfl rfl rfl rfl rfl
      rw [hw] at h1
      split
      · exact keepsRegistry_trans h0 (keepsRegistry_trans h1 (keeps_setStateClosed c2))
      · exact keepsRegistry_trans h0 h1
    · rename_i ex c2 hw
      have h1 : KeepsRegistry { c with state := t } (initiateShutdown { c with state := t }).2 :=
        keeps_of_fields rfl rfl rfl rfl rfl
      rw [hw] at h1
      exact keepsRegistry_trans h0 (keepsRegistry_trans h1 (keeps_setStateClosedEx ex c2))
  · exact h0

theorem keeps_setState (t : State) (c : Connection) : KeepsRegistry c (setState t c) := by
  unfold setState
  split
  · exact keepsRegistry_refl c
  · cases t with
    | StateNotValidated => exact keeps_setStateCommit _ c
    | StateActive =>
      dsimp only
      split
      · exact keepsRegistry_refl c
      · exact keeps_setStateCommit _ c
    | StateHolding =>
      dsimp only
      split
      · exact keepsRegistry_refl c
      · exact keeps_setStateCommit _ c
    | StateClosing =>
      dsimp only
      split
      · exact keepsRegistry_refl c
      · exact keeps_setStateCommit _ c
    | StateClosed =>
      dsimp only
      split
      · exact keepsRegistry_trans (keeps_of_fields rfl rfl rfl rfl rfl)
          (keeps_setStateCommit _ _)
      · exact keepsRegistry_trans (keeps_of_fields rfl rfl rfl rfl rfl)
          (keeps_setStateCommit _ _)

theorem keeps_setStateEx (t : State) (ex : LocalException) (c : Connection) :
    KeepsRegistry c (setStateEx t ex c) := by
  unfold setStateEx
  split
  · exact keepsRegistry_refl c
  · dsimp only
    split
    · exact keepsRegistry_trans (keeps_of_fields rfl rfl rfl rfl rfl) (keeps_setState t _)
    · exact keeps_setState t c

theorem setStateEx_state_closing (t : State) (ex : LocalException) (c : Connection)
    (ht : t = .StateClosing ∨ t = .StateClosed) :
    (setStateEx t ex c).state = .StateClosing ∨ (setStateEx t ex c).state = .StateClosed := by
  unfold setStateEx
  split
  · rename_i h
    rcases ht with ht | ht
    · left; rw [h, ht]
    · right; rw [h, ht]
  · dsimp only
    split <;> exact setState_state_closing t _ ht

theorem setStateCommit_closing_nonblocking (c : Connection) (hb : c.blocking = false)
    (hw : c.tr.nextWriteCompletes = true) :
    (setStateCommit .StateClosing c).state = .StateClosing := by
  unfold setStateCommit
  dsimp only
  split
  · have h1 := Transceiver.write_of_completes c.tr closeConnectionFrame hw
    unfold initiateShutdown
    dsimp only
    rw [h1]
    dsimp only
    rw [hb]
    rfl
  · rfl

theorem setStateCommit_closing_blocking (c : Connection) (hb : c.blocking = true)
    (hd : c.dispatchCount = 0) :
    (setStateCommit .StateClosing c).state = .StateClosed := by
  unfold setStateCommit
  dsimp only
  rw [if_pos ⟨rfl, hd⟩]
  split
  · rename_i c2 hq
    have : c2.blocking = true := by
      have h1 : (initiateShutdown { c with state := State.StateClosing }).2.blocking = true := hb
      rw [hq] at h1
      exact h1
    rw [if_pos this]
    exact setStateClosed_state c2
  · exact setStateClosedEx_state _ _

/-- C14 (as stated, refuted). In blocking mode `close(false)` on an active
connection returns with the connection Closed, not Closing: `setState`
follows the shutdown message with `setState(StateClosed)`. -/
theorem graceful_close_of_blocking_connection_ends_closed :
    (applyOps [Op.hold, Op.activate] blockingConnection).state = .StateActive ∧
    (close false (applyOps [Op.hold, Op.activate] blockingConnection)).1 = .returned ∧
    (close false (applyOps [Op.hold, Op.activate] blockingConnection)).2.state = .StateClosed ∧
    (close false (applyOps [Op.hold, Op.activate] blockingConnection)).2.state ≠
      .StateClosing := by
  decide

/-- C14 (amended). When `close(false)` returns, the outgoing registry is
empty and the state is Closing or Closed; it is exactly Closing for a
connection in thread-per-connection mode that was not Closed and whose
close-connection message, if one is due, is written; in blocking mode with no
dispatch in flight it is Closed. -/
theorem graceful_close_completeness (c : Connection) (hr : (close false c).1 = .returned) :
    (close false c).2.requests = [] ∧
    ((close false c).2.state = .StateClosing ∨ (close false c).2.state = .StateClosed) ∧
    (c.blocking = false → c.state ≠ .StateClosed → c.tr.nextWriteCompletes = true →
      (close false c).2.state = .StateClosing) ∧
    (c.blocking = true → c.dispatchCount = 0 → c.state ≠ .StateClosing →
      (close false c).2.state = .StateClosed) := by
  have hc : close false c = (.returned, setStateEx .StateClosing .CloseConnectionException c) ∧
      c.requests = [] := by
    unfold close at hr ⊢
    rw [if_neg (by decide)] at hr ⊢
    split at hr
    · simp at hr
    · rename_i he
      rw [if_neg he]
      refine ⟨rfl, ?_⟩
      simpa using he
  rw [hc.1]
  dsimp only
  refine ⟨?_, setStateEx_state_closing _ _ c (Or.inl rfl), ?_, ?_⟩
  · rw [(keeps_setStateEx _ _ c).1]
    exact hc.2
  · intro hb hs hw
    unfold setStateEx
    split
    · rename_i h; exact h
    · rename_i hne
      dsimp only
      have key : ∀ d : Connection, d.blocking = false → d.state ≠ .StateClosed →
          d.state ≠ .StateClosing → d.tr.nextWriteCompletes = true →
          (setState .StateClosing d).state = .StateClosing := by
        intro d hdb hds hdn hdw
        unfold setState
        rw [if_neg hdn]
        dsimp only
        rw [if_neg hds]
        exact setStateCommit_closing_nonblocking d hdb hdw
      split
      · exact key _ hb hs hne hw
      · exact key _ hb hs hne hw
  · intro hb hd hs
    by_cases hcl : c.state = .StateClosed
    · unfold setStateEx
      rw [if_neg hs]
      dsimp only
      have key : ∀ d : Connection, d.state = .StateClosed →
          (setState .StateClosing d).state = .StateClosed := by
        intro d hds
        unfold setState
        rw [if_neg (by rw [hds]; decide)]
        dsimp only
        rw [if_pos hds]
        exact hds
      split
      · exact key _ hcl
      · exact key _ hcl
    · unfold setStateEx
      rw [if_neg hs]
      dsimp only
      have key : ∀ d : Connection, d.blocking = true → d.dispatchCount = 0 →
          d.state ≠ .StateClosed → d.state ≠ .StateClosing →
          (setState .StateClosing d).state = .StateClosed := by
        intro d hdb hdd hds hdn
        unfold setState
        rw [if_neg hdn]
        dsimp only
        rw [if_neg hds]
        exact setStateCommit_closing_blocking d hdb hdd
      split
      · exact key _ hb hd hcl hs
      · exact key _ hb hd hcl hs

theorem graceful_close_completeness_witness :
    (close false (applyOps [Op.hold, Op.activate] clientConnection)).1 = .returned ∧
    (close false (applyOps [Op.hold, Op.activate] clientConnection)).2.requests = [] ∧
    (close false (applyOps [Op.hold, Op.activate] clientConnection)).2.state =
      .StateClosing :=
  ⟨by decide,
    (graceful_close_completeness (applyOps [Op.hold, Op.activate] clientConnection)
      (by decide)).1,
    (graceful_close_completeness (applyOps [Op.hold, Op.activate] clientConnection)
      (by decide)).2.2.1 (by decide) (by decide) (by decide)⟩

theorem mapFind_of_mem (m : List (Int × Outgoing)) (r : Int) (o : Outgoing)
    (hnd : (m.map Prod.fst).Nodup) (hm : (r, o) ∈ m) : mapFind m r = some (r, o) := by
  induction m with
  | nil => simp at hm
  | cons p rest ih =>
    unfold mapFind
    simp only [List.map_cons, List.nodup_cons] at hnd
    rcases List.mem_cons.mp hm with h | h
    · subst h
      simp [List.find?]
    · have hne : p.1 ≠ r := by
        intro heq
        apply hnd.1
        rw [heq]
        exact List.mem_map.mpr ⟨(r, o), h, rfl⟩
      have : (p.1 == r) = false := by simpa using hne
      rw [List.find?, this]
      exact ih hnd.2 h

theorem mapFind_none (m : List (Int × Outgoing)) (r : Int) (hm : r ∉ m.map Prod.fst) :
    mapFind m r = none := by
  unfold mapFind
  rw [List.find?_eq_none]
  intro p hp hk
  apply hm
  have : p.1 = r := by simpa using hk
  rw [← this]
  exact List.mem_map.mpr ⟨p, hp, rfl⟩

theorem mapErase_mem (m : List (Int × Outgoing)) (r : Int) (p : Int × Outgoing) :
    p ∈ mapErase m r ↔ p ∈ m ∧ p.1 ≠ r := by
  unfold mapErase
  simp [List.mem_filter]

theorem mapFind_ne_none (m : List (Int × Outgoing)) (r : Int) (hm : r ∈ m.map Prod.fst) :
    mapFind m r ≠ none := by
  unfold mapFind
  intro h
  rw [List.find?_eq_none] at h
  obtain ⟨p, hp, hpr⟩ := List.mem_map.mp hm
  exact h p hp (by simp [hpr])

/-- The reply block ends at the dereference of the hint only when the hint
has the key of the reply and no entry of the map has it; the connection is
then as the block found it. -/
theorem processReply_invalid (stream : List Byte) (r : Int) (c : Connection)
    (h : (processReply stream r c).1 = .invalidHint) :
    (processReply stream r c).2 = c ∧ c.requestsHint = some r ∧ mapFind c.requests r = none := by
  revert h
  unfold processReply
  split
  · rename_i hh
    split
    · rename_i hf
      exact fun _ => ⟨rfl, hh, hf⟩
    · intro h
      cases h
  · split
    · intro h
      cases h
    · intro h
      cases h

theorem processReply_valid (stream : List Byte) (r : Int) (c : Connection)
    (hh : ∀ k, c.requestsHint = some k → k ∈ c.requests.map Prod.fst) :
    (processReply stream r c).1 ≠ .invalidHint := by
  intro h
  obtain ⟨_, h1, h2⟩ := processReply_invalid stream r c h
  exact mapFind_ne_none c.requests r (hh r h1) h2

/-- The reply branch of the classification block: it runs the reply block and
ends with it. -/
theorem classifyMessage_reply (stream : List Byte) (w : Worker) (c : Connection)
    (hs : c.state ≠ .StateClosed) (hi : ¬ w.invokeNum > 0) (hr : w.requestId > 0) :
    classifyMessage stream w c =
      (if (processReply stream w.requestId c).1 = .invalidHint then Outcome.invalidIterator
        else Outcome.returned, w, (processReply stream w.requestId c).2) := by
  unfold classifyMessage
  rw [if_pos hs, if_neg hi, if_pos hr]
  generalize processReply stream w.requestId c = x
  obtain ⟨e, c1⟩ := x
  cases e <;> rfl

/-- The connection the classification block leaves: the one it found, the
one with the dispatch count raised by `invokeNum`, or the one the reply block
leaves. -/
theorem classifyMessage_conn (stream : List Byte) (w : Worker) (c : Connection) :
    (classifyMessage stream w c).2.2 = c ∨
    (classifyMessage stream w c).2.2 =
      { c with dispatchCount := c.dispatchCount + w.invokeNum } ∨
    (classifyMessage stream w c).2.2 = (processReply stream w.requestId c).2 := by
  by_cases hs : c.state ≠ .StateClosed
  · by_cases hi : w.invokeNum > 0
    · unfold classifyMessage
      rw [if_pos hs, if_pos hi]
      split
      · exact Or.inr (Or.inl rfl)
      · split
        · exact Or.inl rfl
        · split <;> exact Or.inl rfl
    · by_cases hr : w.requestId > 0
      · rw [classifyMessage_reply stream w c hs hi hr]
        exact Or.inr (Or.inr rfl)
      · unfold classifyMessage
        rw [if_pos hs, if_neg hi, if_neg hr]
        exact Or.inl rfl
  · unfold classifyMessage
    rw [if_neg hs]
    exact Or.inl rfl

/-- The classification block ends at the dereference of an invalid hint only
for a reply on a connection that is not Closed, and leaves the locals and the
connection as it found them. -/
theorem classifyMessage_invalid (stream : List Byte) (w : Worker) (c : Connection)
    (h : (classifyMessage stream w c).1 = .invalidIterator) :
    c.state ≠ .StateClosed ∧ (classifyMessage stream w c).2.1 = w ∧
    (classifyMessage stream w c).2.2 = c ∧ ¬ w.invokeNum > 0 ∧ w.requestId > 0 ∧
    (processReply stream w.requestId c).1 = .invalidHint := by
  by_cases hs : c.state ≠ .StateClosed
  · by_cases hi : w.invokeNum > 0
    · exfalso
      unfold classifyMessage at h
      rw [if_pos hs, if_pos hi] at h
      split at h
      · cases h
      · split at h
        · cases h
        · split at h <;> cases h
    · by_cases hr : w.requestId > 0
      · rw [classifyMessage_reply stream w c hs hi hr] at h ⊢
        dsimp only at h ⊢
        by_cases hp : (processReply stream w.requestId c).1 = .invalidHint
        · exact ⟨hs, rfl, (processReply_invalid _ _ _ hp).1, hi, hr, hp⟩
        · rw [if_neg hp] at h
          cases h
      · exfalso
        unfold classifyMessage at h
        rw [if_pos hs, if_neg hi, if_neg hr] at h
        cases h
  · exfalso
    unfold classifyMessage at h
    rw [if_neg hs] at h
    cases h

/-- Reply correlation under a valid hint. For every registry with distinct
keys, every hint that is the end position or the key of an entry, and every
reply id `r` handled by the reply block of the worker: when `r` is registered, its
outgoing gets `finished` with the reply exactly once, the entry `r` is erased
and every other entry stays (a registry holding only `r` ends empty), and the
state is unchanged; when `r` is not registered, no outgoing is completed and
the connection goes to Closed, with UnknownRequestId stored unless an error
was stored before. For a reply (`invokeNum` 0, `requestId` positive) on a
connection that is not Closed the classification step runs this block. -/
theorem reply_correlation (stream : List Byte) (r : Int) (c : Connection)
    (hnd : (c.requests.map Prod.fst).Nodup)
    (hh : ∀ k, c.requestsHint = some k → k ∈ c.requests.map Prod.fst) :
    (∀ o, (r, o) ∈ c.requests →
      (processReply stream r c).1 = .delivered ∧
      (processReply stream r c).2.finished = c.finished ++ [(o, .reply stream)] ∧
      (∀ p, p ∈ (processReply stream r c).2.requests ↔ p ∈ c.requests ∧ p.1 ≠ r) ∧
      (processReply stream r c).2.requests = c.requests.filter (fun p => p.1 != r) ∧
      (c.requests = [(r, o)] → (processReply stream r c).2.requests = []) ∧
      (processReply stream r c).2.state = c.state ∧
      (processReply stream r c).2.exception = c.exception) ∧
    (r ∉ c.requests.map Prod.fst →
      (processReply stream r c).1 = .unknownRequestId ∧
      (processReply stream r c).2.finished = c.finished ∧
      (processReply stream r c).2.requests = c.requests ∧
      (processReply stream r c).2.state = .StateClosed ∧
      (c.exception = none → c.state ≠ .StateClosed →
        (processReply stream r c).2.exception = some .UnknownRequestIdException)) ∧
    (∀ w : Worker, c.state ≠ .StateClosed → w.invokeNum = 0 → w.requestId = r → 0 < r →
      classifyMessage stream w c = (.returned, w, (processReply stream r c).2)) := by
  refine ⟨?_, ?_, ?_⟩
  · intro o ho
    have hf := mapFind_of_mem c.requests r o hnd ho
    unfold processReply
    rw [hf]
    dsimp only
    have he : ∀ (m : List (Int × Outgoing)), m = [(r, o)] → mapErase m r = [] := by
      intro m hm
      rw [hm]
      simp [mapErase]
    split
    · exact ⟨rfl, rfl, fun p => mapErase_mem c.requests r p, rfl, he c.requests, rfl, rfl⟩
    · exact ⟨rfl, rfl, fun p => mapErase_mem c.requests r p, rfl, he c.requests, rfl, rfl⟩
  · intro hr
    have hf := mapFind_none c.requests r hr
    have hhint : c.requestsHint ≠ some r := fun h => hr (hh r h)
    unfold processReply
    rw [if_neg hhint, hf]
    dsimp only
    have hk := keeps_setStateEx .StateClosed .UnknownRequestIdException c
    refine ⟨rfl, hk.2.2.1, hk.1, ?_, ?_⟩
    · rw [setStateEx_closed_eq]; exact setStateClosedEx_state _ c
    · intro hn hs
      rw [setStateEx_closed_eq, setStateClosedEx_exception, if_neg hs, hn]
      rfl
  · intro w hs hi hr hpos
    subst hr
    rw [classifyMessage_reply stream w c hs (by rw [hi]; decide) hpos,
      if_neg (processReply_valid stream w.requestId c hh)]

theorem classifyClose_closing (w : Worker) (c : Connection) (e : LocalException)
    (hs : c.state = .StateClosing ∨ c.state = .StateClosed) (he : c.exception = some e) :
    (classifyClose w c).1 = .returned ∧
    (classifyClose w c).2.2.requests = [] ∧
    (classifyClose w c).2.2.finished =
      c.finished ++ c.requests.map (fun p => (p.2, Completion.failed e)) ∧
    (classifyClose w c).2.2.exception = some e ∧
    (classifyClose w c).2.2.state = c.state ∧
    (c.state = .StateClosed → (classifyClose w c).2.1.closed = true ∧
      (classifyClose w c).2.2.transceiver = false) := by
  unfold classifyClose
  dsimp only
  rcases hs with hs | hs
  · have h1 : ¬ c.state = .StateClosed := by rw [hs]; decide
    rw [if_neg h1, if_neg h1, if_pos (Or.inr hs), he]
    exact ⟨rfl, rfl, rfl, rfl, rfl, fun h => absurd h h1⟩
  · rw [if_pos hs, if_pos hs, if_pos (Or.inl hs)]
    dsimp only
    rw [he]
    exact ⟨rfl, rfl, rfl, rfl, rfl, fun _ => ⟨rfl, rfl⟩⟩

theorem processReply_closing (stream : List Byte) (r : Int) (c : Connection) (e : LocalException)
    (hs : c.state = .StateClosing ∨ c.state = .StateClosed) (he : c.exception = some e) :
    ((processReply stream r c).2.state = .StateClosing ∨
      (processReply stream r c).2.state = .StateClosed) ∧
    (processReply stream r c).2.exception = some e := by
  have ha := advances_setStateEx .StateClosed .UnknownRequestIdException c (Or.inr rfl)
  have hcl : (setStateEx .StateClosed .UnknownRequestIdException c).state = .StateClosed := by
    rw [setStateEx_closed_eq]; exact setStateClosedEx_state _ c
  unfold processReply
  split
  · split
    · exact ⟨hs, he⟩
    · exact ⟨hs, he⟩
  · split
    · exact ⟨Or.inr hcl, ha.2.1 e he⟩
    · exact ⟨hs, he⟩

theorem classifyMessage_closing (stream : List Byte) (w : Worker) (c : Connection)
    (e : LocalException) (hs : c.state = .StateClosing ∨ c.state = .StateClosed)
    (he : c.exception = some e) :
    ((classifyMessage stream w c).2.2.state = .StateClosing ∨
      (classifyMessage stream w c).2.2.state = .StateClosed) ∧
    (classifyMessage stream w c).2.2.exception = some e := by
  rcases classifyMessage_conn stream w c with h | h | h
  · rw [h]
    exact ⟨hs, he⟩
  · rw [h]
    exact ⟨hs, he⟩
  · rw [h]
    exact processReply_closing stream _ c e hs he

theorem runClassify_of_closed (stream : List Byte) (w : Worker) (c : Connection)
    (hs : c.state = .StateClosed) : runClassify stream w c = classifyClose w c := by
  have h1 : ¬ c.state ≠ .StateClosed := fun h => h hs
  have h2 : ¬ c.state = .StateHolding := by rw [hs]; decide
  unfold runClassify classifyMessage
  rw [if_neg h1]
  dsimp only
  rw [if_neg (by decide), if_neg h2]

/-- The classification step on a connection in Closing or Closed (with its
fatal error stored) that does not end at the dereference of an invalid hint:
it returns with the registry empty, and every outgoing still pending after
the message was handled is completed exactly once with the stored fatal
error, in key order; in Closed, and in Closing unless the message is a reply,
these are all the outgoings registered at the start. -/
theorem closing_fails_all_pending (stream : List Byte) (w : Worker) (c : Connection)
    (e : LocalException) (hs : c.state = .StateClosing ∨ c.state = .StateClosed)
    (he : c.exception = some e) (hv : (runClassify stream w c).1 ≠ .invalidIterator) :
    (runClassify stream w c).1 = .returned ∧
    (runClassify stream w c).2.2.requests = [] ∧
    (runClassify stream w c).2.2.exception = some e ∧
    (runClassify stream w c).2.2.finished =
      (classifyMessage stream w c).2.2.finished ++
        (classifyMessage stream w c).2.2.requests.map (fun p => (p.2, Completion.failed e)) ∧
    (c.state = .StateClosed ∨ ¬ (w.invokeNum ≤ 0 ∧ 0 < w.requestId) →
      (runClassify stream w c).2.2.finished =
        c.finished ++ c.requests.map (fun p => (p.2, Completion.failed e))) := by
  have hmv : ¬ (classifyMessage stream w c).1 = .invalidIterator := by
    intro h
    apply hv
    unfold runClassify
    dsimp only
    rw [if_pos h]
    exact h
  obtain ⟨hms, hme⟩ := classifyMessage_closing stream w c e hs he
  have hcc := classifyClose_closing (classifyMessage stream w c).2.1
    (classifyMessage stream w c).2.2 e hms hme
  have hrun : runClassify stream w c =
      classifyClose (classifyMessage stream w c).2.1 (classifyMessage stream w c).2.2 := by
    unfold runClassify
    dsimp only
    have hnh : ¬ (classifyMessage stream w c).2.2.state = .StateHolding := by
      rcases hms with h | h <;> rw [h] <;> decide
    rw [if_neg hmv, if_neg hnh]
  rw [hrun]
  refine ⟨hcc.1, hcc.2.1, hcc.2.2.2.1, hcc.2.2.1, ?_⟩
  intro hcase
  rw [hcc.2.2.1]
  have hsame : (classifyMessage stream w c).2.2 = c := by
    unfold classifyMessage
    split
    · rename_i hne
      split
      · split
        · rename_i h
          rcases hs with hs | hs <;> rw [hs] at h <;> simp [State.toNat] at h
        · split
          · rfl
          · split <;> rfl
      · rename_i hi
        split
        · rename_i hr
          rcases hcase with hcase | hcase
          · exact absurd hcase hne
          · exact absurd ⟨by omega, hr⟩ hcase
        · rfl
    · rfl
  rw [hsame]

/-- C15 (as stated, refuted). A connection with a pending outgoing is
destroyed (Closing, CommunicatorDestroyedException stored) and then closed
with `close(true)`: the state is Closed, and the worker completes the pending
outgoing with the stored CommunicatorDestroyedException, not with
ForcedCloseConnectionException. -/
theorem forced_close_after_destroy_fails_with_first_error :
    ((Op.destroy .CommunicatorDestroyed).apply pendingConnection).requests = [(1, 7)] ∧
    ((Op.destroy .CommunicatorDestroyed).apply pendingConnection).state = .StateClosing ∧
    (close true ((Op.destroy .CommunicatorDestroyed).apply pendingConnection)).2.state =
      .StateClosed ∧
    (runClassify [] ⟨0, 0, false⟩
      (close true ((Op.destroy .CommunicatorDestroyed).apply pendingConnection)).2).2.2.finished =
      [(7, .failed .CommunicatorDestroyedException)] ∧
    (runClassify [] ⟨0, 0, false⟩
      (close true ((Op.destroy .CommunicatorDestroyed).apply pendingConnection)).2).2.2.finished ≠
      [(7, .failed .ForcedCloseConnectionException)] := by
  decide

/-- C15 (amended). After `close(true)` the state is Closed in every case,
the call itself completes no outgoing, and the next classification step of
the worker completes every outgoing that was pending in the registry exactly
once with the stored fatal error of the connection, which is
ForcedCloseConnectionException when no error was stored before the call and
otherwise the error stored first. -/
theorem forced_close_fails_pending_with_stored_error (c : Connection) :
    (close true c).1 = .returned ∧
    (close true c).2.state = .StateClosed ∧
    (close true c).2.requests = c.requests ∧
    (close true c).2.finished = c.finished ∧
    (c.exception = none → c.state ≠ .StateClosed →
      (close true c).2.exception = some .ForcedCloseConnectionException) ∧
    (∀ e, c.exception = some e → (close true c).2.exception = some e) ∧
    (∀ (e : LocalException) (stream : List Byte) (w : Worker),
      (close true c).2.exception = some e →
      (runClassify stream w (close true c).2).1 = .returned ∧
      (runClassify stream w (close true c).2).2.2.requests = [] ∧
      (runClassify stream w (close true c).2).2.2.finished =
        c.finished ++ c.requests.map (fun p => (p.2, Completion.failed e))) := by
  have hc : close true c = (.returned, setStateClosedEx .ForcedCloseConnectionException c) := by
    unfold close
    rw [if_pos rfl, setStateEx_closed_eq]
  have hk := keeps_setStateClosedEx .ForcedCloseConnectionException c
  have hst := setStateClosedEx_state .ForcedCloseConnectionException c
  rw [hc]
  dsimp only
  refine ⟨rfl, hst, hk.1, hk.2.2.1, ?_, ?_, ?_⟩
  · intro hn hs
    rw [setStateClosedEx_exception, if_neg hs, hn]
    rfl
  · intro e he
    exact (advances_setStateClosedEx _ c).2.1 e he
  · intro e stream w he
    rw [runClassify_of_closed stream w _ hst]
    have h := classifyClose_closing w _ e (Or.inr hst) he
    refine ⟨h.1, h.2.1, ?_⟩
    rw [h.2.2.1, hk.1, hk.2.2.1]

theorem forced_close_fails_pending_witness :
    pendingConnection.exception = none ∧ pendingConnection.state ≠ .StateClosed ∧
    pendingConnection.requests = [(1, 7)] ∧
    (close true pendingConnection).2.exception = some .ForcedCloseConnectionException ∧
    (runClassify [] ⟨0, 0, false⟩ (close true pendingConnection).2).2.2.finished =
      pendingConnection.finished ++
        pendingConnection.requests.map
          (fun p => (p.2, Completion.failed .ForcedCloseConnectionException)) :=
  ⟨by decide, by decide, by decide,
    (forced_close_fails_pending_with_stored_error pendingConnection).2.2.2.2.1
      (by decide) (by decide),
    ((forced_close_fails_pending_with_stored_error pendingConnection).2.2.2.2.2.2
      .ForcedCloseConnectionException [] ⟨0, 0, false⟩ (by decide)).2.2⟩

/-- C16 (code defect, evaluated). A request with id 5 has been read
(`invokeNum` 1) when another thread closes the connection with `close(true)`.
The classification step then finds the state Closed, skips the block that
would count or drop the request, and leaves `invokeNum` at 1 with
`_dispatchCount` still 0; the dispatch loop makes the call of `_in.invoke`.
In Closing the same request is dropped. -/
theorem closed_connection_dispatches_uncounted_request :
    (close true activeServer).2.state = .StateClosed ∧
    (close true activeServer).2.dispatchCount = 0 ∧
    (runClassify [] ⟨5, 1, false⟩ (close true activeServer).2).1 = .returned ∧
    (runClassify [] ⟨5, 1, false⟩ (close true activeServer).2).2.1.invokeNum = 1 ∧
    (runClassify [] ⟨5, 1, false⟩ (close true activeServer).2).2.2.dispatchCount = 0 ∧
    (runDispatch (runClassify [] ⟨5, 1, false⟩ (close true activeServer).2).2.1
      [.completed []]
      (runClassify [] ⟨5, 1, false⟩ (close true activeServer).2).2.2).invoked = 1 ∧
    (runClassify [] ⟨5, 1, false⟩ (destroy .CommunicatorDestroyed activeServer)).2.1.invokeNum
      = 0 := by
  decide

/-- C17 (code defect, evaluated). On the same run as for C16 the dispatch
counter is 0 when the request is dispatched on the Closed connection, no
increment was made, and the `sendResponse` that ends the invocation
decrements it: the counter ends at -1. -/
theorem dispatch_count_goes_negative :
    activeServer.dispatchCount = 0 ∧
    (runClassify [] ⟨5, 1, false⟩ (close true activeServer).2).2.2.dispatchCount = 0 ∧
    (runDispatch (runClassify [] ⟨5, 1, false⟩ (close true activeServer).2).2.1
      [.completed []]
      (runClassify [] ⟨5, 1, false⟩ (close true activeServer).2).2.2).c.dispatchCount = -1 := by
  decide

/-- C20. Dispatch to a missing object: when the servant map has no servant
for the identity and the adapter has no locator, or its locator returns no
servant, `invoke` returns normally, the output is the previous output
followed by the single status byte ObjectNotExist (1), and the only call made
is the `locate` call, if there is a locator: neither the dispatch of a
servant nor `finished` of the locator is called. -/
theorem dispatch_to_missing_object (adapter : ObjectAdapter) (identity operation : String)
    (os : List Byte) (hs : adapter.identityToServant identity = none)
    (hl : adapter.getServantLocator = none ∨
      ∃ l cookie, adapter.getServantLocator = some l ∧
        l.locate identity operation = .notFound cookie) :
    (invoke adapter identity operation os).ending = .returned ∧
    (invoke adapter identity operation os).os = os ++ [1] ∧
    DispatchStatus.DispatchObjectNotExist.toByte = 1 ∧
    ((invoke adapter identity operation os).events = [] ∨
      (invoke adapter identity operation os).events = [.locate identity operation]) := by
  have ht : (invokeTry adapter identity operation os).thrown = none ∧
      (invokeTry adapter identity operation os).os = os ++ [1] ∧
      ((invokeTry adapter identity operation os).events = [] ∨
        (invokeTry adapter identity operation os).events = [.locate identity operation]) := by
    unfold invokeTry locateServant
    rw [hs]
    rcases hl with hl | ⟨l, cookie, hl, hloc⟩
    · rw [hl]
      exact ⟨rfl, rfl, Or.inl rfl⟩
    · rw [hl]
      dsimp only
      rw [hloc]
      exact ⟨rfl, rfl, Or.inr rfl⟩
  unfold invoke
  dsimp only
  rw [ht.1]
  exact ⟨rfl, ht.2.1, rfl, ht.2.2⟩

theorem dispatch_to_missing_object_witness :
    emptyAdapter.identityToServant "foo" = none ∧
    (invoke emptyAdapter "foo" "op" [0x49, 5, 0, 0, 0]).ending = .returned ∧
    (invoke emptyAdapter "foo" "op" [0x49, 5, 0, 0, 0]).os = [0x49, 5, 0, 0, 0] ++ [1] ∧
    (invoke idleLocatorAdapter "foo" "op" []).os = [] ++ [1] :=
  ⟨rfl,
    (dispatch_to_missing_object emptyAdapter "foo" "op" [0x49, 5, 0, 0, 0] rfl (Or.inl rfl)).1,
    (dispatch_to_missing_object emptyAdapter "foo" "op" [0x49, 5, 0, 0, 0] rfl (Or.inl rfl)).2.1,
    (dispatch_to_missing_object idleLocatorAdapter "foo" "op" [] rfl
      (Or.inr ⟨_, 0, rfl, rfl⟩)).2.1⟩

theorem parse_classifies_by_message_type_witness :
    requestPeer.tr.input =
      [0x49, 0x63, 0x65, 0x50, 1, 0, 1, 0, 0, 0, 21, 0, 0, 0] ++ [1, 0, 0, 0, 1, 2, 3] ++ [] ∧
    (readStreamAndParseMessage requestPeer 0 0).raised = none ∧
    (readStreamAndParseMessage requestPeer 0 0).requestId = 1 ∧
    (readStreamAndParseMessage requestPeer 0 0).invokeNum = 1 :=
  ⟨by decide,
    ((parse_classifies_by_message_type requestPeer
      [0x49, 0x63, 0x65, 0x50, 1, 0, 1, 0, 0, 0, 21, 0, 0, 0] [1, 0, 0, 0, 1, 2, 3] [] 0 0
      (by decide) (by decide) (by decide) (by decide)).2.2.2.2 1 0 0 0 [1, 2, 3] rfl).2.1
      (by decide)⟩

theorem handshake_success_passive_witness :
    handshakePeer.state = .StateNotValidated ∧
    (validate handshakePeer).1 = .returned ∧
    (validate handshakePeer).2.tr.written = [] ∧
    (runStart handshakePeer).2.state = .StateActive :=
  ⟨by decide,
    (handshake_success_passive handshakePeer [] (by decide) (by decide) (by decide)
      (by decide)).1,
    (handshake_success_passive handshakePeer [] (by decide) (by decide) (by decide)
      (by decide)).2.1,
    (handshake_success_passive handshakePeer [] (by decide) (by decide) (by decide)
      (by decide)).2.2.2.2.1⟩

theorem handshake_failure_passive_witness :
    handshakeError badMagicPeer.tr.input = some (.BadMagicException [0x58, 0x59, 0x5A, 0x57]) ∧
    (validate badMagicPeer).1 = .raised (.BadMagicException [0x58, 0x59, 0x5A, 0x57]) ∧
    (validate badMagicPeer).2.state = .StateClosed ∧
    (validate badMagicPeer).2.exception = some (.BadMagicException [0x58, 0x59, 0x5A, 0x57]) :=
  ⟨by decide,
    (handshake_failure_passive badMagicPeer badMagicPeer.tr.input [] (by decide) (by decide)
      (by decide) (by decide) (by decide)).1 _ (by decide)⟩

theorem reply_correlation_witness :
    pendingConnection.requests = [(1, 7)] ∧
    (processReply [0x49, 0x63, 0x65, 0x50, 1, 0, 1, 0, 2, 0, 19, 0, 0, 0, 1, 0, 0, 0, 0] 1
      pendingConnection).2.finished =
      pendingConnection.finished ++
        [(7, .reply [0x49, 0x63, 0x65, 0x50, 1, 0, 1, 0, 2, 0, 19, 0, 0, 0, 1, 0, 0, 0, 0])] ∧
    (processReply [0x49, 0x63, 0x65, 0x50, 1, 0, 1, 0, 2, 0, 19, 0, 0, 0, 1, 0, 0, 0, 0] 1
      pendingConnection).2.requests = [] ∧
    (processReply [] 2 pendingConnection).2.state = .StateClosed :=
  ⟨by decide,
    ((reply_correlation [0x49, 0x63, 0x65, 0x50, 1, 0, 1, 0, 2, 0, 19, 0, 0, 0, 1, 0, 0, 0, 0] 1
      pendingConnection (by decide) (by decide)).1 7 (by decide)).2.1,
    ((reply_correlation [0x49, 0x63, 0x65, 0x50, 1, 0, 1, 0, 2, 0, 19, 0, 0, 0, 1, 0, 0, 0, 0] 1
      pendingConnection (by decide) (by decide)).1 7 (by decide)).2.2.2.2.1 (by decide),
    ((reply_correlation [] 2 pendingConnection (by decide) (by decide)).2.1 (by decide)).2.2.2.1⟩

theorem closing_fails_all_pending_witness :
    (destroy .CommunicatorDestroyed pendingConnection).state = .StateClosing ∧
    (destroy .CommunicatorDestroyed pendingConnection).requests = [(1, 7)] ∧
    (runClassify [] ⟨0, 0, false⟩
      (destroy .CommunicatorDestroyed pendingConnection)).2.2.requests = [] ∧
    (runClassify [] ⟨0, 0, false⟩
      (destroy .CommunicatorDestroyed pendingConnection)).2.2.finished =
      (destroy .CommunicatorDestroyed pendingConnection).finished ++
        (destroy .CommunicatorDestroyed pendingConnection).requests.map
          (fun p => (p.2, Completion.failed .CommunicatorDestroyedException)) :=
  ⟨by decide, by decide,
    (closing_fails_all_pending [] ⟨0, 0, false⟩
      (destroy .CommunicatorDestroyed pendingConnection) .CommunicatorDestroyedException
      (by decide) (by decide) (by decide)).2.1,
    (closing_fails_all_pending [] ⟨0, 0, false⟩
      (destroy .CommunicatorDestroyed pendingConnection) .CommunicatorDestroyedException
      (by decide) (by decide) (by decide)).2.2.2.2 (by decide)⟩

theorem reachable_staleHintConnection : Reachable staleHintConnection :=
  Reachable.runClassify [] ⟨0, 0, false⟩
    (Reachable.op (.destroy .CommunicatorDestroyed)
      (Reachable.op (.sendRequest requestHdr (some 7) false)
        (Reachable.op .activate
          (Reachable.op .hold (Reachable.init (Transceiver.fresh [] []) false false 1048576 (-1))
            rfl) rfl) rfl) rfl)

/-- C18 (code defect, evaluated). A reply whose id is not registered, handled
while the hint dangles. The connection is reachable: a request is sent (id 1,
hint at its entry), `destroy` moves the connection to Closing, and the worker
handles a message that is neither request nor reply, whose fail-all block
clears the map and leaves the hint. The reply with id 1 that arrives next is
not in the registry, and the reply block does not throw
UnknownRequestIdException: it takes the hint and dereferences it. Nothing
takes the connection to Closed, and no UnknownRequestIdException is stored. -/
theorem unregistered_reply_takes_stale_hint :
    Reachable staleHintConnection ∧
    staleHintConnection.state = .StateClosing ∧
    staleHintConnection.requests = [] ∧
    staleHintConnection.requestsHint = some 1 ∧
    mapFind staleHintConnection.requests 1 = none ∧
    (processReply [] 1 staleHintConnection).1 = .invalidHint ∧
    (processReply [] 1 staleHintConnection).1 ≠ .unknownRequestId ∧
    (processReply [] 1 staleHintConnection).2.state = .StateClosing ∧
    (processReply [] 1 staleHintConnection).2.exception =
      some .CommunicatorDestroyedException ∧
    (classifyMessage [] ⟨1, 0, false⟩ staleHintConnection).1 = .invalidIterator :=
  ⟨reachable_staleHintConnection, by decide, by decide, by decide, by decide, by decide,
    by decide, by decide, by decide, by decide⟩

/-- C19 (code defect, evaluated). A classification step in Closing that does
not get to the fail-all block. The connection is reachable and in Closing with
CommunicatorDestroyedException stored; an earlier step of the worker has
completed the outgoing 7 with that error and cleared the map, leaving the hint
at the erased entry with key 1. The step for the reply with id 1 runs the
reply block first, which dereferences the hint: the step ends there and does
not return. -/
theorem closing_step_ends_at_stale_hint :
    Reachable staleHintConnection ∧
    staleHintConnection.state = .StateClosing ∧
    staleHintConnection.exception = some .CommunicatorDestroyedException ∧
    staleHintConnection.finished = [(7, .failed .CommunicatorDestroyedException)] ∧
    (runClassify [] ⟨1, 0, false⟩ staleHintConnection).1 = .invalidIterator ∧
    (runClassify [] ⟨1, 0, false⟩ staleHintConnection).1 ≠ .returned :=
  ⟨reachable_staleHintConnection, by decide, by decide, by decide, by decide, by decide⟩

/-- The request branch of the classification block by state: below Closing
the dispatch count grows by `invokeNum` and the local is kept; in Closing the
local is reset and nothing is counted; in Closed the block is skipped, so the
local and the count are both kept. -/
theorem classifyMessage_request (stream : List Byte) (w : Worker) (c : Connection)
    (hi : 0 < w.invokeNum) :
    (c.state.toNat < State.StateClosing.toNat →
      classifyMessage stream w c =
        (.returned, w, { c with dispatchCount := c.dispatchCount + w.invokeNum })) ∧
    (c.state = .StateClosing →
      classifyMessage stream w c = (.returned, { w with invokeNum := 0 }, c)) ∧
    (c.state = .StateClosed → classifyMessage stream w c = (.returned, w, c)) := by
  refine ⟨?_, ?_, ?_⟩
  · intro hlt
    have hne : c.state ≠ .StateClosed := by
      intro h; rw [h] at hlt; revert hlt; decide
    unfold classifyMessage
    rw [if_pos hne, if_pos hi, if_pos hlt]
  · intro hs
    have hne : c.state ≠ .StateClosed := by rw [hs]; decide
    have hnl : ¬ c.state.toNat < State.StateClosing.toNat := by rw [hs]; decide
    unfold classifyMessage
    rw [if_pos hne, if_pos hi, if_neg hnl]
    split
    · rfl
    · rename_i h1
      rw [if_pos (by omega)]
  · intro hs
    unfold classifyMessage
    rw [if_neg (by rw [hs]; decide)]

theorem setStateClosedEx_keeps_release (ex : LocalException) (c : Connection)
    (hinv : c.transceiver = false → c.exception ≠ none) :
    (setStateClosedEx ex c).transceiver = false → (setStateClosedEx ex c).exception ≠ none := by
  intro ht
  rw [setStateClosedEx_exception]
  by_cases hs : c.state = .StateClosed
  · rw [if_pos hs]
    apply hinv
    unfold setStateClosedEx at ht
    rw [if_pos hs] at ht
    exact ht
  · rw [if_neg hs]
    split
    · simp
    · rename_i h
      intro hn
      rw [hn] at h
      exact h rfl

theorem sendNoResponse_dispatchCount (c : Connection) :
    (sendNoResponse c).dispatchCount = c.dispatchCount - 1 := by
  unfold sendNoResponse
  dsimp only
  split
  · split
    · rename_i c2 hq
      have h1 : (initiateShutdown { c with dispatchCount := c.dispatchCount - 1 }).2.dispatchCount
          = c.dispatchCount - 1 := rfl
      rw [hq] at h1
      exact h1
    · rename_i ex c2 hq
      have h1 : (initiateShutdown { c with dispatchCount := c.dispatchCount - 1 }).2.dispatchCount
          = c.dispatchCount - 1 := rfl
      rw [hq] at h1
      rw [(keeps_setStateEx .StateClosed ex c2).2.2.2.1]
      exact h1
  · rfl

theorem sendNoResponse_keeps_release (c : Connection)
    (hinv : c.transceiver = false → c.exception ≠ none) :
    (sendNoResponse c).transceiver = false → (sendNoResponse c).exception ≠ none := by
  unfold sendNoResponse
  dsimp only
  split
  · split
    · rename_i c2 hq
      have h1 : (initiateShutdown { c with dispatchCount := c.dispatchCount - 1 }).2.transceiver
          = c.transceiver := rfl
      have h2 : (initiateShutdown { c with dispatchCount := c.dispatchCount - 1 }).2.exception
          = c.exception := rfl
      rw [hq] at h1 h2
      dsimp only at h1 h2
      rw [h1, h2]
      exact hinv
    · rename_i ex c2 hq
      have h1 : (initiateShutdown { c with dispatchCount := c.dispatchCount - 1 }).2.transceiver
          = c.transceiver := rfl
      have h2 : (initiateShutdown { c with dispatchCount := c.dispatchCount - 1 }).2.exception
          = c.exception := rfl
      rw [hq] at h1 h2
      dsimp only at h1 h2
      rw [setStateEx_closed_eq]
      apply setStateClosedEx_keeps_release
      rw [h1, h2]
      exact hinv
  · exact hinv

theorem sendResponseWrite_returned (os : List Byte) (c : Connection)
    (hinv : c.transceiver = false → c.exception ≠ none) :
    (sendResponseWrite os c).1 = .returned ∧
    (sendResponseWrite os c).2.dispatchCount = c.dispatchCount ∧
    ((sendResponseWrite os c).2.transceiver = false →
      (sendResponseWrite os c).2.exception ≠ none) := by
  unfold sendResponseWrite
  split
  · rename_i ht
    have ht2 : c.transceiver = false := by simpa using ht
    split
    · rename_i he
      exact absurd he (hinv ht2)
    · rename_i e he
      refine ⟨rfl, (keeps_setStateEx .StateClosed e c).2.2.2.1, ?_⟩
      rw [setStateEx_closed_eq]
      exact setStateClosedEx_keeps_release e c hinv
  · dsimp only
    split
    · rename_i ex t hq
      refine ⟨rfl, (keeps_setStateEx .StateClosed ex _).2.2.2.1, ?_⟩
      rw [setStateEx_closed_eq]
      exact setStateClosedEx_keeps_release ex _ hinv
    · exact ⟨rfl, rfl, hinv⟩

theorem sendResponse_dispatchCount (os : List Byte) (c : Connection)
    (hinv : c.transceiver = false → c.exception ≠ none) :
    (sendResponse os c).1 = .returned ∧
    (sendResponse os c).2.dispatchCount = c.dispatchCount - 1 ∧
    ((sendResponse os c).2.transceiver = false → (sendResponse os c).2.exception ≠ none) := by
  obtain ⟨h1, h2, h3⟩ := sendResponseWrite_returned os c hinv
  unfold sendResponse
  split
  · rename_i c1 hq
    rw [hq] at h2 h3
    dsimp only at h2 h3
    exact ⟨rfl, by rw [sendNoResponse_dispatchCount, h2], sendNoResponse_keeps_release c1 h3⟩
  · rename_i r hne
    exfalso
    apply hne (sendResponseWrite os c).2
    rw [← h1]

theorem dispatchLoop_dispatchCount (requestId : Int) (n : Nat) :
    ∀ (script : List InvokeOutcome) (c : Connection),
      (c.transceiver = false → c.exception ≠ none) →
      (dispatchLoop requestId n script c).invokeNum ≤ n ∧
      (dispatchLoop requestId n script c).c.dispatchCount =
        c.dispatchCount - ((n - (dispatchLoop requestId n script c).invokeNum : Nat) : Int) := by
  induction n with
  | zero =>
    intro script c _
    unfold dispatchLoop
    simp
  | succ n ih =>
    intro script c hinv
    unfold dispatchLoop
    split
    · rename_i body hb
      dsimp only
      by_cases hr : requestId ≠ 0
      · rw [if_pos hr]
        obtain ⟨_, hd, hi⟩ := sendResponse_dispatchCount (writeReplyHeader [] requestId ++ body)
          c hinv
        obtain ⟨h1, h2⟩ := ih script.tail _ hi
        refine ⟨by omega, ?_⟩
        rw [h2, hd]
        omega
      · rw [if_neg hr]
        obtain ⟨h1, h2⟩ := ih script.tail _ (sendNoResponse_keeps_release c hinv)
        refine ⟨by omega, ?_⟩
        rw [h2, sendNoResponse_dispatchCount]
        omega
    · simp

/-- The part of the loop body of `Connection::run` after the lock takes
exactly `invokeNum` off `_dispatchCount`, whatever the invocations do: one
per invocation that completes (through `sendResponse` or `sendNoResponse`)
and the rest through the recovery decrement; this for a connection whose
transport is released only with the fatal error stored. -/
theorem runDispatch_dispatchCount (w : Worker) (script : List InvokeOutcome) (c : Connection)
    (hinv : c.transceiver = false → c.exception ≠ none) :
    (runDispatch w script c).c.dispatchCount = c.dispatchCount - (w.invokeNum.toNat : Int) := by
  obtain ⟨h1, h2⟩ := dispatchLoop_dispatchCount w.requestId w.invokeNum.toNat script c hinv
  unfold runDispatch
  dsimp only
  generalize dispatchLoop w.requestId w.invokeNum.toNat script c = r at h1 h2 ⊢
  split
  · dsimp only
    split
    · rw [(keeps_setStateEx _ _ _).2.2.2.1, h2]; omega
    · rw [(keeps_setStateEx _ _ _).2.2.2.1, h2]; omega
    · rw [(keeps_setStateEx _ _ _).2.2.2.1, h2]; omega
    · rw [h2]; omega
  · dsimp only
    split
    · rw [(keeps_setStateEx _ _ _).2.2.2.1, h2]; omega
    · rw [(keeps_setStateEx _ _ _).2.2.2.1, h2]; omega
    · rw [(keeps_setStateEx _ _ _).2.2.2.1, h2]; omega
    · rw [h2]; omega

/-! ## Dispatch adapter, batch requests, shutdown and reachable connections -/

theorem set_status_byte (os written : List Byte) (a b : Byte) :
    (os ++ [a] ++ written).set os.length b = os ++ [b] ++ written := by
  induction os with
  | nil => rfl
  | cons x xs ih =>
    simp only [List.cons_append, List.length_cons, List.set_cons_succ]
    rw [ih]

theorem getD_status_byte (os rest : List Byte) (b : Byte) :
    (os ++ [b] ++ rest).getD os.length 0 = b := by
  induction os with
  | nil => rfl
  | cons x xs ih =>
    simp only [List.cons_append, List.length_cons, List.getD_cons_succ]
    exact ih

/-- The servant `Incoming::invoke` resolves: `sv` straight from the servant
map, or, the map having none, from the locator of the adapter. -/
theorem locateServant_resolved (adapter : ObjectAdapter) (identity operation : String)
    (os : List Byte) (sv : Servant)
    (hres : adapter.identityToServant identity = some sv ∨
      (adapter.identityToServant identity = none ∧
        ∃ l cookie, adapter.getServantLocator = some l ∧
          l.locate identity operation = .found sv cookie)) :
    locateServant adapter identity operation (adapter.identityToServant identity) os =
        ⟨none, none, some sv, 0, os, []⟩ ∨
      ∃ l cookie, adapter.getServantLocator = some l ∧
        l.locate identity operation = .found sv cookie ∧
        locateServant adapter identity operation (adapter.identityToServant identity) os =
          ⟨none, some l, some sv, cookie, os, [.locate identity operation]⟩ := by
  rcases hres with h | ⟨h, l, cookie, hl, hloc⟩
  · left
    rw [h]
    rfl
  · right
    refine ⟨l, cookie, hl, hloc, ?_⟩
    rw [h]
    unfold locateServant
    dsimp only
    rw [hl]
    dsimp only
    rw [hloc]

/-- C21. Dispatch success: whenever a servant is resolved (from the servant
map, or through the locator) and its `__dispatch` returns the status `s`
without raising, the output at the end of the `try` block is the output at
entry, the byte of `s` at the remembered status position, and the bytes the
servant wrote after the status byte; `invoke` returns with exactly this output
unless `locator->finished`, called after the patch, raises. -/
theorem dispatch_success (adapter : ObjectAdapter) (identity operation : String)
    (os : List Byte) (sv : Servant) (s : DispatchStatus)
    (hres : adapter.identityToServant identity = some sv ∨
      (adapter.identityToServant identity = none ∧
        ∃ l cookie, adapter.getServantLocator = some l ∧
          l.locate identity operation = .found sv cookie))
    (hs : sv.result = .ok s) :
    (invokeTry adapter identity operation os).os = os ++ [s.toByte] ++ sv.written ∧
    (invokeTry adapter identity operation os).os.getD os.length 0 = s.toByte ∧
    (invokeTry adapter identity operation os).os.take os.length = os ∧
    (invokeTry adapter identity operation os).os.drop (os.length + 1) = sv.written ∧
    ((invokeTry adapter identity operation os).thrown = none →
      (invoke adapter identity operation os).ending = .returned ∧
      (invoke adapter identity operation os).os = os ++ [s.toByte] ++ sv.written) := by
  have hos : (invokeTry adapter identity operation os).os = os ++ [s.toByte] ++ sv.written := by
    rcases locateServant_resolved adapter identity operation os sv hres with
      h | ⟨l, cookie, _, _, h⟩
    · unfold invokeTry
      dsimp only
      rw [h]
      dsimp only
      rw [hs]
      dsimp only
      exact set_status_byte os sv.written _ _
    · unfold invokeTry
      dsimp only
      rw [h]
      dsimp only
      rw [hs]
      dsimp only
      exact set_status_byte os sv.written _ _
  refine ⟨hos, ?_, ?_, ?_, ?_⟩
  · rw [hos]
    exact getD_status_byte os sv.written _
  · rw [hos]
    simp
  · rw [hos, List.append_assoc]
    rw [List.drop_append_eq_append_drop]
    simp
  · intro hn
    unfold invoke
    dsimp only
    rw [hn]
    exact ⟨rfl, hos⟩

theorem dispatch_success_witness :
    (invokeTry mapAdapter "foo" "op" [1, 2, 3]).os = [1, 2, 3] ++ [1] ++ [7, 8] ∧
    (invoke (locatorAdapter plainServant (fun _ => none)) "foo" "op" [1, 2, 3]).os =
      [1, 2, 3] ++ [1] ++ [7, 8] :=
  ⟨(dispatch_success mapAdapter "foo" "op" [1, 2, 3] plainServant .DispatchObjectNotExist
      (Or.inl rfl) rfl).1,
    ((dispatch_success (locatorAdapter plainServant (fun _ => none)) "foo" "op" [1, 2, 3]
      plainServant .DispatchObjectNotExist (Or.inr ⟨rfl, _, 3, rfl, rfl⟩) rfl).2.2.2.2
      (by decide)).2⟩

theorem invoke_events_returned (adapter : ObjectAdapter) (identity operation : String)
    (os : List Byte) (h1 : (invokeTry adapter identity operation os).thrown = none) :
    (invoke adapter identity operation os).events =
      (invokeTry adapter identity operation os).events := by
  unfold invoke
  dsimp only
  rw [h1]

theorem invoke_events_handler (adapter : ObjectAdapter) (identity operation : String)
    (os : List Byte) (x : Thrown) (l : ServantLocator) (s : Servant)
    (h1 : (invokeTry adapter identity operation os).thrown = some x)
    (h2 : (invokeTry adapter identity operation os).locator = some l)
    (h3 : (invokeTry adapter identity operation os).servant = some s) :
    (invoke adapter identity operation os).events =
      (invokeTry adapter identity operation os).events ++
        [.finished identity s.name operation (invokeTry adapter identity operation os).cookie] := by
  unfold invoke
  dsimp only
  generalize invokeTry adapter identity operation os = t at h1 h2 h3 ⊢
  obtain ⟨thrown, locator, servant, cookie, os1, events⟩ := t
  dsimp only at h1 h2 h3 ⊢
  subst h1 h2 h3
  dsimp only
  repeat' split
  all_goals rfl

theorem invoke_events_no_call (adapter : ObjectAdapter) (identity operation : String)
    (os : List Byte)
    (h : (invokeTry adapter identity operation os).locator = none ∨
      (invokeTry adapter identity operation os).servant = none) :
    (invoke adapter identity operation os).events =
      (invokeTry adapter identity operation os).events := by
  unfold invoke
  dsimp only
  generalize invokeTry adapter identity operation os = t at h ⊢
  obtain ⟨thrown, locator, servant, cookie, os1, events⟩ := t
  dsimp only at h ⊢
  rcases h with h | h
  · subst h
    cases thrown with
    | none => rfl
    | some x =>
      dsimp only
      repeat' split
      all_goals rfl
  · subst h
    cases thrown with
    | none => rfl
    | some x =>
      cases locator with
      | none =>
        dsimp only
        repeat' split
        all_goals rfl
      | some l =>
        dsimp only
        repeat' split
        all_goals rfl

theorem invokeTry_os (adapter : ObjectAdapter) (identity operation : String) (os : List Byte) :
    ∃ more, (invokeTry adapter identity operation os).os = os ++ more := by
  unfold invokeTry locateServant
  dsimp only
  cases adapter.identityToServant identity with
  | some sv =>
    dsimp only
    cases sv.result with
    | error t => exact ⟨_, List.append_assoc _ _ _⟩
    | ok s =>
      dsimp only
      rw [set_status_byte]
      exact ⟨_, List.append_assoc _ _ _⟩
  | none =>
    dsimp only
    cases adapter.getServantLocator with
    | none => exact ⟨_, rfl⟩
    | some l =>
      dsimp only
      cases l.locate identity operation with
      | found sv cookie =>
        dsimp only
        cases sv.result with
        | error t => exact ⟨_, List.append_assoc _ _ _⟩
        | ok s =>
          dsimp only
          rw [set_status_byte]
          exact ⟨_, List.append_assoc _ _ _⟩
      | notFound cookie => exact ⟨_, rfl⟩
      | threw t => exact ⟨[], (List.append_nil _).symm⟩

theorem invokeTry_os_take (adapter : ObjectAdapter) (identity operation : String)
    (os : List Byte) : (invokeTry adapter identity operation os).os.take os.length = os := by
  obtain ⟨more, h⟩ := invokeTry_os adapter identity operation os
  rw [h]
  simp

/-- What `Incoming::invoke` does with an exception of the `try` block when
the call of `locator->finished` in the handler, if the handler makes one,
returns. -/
theorem invoke_of_thrown (adapter : ObjectAdapter) (identity operation : String)
    (os : List Byte) (x : Thrown)
    (hx : (invokeTry adapter identity operation os).thrown = some x)
    (hfin : ∀ l s, (invokeTry adapter identity operation os).locator = some l →
      (invokeTry adapter identity operation os).servant = some s →
      l.finished (finishedCalls (invokeTry adapter identity operation os).events) = none) :
    ((invoke adapter identity operation os).ending,
        (invoke adapter identity operation os).os) =
      match x with
      | .locationForward prx =>
        (.returned, os ++ [DispatchStatus.DispatchLocationForward.toByte] ++ prx)
      | .localException ex =>
        (.threw (.localException ex), os ++ [DispatchStatus.DispatchLocalException.toByte])
      | .other =>
        (.threw (.localException (.UnknownException "")),
          os ++ [DispatchStatus.DispatchUnknownException.toByte]) := by
  have htake := invokeTry_os_take adapter identity operation os
  have hbind : ((match (invokeTry adapter identity operation os).locator,
      (invokeTry adapter identity operation os).servant with
      | some l, some s =>
        some (l.finished (finishedCalls (invokeTry adapter identity operation os).events),
          DispatchEvent.finished identity s.name operation
            (invokeTry adapter identity operation os).cookie)
      | _, _ => none).bind fun f => f.1) = none := by
    cases hl : (invokeTry adapter identity operation os).locator with
    | none => rfl
    | some l =>
      cases hs : (invokeTry adapter identity operation os).servant with
      | none => rfl
      | some s => exact hfin l s hl hs
  have key : ∀ r : InvokeResult, r = invoke adapter identity operation os →
      (r.ending, r.os) =
        match x with
        | .locationForward prx =>
          (.returned, os ++ [DispatchStatus.DispatchLocationForward.toByte] ++ prx)
        | .localException ex =>
          (.threw (.localException ex), os ++ [DispatchStatus.DispatchLocalException.toByte])
        | .other =>
          (.threw (.localException (.UnknownException "")),
            os ++ [DispatchStatus.DispatchUnknownException.toByte]) := by
    intro r hr
    unfold invoke at hr
    dsimp only at hr
    split at hr
    · rename_i hn
      rw [hx] at hn
      cases hn
    · rename_i thrown hsome
      have hth : thrown = x := by
        rw [hx] at hsome
        injection hsome with h
        exact h.symm
      subst hth
      split at hr
      · rename_i t2 heq
        have hc : (none : Option Thrown) = some t2 := hbind.symm.trans heq
        cases hc
      · subst hr
        cases thrown <;> dsimp only <;> rw [htake]
  exact key _ rfl

theorem invokeTry_of_map_servant (adapter : ObjectAdapter) (identity operation : String)
    (os : List Byte) (sv : Servant) (h : adapter.identityToServant identity = some sv) :
    (invokeTry adapter identity operation os).locator = none ∧
    (invokeTry adapter identity operation os).events = [.dispatch sv.name operation] := by
  unfold invokeTry
  dsimp only
  rw [h]
  unfold locateServant
  dsimp only
  cases sv.result with
  | error t => exact ⟨rfl, rfl⟩
  | ok s => exact ⟨rfl, rfl⟩

theorem invokeTry_of_no_servant (adapter : ObjectAdapter) (identity operation : String)
    (os : List Byte) (h : adapter.identityToServant identity = none)
    (hl : adapter.getServantLocator = none ∨
      ∃ l, adapter.getServantLocator = some l ∧
        ∀ sv cookie, l.locate identity operation ≠ .found sv cookie) :
    (invokeTry adapter identity operation os).servant = none ∧
    finishedCalls (invokeTry adapter identity operation os).events = 0 := by
  unfold invokeTry
  dsimp only
  rw [h]
  unfold locateServant
  dsimp only
  rcases hl with hl | ⟨l, hl, hloc⟩
  · rw [hl]
    exact ⟨rfl, rfl⟩
  · rw [hl]
    dsimp only
    cases hq : l.locate identity operation with
    | found sv cookie => exact absurd hq (hloc sv cookie)
    | notFound cookie => exact ⟨rfl, rfl⟩
    | threw t => exact ⟨rfl, rfl⟩

theorem invokeTry_of_located (adapter : ObjectAdapter) (identity operation : String)
    (os : List Byte) (l : ServantLocator) (sv : Servant) (cookie : Nat)
    (h : adapter.identityToServant identity = none) (hl : adapter.getServantLocator = some l)
    (hloc : l.locate identity operation = .found sv cookie) :
    (invokeTry adapter identity operation os).locator = some l ∧
    (invokeTry adapter identity operation os).servant = some sv ∧
    (invokeTry adapter identity operation os).cookie = cookie ∧
    (∀ t, sv.result = .error t →
      (invokeTry adapter identity operation os).thrown = some t ∧
      (invokeTry adapter identity operation os).events =
        [.locate identity operation, .dispatch sv.name operation]) ∧
    (∀ s, sv.result = .ok s →
      (invokeTry adapter identity operation os).thrown = l.finished 0 ∧
      (invokeTry adapter identity operation os).events =
        [.locate identity operation, .dispatch sv.name operation,
          .finished identity sv.name operation cookie]) := by
  unfold invokeTry
  dsimp only
  rw [h]
  unfold locateServant
  dsimp only
  rw [hl]
  dsimp only
  rw [hloc]
  dsimp only
  cases hr : sv.result with
  | error t =>
    refine ⟨rfl, rfl, rfl, ?_, ?_⟩
    · intro t2 ht2
      cases ht2
      exact ⟨rfl, rfl⟩
    · intro s hs
      cases hs
  | ok s =>
    refine ⟨rfl, rfl, rfl, ?_, ?_⟩
    · intro t2 ht2
      cases ht2
    · intro s2 hs
      cases hs
      exact ⟨rfl, rfl⟩

/-- The number of calls of `locator->finished` that `Incoming::invoke` makes,
by path: none when the servant comes from the servant map or no servant is
found; one when the locator supplied the servant and `__dispatch` throws, or
returns and the call of `finished` in the `try` block returns; two when that
call of `finished` throws, because the handler that catches its exception
calls `finished` again. -/
theorem finished_calls_by_path (adapter : ObjectAdapter) (identity operation : String)
    (os : List Byte) :
    (∀ sv, adapter.identityToServant identity = some sv →
      finishedCalls (invoke adapter identity operation os).events = 0) ∧
    (adapter.identityToServant identity = none →
      (adapter.getServantLocator = none ∨
        ∃ l, adapter.getServantLocator = some l ∧
          ∀ sv cookie, l.locate identity operation ≠ .found sv cookie) →
      finishedCalls (invoke adapter identity operation os).events = 0) ∧
    (∀ l sv cookie, adapter.identityToServant identity = none →
      adapter.getServantLocator = some l → l.locate identity operation = .found sv cookie →
      (∀ t, sv.result = .error t →
        finishedCalls (invoke adapter identity operation os).events = 1) ∧
      (∀ s, sv.result = .ok s → l.finished 0 = none →
        finishedCalls (invoke adapter identity operation os).events = 1) ∧
      (∀ s t, sv.result = .ok s → l.finished 0 = some t →
        finishedCalls (invoke adapter identity operation os).events = 2)) := by
  refine ⟨?_, ?_, ?_⟩
  · intro sv h
    obtain ⟨h1, h2⟩ := invokeTry_of_map_servant adapter identity operation os sv h
    rw [invoke_events_no_call adapter identity operation os (Or.inl h1), h2]
    rfl
  · intro h hl
    obtain ⟨h1, h2⟩ := invokeTry_of_no_servant adapter identity operation os h hl
    rw [invoke_events_no_call adapter identity operation os (Or.inr h1), h2]
  · intro l sv cookie h hl hloc
    obtain ⟨h1, h2, h3, h4, h5⟩ :=
      invokeTry_of_located adapter identity operation os l sv cookie h hl hloc
    refine ⟨?_, ?_, ?_⟩
    · intro t ht
      obtain ⟨ha, hb⟩ := h4 t ht
      rw [invoke_events_handler adapter identity operation os t l sv ha h1 h2, hb]
      rfl
    · intro s hs hfin
      obtain ⟨ha, hb⟩ := h5 s hs
      rw [invoke_events_returned adapter identity operation os (ha.trans hfin), hb]
      rfl
    · intro s t hs hfin
      obtain ⟨ha, hb⟩ := h5 s hs
      rw [invoke_events_handler adapter identity operation os t l sv (ha.trans hfin) h1 h2, hb]
      rfl

/-- C22 (code defect, evaluated). The locator supplies the servant, its
`__dispatch` returns, and `locator->finished`, called at the end of the `try`
block, throws a LocalException: the handler that catches it calls
`locator->finished` again, so the invocation makes two calls of `finished`;
the second call throws as well, and `invoke` ends with that exception and
the output as `__dispatch` left it. -/
theorem locator_finished_called_twice :
    (invoke (locatorAdapter plainServant (fun _ => some (.localException .SocketException)))
      "foo" "op" [1, 2, 3]).events =
      [.locate "foo" "op", .dispatch 1 "op", .finished "foo" 1 "op" 3,
        .finished "foo" 1 "op" 3] ∧
    finishedCalls (invoke (locatorAdapter plainServant
      (fun _ => some (.localException .SocketException))) "foo" "op" [1, 2, 3]).events = 2 ∧
    (invoke (locatorAdapter plainServant (fun _ => some (.localException .SocketException)))
      "foo" "op" [1, 2, 3]).ending = .threw (.localException .SocketException) ∧
    (invoke (locatorAdapter plainServant (fun _ => some (.localException .SocketException)))
      "foo" "op" [1, 2, 3]).os = [1, 2, 3, 1, 7, 8] :=
  ⟨rfl, rfl, rfl, rfl⟩

/-- C23 (as stated, refuted). The direct lookup `identityToServant` stands
before the `try` block: a LocalException it throws leaves `invoke` with no
handler run, the output keeps its length (the status position) and no status
byte is written. -/
theorem lookup_exception_is_not_mapped :
    (invokeFromLookup (some (.localException .SocketException)) emptyAdapter "foo" "op"
      [1, 2, 3]).ending = .threw (.localException .SocketException) ∧
    (invokeFromLookup (some (.localException .SocketException)) emptyAdapter "foo" "op"
      [1, 2, 3]).os = [1, 2, 3] ∧
    (invokeFromLookup (some (.localException .SocketException)) emptyAdapter "foo" "op"
      [1, 2, 3]).os.length ≠ [1, 2, 3].length + 1 ∧
    (invokeFromLookup (some (.localException .SocketException)) emptyAdapter "foo" "op"
      [1, 2, 3]).os ≠ [1, 2, 3] ++ [DispatchStatus.DispatchLocalException.toByte] := by
  decide

/-- C23 (amended). Dispatch exception mapping: for every exception `x` the
`try` block of `invoke` ends with (raised by `locate`, by `__dispatch`, or by
`locator->finished` at the end of the block), when the call of
`locator->finished` in the handler, if the handler makes one, returns, the
output is cut back to the status position and then: for a LocationForward
the status byte LocationForward and the proxy are written and `invoke`
returns; for a LocalException exactly one status byte LocalException is
written (output length = status position + 1) and the same exception is
rethrown; for anything else exactly one status byte UnknownException is
written and UnknownException is thrown. An exception of the direct lookup,
which stands before the `try` block, leaves `invoke` with nothing written. -/
theorem dispatch_exception_mapping (adapter : ObjectAdapter) (identity operation : String)
    (os : List Byte) (x : Thrown)
    (hx : (invokeTry adapter identity operation os).thrown = some x)
    (hfin : ∀ l s, (invokeTry adapter identity operation os).locator = some l →
      (invokeTry adapter identity operation os).servant = some s →
      l.finished (finishedCalls (invokeTry adapter identity operation os).events) = none) :
    (∀ prx, x = .locationForward prx →
      (invoke adapter identity operation os).ending = .returned ∧
      (invoke adapter identity operation os).os =
        os ++ [DispatchStatus.DispatchLocationForward.toByte] ++ prx) ∧
    (∀ ex, x = .localException ex →
      (invoke adapter identity operation os).ending = .threw (.localException ex) ∧
      (invoke adapter identity operation os).os =
        os ++ [DispatchStatus.DispatchLocalException.toByte] ∧
      (invoke adapter identity operation os).os.length = os.length + 1) ∧
    (x = .other →
      (invoke adapter identity operation os).ending =
        .threw (.localException (.UnknownException "")) ∧
      (invoke adapter identity operation os).os =
        os ++ [DispatchStatus.DispatchUnknownException.toByte] ∧
      (invoke adapter identity operation os).os.length = os.length + 1) ∧
    (invokeFromLookup none adapter identity operation os = invoke adapter identity operation os) ∧
    (∀ t, invokeFromLookup (some t) adapter identity operation os = ⟨.threw t, os, []⟩) := by
  have h := invoke_of_thrown adapter identity operation os x hx hfin
  refine ⟨?_, ?_, ?_, rfl, fun _ => rfl⟩
  · intro prx hp
    subst hp
    dsimp only at h
    exact ⟨(Prod.mk.inj h).1, (Prod.mk.inj h).2⟩
  · intro ex hp
    subst hp
    dsimp only at h
    refine ⟨(Prod.mk.inj h).1, (Prod.mk.inj h).2, ?_⟩
    rw [(Prod.mk.inj h).2]
    simp
  · intro hp
    subst hp
    dsimp only at h
    refine ⟨(Prod.mk.inj h).1, (Prod.mk.inj h).2, ?_⟩
    rw [(Prod.mk.inj h).2]
    simp

theorem dispatch_exception_mapping_witness :
    (invokeTry (locatorAdapter forwardingServant (fun _ => none)) "foo" "op" [1, 2, 3]).thrown =
      some (.locationForward [5, 6]) ∧
    (invoke (locatorAdapter forwardingServant (fun _ => none)) "foo" "op" [1, 2, 3]).ending =
      .returned ∧
    (invoke (locatorAdapter forwardingServant (fun _ => none)) "foo" "op" [1, 2, 3]).os =
      [1, 2, 3] ++ [DispatchStatus.DispatchLocationForward.toByte] ++ [5, 6] :=
  ⟨rfl,
    (dispatch_exception_mapping (locatorAdapter forwardingServant (fun _ => none)) "foo" "op"
      [1, 2, 3] (.locationForward [5, 6]) rfl (fun _ _ h _ => by cases h; rfl)).1 [5, 6] rfl⟩

theorem mapFindPos_of_getElem (m : List (Int × Outgoing)) (r : Int)
    (hnd : (m.map Prod.fst).Nodup) :
    ∀ i, (m[i]?).map Prod.fst = some r → mapFindPos m r = some i := by
  induction m with
  | nil =>
    intro i h
    simp at h
  | cons p rest ih =>
    intro i h
    simp only [List.map_cons, List.nodup_cons] at hnd
    obtain ⟨k1, v1⟩ := p
    unfold mapFindPos
    cases i with
    | zero =>
      simp only [List.getElem?_cons_zero, Option.map_some', Option.some.injEq] at h
      rw [if_pos h]
    | succ j =>
      simp only [List.getElem?_cons_succ] at h
      have hmem : r ∈ rest.map Prod.fst := by
        cases hj : rest[j]? with
        | none => rw [hj] at h; simp at h
        | some q =>
          rw [hj] at h
          simp only [Option.map_some', Option.some.injEq] at h
          rw [← h]
          exact List.mem_map.mpr ⟨q, List.getElem?_mem hj, rfl⟩
      have hne : ¬ k1 = r := by
        intro heq
        apply hnd.1
        rw [heq]
        exact hmem
      rw [if_neg hne, ih hnd.2 j h]
      rfl

theorem mapFindPos_entry (m : List (Int × Outgoing)) (r : Int) :
    (mapFindPos m r).bind (fun i => m[i]?) = mapFind m r := by
  induction m with
  | nil => rfl
  | cons p rest ih =>
    obtain ⟨k1, v1⟩ := p
    unfold mapFindPos mapFind
    by_cases hk : k1 = r
    · rw [if_pos hk]
      simp [List.find?, hk]
    · rw [if_neg hk]
      have hb : ((k1, v1).1 == r) = false := by simpa using hk
      rw [List.find?, hb]
      unfold mapFind at ih
      rw [← ih]
      cases mapFindPos rest r with
      | none => rfl
      | some j => simp

theorem mapFindPos_none (m : List (Int × Outgoing)) (r : Int) :
    mapFindPos m r = none ↔ r ∉ m.map Prod.fst := by
  induction m with
  | nil => simp [mapFindPos]
  | cons p rest ih =>
    obtain ⟨k1, v1⟩ := p
    unfold mapFindPos
    by_cases hk : k1 = r
    · rw [if_pos hk]
      simp [hk]
    · rw [if_neg hk]
      simp only [Option.map_eq_none', List.map_cons, List.mem_cons, not_or]
      rw [ih]
      constructor
      · intro h
        exact ⟨fun h2 => hk h2.symm, h⟩
      · intro h
        exact h.2

/-- C29. The hint is only an optimisation: for every registry (a map, so its
keys are distinct), every hint that is the end position or the position of an
entry, and every reply id `r`, the lookup that checks the hint first and
falls back to `find` selects exactly the position `find` alone returns, so
the entry it selects is the entry a plain lookup returns, and it selects
none exactly when `r` is not a key of the registry. -/
theorem hint_is_only_an_optimisation (m : List (Int × Outgoing)) (requestsHint : Option Nat)
    (r : Int) (hnd : (m.map Prod.fst).Nodup)
    (hh : ∀ i, requestsHint = some i → i < m.length) :
    selectWithHint m requestsHint r = mapFindPos m r ∧
    (selectWithHint m requestsHint r).bind (fun i => m[i]?) = mapFind m r ∧
    (selectWithHint m requestsHint r = none ↔ r ∉ m.map Prod.fst) := by
  have h1 : selectWithHint m requestsHint r = mapFindPos m r := by
    unfold selectWithHint
    cases requestsHint with
    | none => rfl
    | some i =>
      dsimp only
      split
      · rename_i j hj
        split at hj
        · rename_i hkey
          cases hj
          exact (mapFindPos_of_getElem m r hnd i hkey).symm
        · cases hj
      · rfl
  rw [h1]
  exact ⟨rfl, mapFindPos_entry m r, mapFindPos_none m r⟩

theorem hint_is_only_an_optimisation_witness :
    selectWithHint threeRequests (some 1) 5 = some 1 ∧
    (selectWithHint threeRequests (some 1) 8).bind (fun i => threeRequests[i]?) =
      mapFind threeRequests 8 ∧
    mapFind threeRequests 8 = some (8, 80) :=
  ⟨by decide,
    (hint_is_only_an_optimisation threeRequests (some 1) 8 (by decide)
      (fun i h => by cases h; decide)).2.1,
    by decide⟩

theorem Transceiver.write_input (t : Transceiver) (buf : List Byte) :
    (t.write buf).2.input = t.input := by
  unfold Transceiver.write
  split <;> rfl

theorem sendRequestTry_blocking (c : Connection) (os : List Byte) (o : Outgoing)
    (completed : Bool) (hb : c.blocking = true) (ht : c.transceiver = true)
    (hw : c.tr.nextWriteCompletes = true) :
    sendRequestTry os (some o) completed c =
      awaitReply o (allocRequestId c.nextRequestId).1
        (patchInt (patchInt os headerSize (allocRequestId c.nextRequestId).1) 10
          (wrapInt32 ((patchInt os headerSize (allocRequestId c.nextRequestId).1).length : Int)))
        completed (blockingSent os c) := by
  have h1 := Transceiver.write_of_completes c.tr
    (patchInt (patchInt os headerSize (allocRequestId c.nextRequestId).1) 10
      (wrapInt32 ((patchInt os headerSize (allocRequestId c.nextRequestId).1).length : Int))) hw
  unfold sendRequestTry
  rw [if_neg (by simp [ht])]
  unfold prepareRequest
  dsimp only
  rw [if_neg (by simp [hb])]
  dsimp only
  split
  · rename_i ex t hq
    rw [hq] at h1
    simp at h1
  · rename_i t hq
    unfold blockingSent
    dsimp only
    rw [hq]

theorem sendRequest_blocking (c : Connection) (os : List Byte) (o : Outgoing)
    (completed : Bool) (hb : c.blocking = true) (ht : c.transceiver = true)
    (hw : c.tr.nextWriteCompletes = true) (he : c.exception = none)
    (hs : c.state ≠ .StateClosed) :
    (sendRequest os (some o) completed c).outcome = .returned ∧
    (sendRequest os (some o) completed c).c.finished =
      c.finished ++ [(o, blockingCompletion (allocRequestId c.nextRequestId).1
        (readStreamAndParseMessage (blockingSent os c) 0 0))] := by
  have htry := sendRequestTry_blocking c os o completed hb ht hw
  have hpc := readStreamAndParseMessage_c (blockingSent os c) 0 0
  generalize hp : readStreamAndParseMessage (blockingSent os c) 0 0 = p at hpc
  have hfields : p.c.finished = c.finished ∧ p.c.exception = none ∧ p.c.state = c.state := by
    rw [hpc]
    exact ⟨rfl, he, rfl⟩
  have hthrown : ∀ ex (t : SendTry), sendRequestTry os (some o) completed c = t →
      t.ending = .thrown ex → t.requestSent = true → t.c = p.c →
      (sendRequest os (some o) completed c).outcome = .returned ∧
      (sendRequest os (some o) completed c).c.finished = c.finished ++ [(o, .failed ex)] := by
    intro ex t ht1 ht2 ht3 ht4
    have hex : (setStateEx .StateClosed ex p.c).exception = some ex := by
      rw [setStateEx_closed_eq, setStateClosedEx_exception, if_neg (by rw [hfields.2.2]; exact hs),
        hfields.2.1]
      rfl
    have hfin : (setStateEx .StateClosed ex p.c).finished = c.finished := by
      rw [setStateEx_closed_eq, (setStateClosedEx_written ex p.c).2, hfields.1]
    unfold sendRequest
    dsimp only
    rw [ht1, ht2]
    dsimp only
    rw [ht4, hex]
    dsimp only
    rw [ht3, if_pos rfl]
    dsimp only
    exact ⟨rfl, by rw [hfin]⟩
  have hblk : (blockingSent os c).blocking = true := hb
  unfold blockingCompletion
  cases hr : p.raised with
  | some ex =>
    dsimp only
    apply hthrown ex _ htry
    · unfold awaitReply
      rw [if_pos hblk, hp]
      dsimp only
      rw [hr]
    · unfold awaitReply
      rw [if_pos hblk, hp]
      dsimp only
      rw [hr]
    · unfold awaitReply
      rw [if_pos hblk, hp]
      dsimp only
      rw [hr]
  | none =>
    dsimp only
    by_cases hi : p.invokeNum > 0
    · rw [if_pos hi]
      apply hthrown _ _ htry
      · unfold awaitReply
        rw [if_pos hblk, hp]
        dsimp only
        rw [hr]
        dsimp only
        rw [if_pos hi]
      · unfold awaitReply
        rw [if_pos hblk, hp]
        dsimp only
        rw [hr]
        dsimp only
        rw [if_pos hi]
      · unfold awaitReply
        rw [if_pos hblk, hp]
        dsimp only
        rw [hr]
        dsimp only
        rw [if_pos hi]
    · rw [if_neg hi]
      by_cases hid : (allocRequestId c.nextRequestId).1 ≠ p.requestId
      · rw [if_pos hid]
        apply hthrown _ _ htry
        · unfold awaitReply
          rw [if_pos hblk, hp]
          dsimp only
          rw [hr]
          dsimp only
          rw [if_neg hi, if_pos hid]
        · unfold awaitReply
          rw [if_pos hblk, hp]
          dsimp only
          rw [hr]
          dsimp only
          rw [if_neg hi, if_pos hid]
        · unfold awaitReply
          rw [if_pos hblk, hp]
          dsimp only
          rw [hr]
          dsimp only
          rw [if_neg hi, if_pos hid]
      · rw [if_neg hid]
        have hdone : sendRequestTry os (some o) completed c =
            ⟨.done, true, (allocRequestId c.nextRequestId).1, p.stream,
              { p.c with finished := p.c.finished ++ [(o, .reply p.stream)] }⟩ := by
          rw [htry]
          unfold awaitReply
          rw [if_pos hblk, hp]
          dsimp only
          rw [hr]
          dsimp only
          rw [if_neg hi, if_neg hid]
        unfold sendRequest
        dsimp only
        rw [hdone]
        dsimp only
        exact ⟨rfl, by rw [hfields.1]⟩

theorem allocRequestId_pos (n : Int) : 0 < (allocRequestId n).1 := by
  unfold allocRequestId
  dsimp only
  split
  · decide
  · rename_i h
    dsimp only
    omega

theorem blockingCompletion_parse (requestId : Int) (hid : 0 < requestId) (mt : Byte)
    (b : List Byte) (c : Connection) :
    blockingCompletion requestId (parseMessageType mt b 0 0 c) =
      if mt = closeConnectionMsg then .failed .CloseConnectionException
      else if mt = replyMsg then
        match readInt b headerSize with
        | .error ex => .failed ex
        | .ok v => if requestId ≠ v then .failed .UnknownRequestIdException else .reply b
      else if mt = requestMsg then
        match readInt b headerSize with
        | .error ex => .failed ex
        | .ok _ => .failed .UnknownMessageException
      else if mt = requestBatchMsg then
        match readInt b headerSize with
        | .error ex => .failed ex
        | .ok v =>
          if v < 0 then .failed .NegativeSizeException
          else if v > 0 then .failed .UnknownMessageException
          else .failed .UnknownRequestIdException
      else if mt = validateConnectionMsg then .failed .UnknownRequestIdException
      else .failed .UnknownMessageException := by
  have hne : requestId ≠ 0 := by omega
  unfold parseMessageType blockingCompletion
  by_cases h1 : mt = closeConnectionMsg
  · rw [if_pos h1, if_pos h1]
  · rw [if_neg h1, if_neg h1]
    by_cases h2 : mt = replyMsg
    · rw [if_pos h2, if_pos h2]
      cases readInt b headerSize with
      | error ex => rfl
      | ok v =>
        dsimp only
        rw [if_neg (by decide)]
    · rw [if_neg h2, if_neg h2]
      by_cases h3 : mt = requestMsg
      · rw [if_pos h3, if_pos h3]
        cases readInt b headerSize with
        | error ex => rfl
        | ok v =>
          dsimp only
          rw [if_pos (by decide)]
      · rw [if_neg h3, if_neg h3]
        by_cases h4 : mt = requestBatchMsg
        · rw [if_pos h4, if_pos h4]
          cases readInt b headerSize with
          | error ex => rfl
          | ok v =>
            dsimp only
            by_cases hv : v < 0
            · rw [if_pos hv, if_pos hv]
            · rw [if_neg hv, if_neg hv]
              dsimp only
              by_cases hv2 : v > 0
              · rw [if_pos hv2, if_pos hv2]
              · rw [if_neg hv2, if_neg hv2, if_pos hne]
        · rw [if_neg h4, if_neg h4]
          by_cases h5 : mt = validateConnectionMsg
          · rw [if_pos h5, if_pos h5]
            dsimp only
            rw [if_neg (by decide), if_pos hne]
          · rw [if_neg h5, if_neg h5]

/-- C28. Blocking-client `sendRequest`: for a connection in blocking mode
with its transport, no stored error and a write that completes, and for every
message (a frame `h ++ body` that passes header validation) read after the
request was written, the call returns and completes the outgoing exactly
once; it hands over the reply buffer if and only if the message is a reply
whose request id (bytes 14..17) equals the id just sent; a request or a batch
request with a positive count gives UnknownMessageException, a reply with
another id, a validate-connection message or an empty batch gives
UnknownRequestIdException, and in each such case the error is handed to
`out->finished` and not raised. -/
theorem blocking_send_request_matches_reply (c : Connection) (os : List Byte) (o : Outgoing)
    (completed : Bool) (h body rest : List Byte)
    (hb : c.blocking = true) (ht : c.transceiver = true)
    (hw : c.tr.nextWriteCompletes = true) (he : c.exception = none)
    (hs : c.state ≠ .StateClosed) (hl : h.length = 14)
    (hhe : headerError (sizeSigned h) (wrapInt32 (c.messageSizeMax : Int)) h = none)
    (hsz : sizeSigned h = ((14 + body.length : Nat) : Int))
    (hin : c.tr.input = h ++ body ++ rest) :
    (sendRequest os (some o) completed c).outcome = .returned ∧
    ∃ comp, (sendRequest os (some o) completed c).c.finished = c.finished ++ [(o, comp)] ∧
      ((∃ s, comp = .reply s) ↔
        (h.getD 8 0 = replyMsg ∧ readInt body 0 = .ok (allocRequestId c.nextRequestId).1)) ∧
      (h.getD 8 0 = replyMsg → readInt body 0 = .ok (allocRequestId c.nextRequestId).1 →
        comp = .reply (h ++ body)) ∧
      (h.getD 8 0 = replyMsg → ∀ v, readInt body 0 = .ok v →
        v ≠ (allocRequestId c.nextRequestId).1 → comp = .failed .UnknownRequestIdException) ∧
      (h.getD 8 0 = requestMsg → ∀ v, readInt body 0 = .ok v →
        comp = .failed .UnknownMessageException) ∧
      (h.getD 8 0 = requestBatchMsg → ∀ v, readInt body 0 = .ok v → 0 < v →
        comp = .failed .UnknownMessageException) ∧
      (h.getD 8 0 = requestBatchMsg → readInt body 0 = .ok 0 →
        comp = .failed .UnknownRequestIdException) ∧
      (h.getD 8 0 = validateConnectionMsg → comp = .failed .UnknownRequestIdException) := by
  obtain ⟨h1, h2⟩ := sendRequest_blocking c os o completed hb ht hw he hs
  have hin2 : (blockingSent os c).tr.input = h ++ body ++ rest := by
    unfold blockingSent
    dsimp only
    rw [Transceiver.write_input, hin]
  have hp := readStreamAndParseMessage_ok (blockingSent os c) h body rest 0 0 hl hhe hsz hin2
  have hc := blockingCompletion_parse (allocRequestId c.nextRequestId).1
    (allocRequestId_pos c.nextRequestId) (h.getD 8 0) (h ++ body)
    { blockingSent os c with tr := { (blockingSent os c).tr with input := rest } }
  rw [readInt_after_header h body hl] at hc
  rw [hp, hc] at h2
  refine ⟨h1, _, h2, ?_⟩
  generalize h.getD 8 0 = mt
  generalize (allocRequestId c.nextRequestId).1 = rid
  refine ⟨?_, ?_, ?_, ?_, ?_, ?_, ?_⟩
  · constructor
    · rintro ⟨s, hcomp⟩
      by_cases m1 : mt = closeConnectionMsg
      · rw [if_pos m1] at hcomp; cases hcomp
      · rw [if_neg m1] at hcomp
        by_cases m2 : mt = replyMsg
        · rw [if_pos m2] at hcomp
          refine ⟨m2, ?_⟩
          cases hR : readInt body 0 with
          | error ex => rw [hR] at hcomp; cases hcomp
          | ok v =>
            rw [hR] at hcomp
            dsimp only at hcomp
            by_cases hv : rid ≠ v
            · rw [if_pos hv] at hcomp; cases hcomp
            · rw [not_not.mp hv]
        · rw [if_neg m2] at hcomp
          by_cases m3 : mt = requestMsg
          · rw [if_pos m3] at hcomp
            cases hR : readInt body 0 with
            | error ex => rw [hR] at hcomp; cases hcomp
            | ok v => rw [hR] at hcomp; cases hcomp
          · rw [if_neg m3] at hcomp
            by_cases m4 : mt = requestBatchMsg
            · rw [if_pos m4] at hcomp
              cases hR : readInt body 0 with
              | error ex => rw [hR] at hcomp; cases hcomp
              | ok v =>
                rw [hR] at hcomp
                dsimp only at hcomp
                split at hcomp
                · cases hcomp
                · split at hcomp <;> cases hcomp
            · rw [if_neg m4] at hcomp
              split at hcomp <;> cases hcomp
    · rintro ⟨m, hR⟩
      subst m
      rw [if_neg (by decide), if_pos rfl, hR]
      dsimp only
      rw [if_neg (by simp)]
      exact ⟨_, rfl⟩
  · intro m hR
    subst m
    rw [if_neg (by decide), if_pos rfl, hR]
    dsimp only
    rw [if_neg (by simp)]
  · intro m v hR hv
    subst m
    rw [if_neg (by decide), if_pos rfl, hR]
    dsimp only
    rw [if_pos (fun h => hv h.symm)]
  · intro m v hR
    subst m
    rw [if_neg (by decide), if_neg (by decide), if_pos rfl, hR]
  · intro m v hR hv
    subst m
    rw [if_neg (by decide), if_neg (by decide), if_neg (by decide), if_pos rfl, hR]
    dsimp only
    rw [if_neg (by omega), if_pos hv]
  · intro m hR
    subst m
    rw [if_neg (by decide), if_neg (by decide), if_neg (by decide), if_pos rfl, hR]
    dsimp only
    rw [if_neg (by decide), if_neg (by decide)]
  · intro m
    subst m
    rw [if_neg (by decide), if_neg (by decide), if_neg (by decide), if_neg (by decide),
      if_pos rfl]

theorem blocking_send_request_matches_reply_witness :
    (sendRequest requestHdr (some 7) false blockingReplied).outcome = .returned ∧
    ∃ comp, (sendRequest requestHdr (some 7) false blockingReplied).c.finished =
        blockingReplied.finished ++ [(7, comp)] ∧
      comp = .reply [0x49, 0x63, 0x65, 0x50, 1, 0, 1, 0, 2, 0, 20, 0, 0, 0, 1, 0, 0, 0, 0, 9] := by
  obtain ⟨h1, comp, h2, h3⟩ := blocking_send_request_matches_reply blockingReplied requestHdr 7
    false [0x49, 0x63, 0x65, 0x50, 1, 0, 1, 0, 2, 0, 20, 0, 0, 0] [1, 0, 0, 0, 0, 9] []
    (by decide) (by decide) (by decide) (by decide) (by decide) (by decide) (by decide)
    (by decide) (by decide)
  exact ⟨h1, comp, h2, h3.2.1 (by decide) rfl⟩

theorem setStateClosedEx_batch (ex : LocalException) (c : Connection) :
    (setStateClosedEx ex c).batchStream = c.batchStream ∧
    (setStateClosedEx ex c).batchRequestNum = c.batchRequestNum ∧
    (setStateClosedEx ex c).batchStreamInUse = c.batchStreamInUse := by
  unfold setStateClosedEx setStateClosed
  dsimp only
  repeat' split
  all_goals exact ⟨rfl, rfl, rfl⟩

theorem flushBatchTry_batchRequestNum (c : Connection) :
    (flushBatchTry c).2.batchRequestNum = c.batchRequestNum := by
  unfold flushBatchTry
  dsimp only
  repeat' split
  all_goals rfl

/-- A flush that does not write the batch (it blocks, raises, or finds the
batch stream empty) leaves the batch count as it is; a flush that returns
having found a batch resets it. -/
theorem flushBatchRequests_batchRequestNum (c : Connection) :
    ((flushBatchRequests c).1 = .returned ∧ c.batchStream ≠ [] ∧
      (flushBatchRequests c).2.batchRequestNum = 0) ∨
    (¬ ((flushBatchRequests c).1 = .returned ∧ c.batchStream ≠ []) ∧
      (flushBatchRequests c).2.batchRequestNum = c.batchRequestNum) := by
  unfold flushBatchRequests
  split
  · exact Or.inr ⟨by simp, rfl⟩
  · split
    · exact Or.inr ⟨by simp, rfl⟩
    · split
      · rename_i hemp
        have : c.batchStream = [] := by simpa using hemp
        exact Or.inr ⟨by simp [this], rfl⟩
      · rename_i hemp
        have hne : c.batchStream ≠ [] := by simpa using hemp
        have hn := flushBatchTry_batchRequestNum { c with batchStreamInUse := true }
        dsimp only
        split
        · rename_i ex c2 hq
          rw [hq] at hn
          dsimp only at hn
          have hk := (setStateClosedEx_batch ex c2).2.1
          rw [← setStateEx_closed_eq] at hk
          split
          · exact Or.inr ⟨by simp, hk.trans hn⟩
          · exact Or.inr ⟨by simp, hk.trans hn⟩
        · exact Or.inl ⟨rfl, hne, rfl⟩
        · rename_i c2 hq
          rw [hq] at hn
          exact Or.inr ⟨by simp, hn⟩
        · rename_i c2 hq
          rw [hq] at hn
          exact Or.inr ⟨by simp, hn⟩

theorem prepareBatchRequest_batchRequestNum (os : List Byte) (c : Connection) :
    (prepareBatchRequest os c).2.2.batchRequestNum = c.batchRequestNum := by
  unfold prepareBatchRequest
  repeat' split
  all_goals rfl

theorem wrapInt32_succ (n : Nat) (h : n + 1 ≤ 2147483647) :
    wrapInt32 ((n : Int) + 1) = ((n + 1 : Nat) : Int) := by
  unfold wrapInt32
  omega

theorem countFinish_cons (op : BatchOp) (ops : List BatchOp) :
    countFinish (op :: ops) = countFinish ops + (if op = .finish then 1 else 0) := by
  unfold countFinish
  rw [List.countP_cons]
  simp

/-- The batch count `_batchRequestNum` is the number of `finishBatchRequest`
calls since the batch stream was last reset, along every sequence of batch
calls with fewer than 2^31 finishes. -/
theorem batchRequestNum_counts_finishes (ops : List BatchOp) :
    ∀ r : BatchRun, r.c.batchRequestNum = (r.finishes : Int) →
      r.finishes + countFinish ops ≤ 2147483647 →
      (runBatchOps ops r).c.batchRequestNum = ((runBatchOps ops r).finishes : Int) := by
  induction ops with
  | nil =>
    intro r h _
    exact h
  | cons op ops ih =>
    intro r h hb
    rw [countFinish_cons] at hb
    unfold runBatchOps
    cases op with
    | prepare =>
      apply ih
      · unfold BatchOp.apply
        dsimp only
        rw [prepareBatchRequest_batchRequestNum]
        exact h
      · simp at hb
        exact hb
    | marshal bytes =>
      apply ih
      · exact h
      · simp at hb
        exact hb
    | finish =>
      apply ih
      · unfold BatchOp.apply finishBatchRequest
        dsimp only
        rw [h]
        exact wrapInt32_succ r.finishes (by simp at hb; omega)
      · unfold BatchOp.apply
        dsimp only
        simp at hb
        omega
    | abort =>
      apply ih
      · rfl
      · unfold BatchOp.apply
        dsimp only
        simp at hb
        omega
    | flush =>
      apply ih
      · unfold BatchOp.apply
        dsimp only
        rcases flushBatchRequests_batchRequestNum r.c with ⟨f1, f2, f3⟩ | ⟨f1, f2⟩
        · rw [if_pos ⟨f1, f2⟩, f3]
          rfl
        · rw [if_neg f1, f2]
          exact h
      · unfold BatchOp.apply
        dsimp only
        simp at hb
        split <;> omega

theorem flushBatchRequests_of_empty (c : Connection) (h : c.batchStream = []) :
    (flushBatchRequests c).2 = c := by
  unfold flushBatchRequests
  split
  · rfl
  · split
    · rfl
    · rw [if_pos (by simp [h])]

/-- C24. For every batch buffer of length n that holds its header (18
bytes or more), reached by a sequence of batch calls, `flushBatchRequests`
writes to the transport the buffer with bytes 14..17 replaced by the
little-endian batch count and bytes 10..13 by the little-endian encoding of
n, every other byte unchanged, where the batch count is the number of
`finishBatchRequest` calls since the buffer was last reset; after the flush
the buffer is empty, the count is 0 and the in-use flag is clear; a flush on
an empty buffer writes nothing and changes nothing. -/
theorem flush_batch_writes_patched_buffer (ops : List BatchOp) (r : BatchRun)
    (h0 : r.c.batchRequestNum = (r.finishes : Int))
    (hb : r.finishes + countFinish ops ≤ 2147483647) :
    (runBatchOps ops r).c.batchRequestNum = ((runBatchOps ops r).finishes : Int) ∧
    ((runBatchOps ops r).c.transceiver = true →
      (runBatchOps ops r).c.tr.nextWriteCompletes = true →
      (runBatchOps ops r).c.exception = none →
      (runBatchOps ops r).c.batchStreamInUse = false →
      18 ≤ (runBatchOps ops r).c.batchStream.length →
      (flushBatchRequests (runBatchOps ops r).c).1 = .returned ∧
      (flushBatchRequests (runBatchOps ops r).c).2.tr.written =
        (runBatchOps ops r).c.tr.written ++
          [(runBatchOps ops r).c.batchStream.take 10 ++
            le32 (runBatchOps ops r).c.batchStream.length ++
            le32 (runBatchOps ops r).finishes ++
            (runBatchOps ops r).c.batchStream.drop 18] ∧
      (flushBatchRequests (runBatchOps ops r).c).2.batchStream = [] ∧
      (flushBatchRequests (runBatchOps ops r).c).2.batchRequestNum = 0 ∧
      (flushBatchRequests (runBatchOps ops r).c).2.batchStreamInUse = false) ∧
    ((runBatchOps ops r).c.batchStream = [] →
      (flushBatchRequests (runBatchOps ops r).c).2 = (runBatchOps ops r).c) := by
  have hcount := batchRequestNum_counts_finishes ops r h0 hb
  refine ⟨hcount, ?_, flushBatchRequests_of_empty _⟩
  generalize runBatchOps ops r = q at hcount ⊢
  intro ht hw he hu hlen
  have hne : q.c.batchStream ≠ [] := by
    intro h
    rw [h] at hlen
    simp at hlen
  obtain ⟨f1, f2, f3, f4, f5⟩ := flushBatchRequests_frame q.c ht hw he hu hne
  refine ⟨f1, ?_, f3, f4, f5⟩
  rw [f2, hcount, patchInt_id_size q.c.batchStream (q.finishes : Int) (by omega) hlen]
  simp

theorem flush_batch_writes_patched_buffer_witness :
    (flushBatchRequests
      (runBatchOps (batchCalls [[1, 2], [3]]) ⟨[], activeClient, 0⟩).c).2.tr.written =
      [[0x49, 0x63, 0x65, 0x50, 1, 0, 1, 0, 1, 0] ++ [21, 0, 0, 0] ++ [2, 0, 0, 0] ++
        [1, 2, 3]] :=
  ((flush_batch_writes_patched_buffer (batchCalls [[1, 2], [3]]) ⟨[], activeClient, 0⟩
    (by decide) (by decide)).2.1 (by decide) (by decide) (by decide) (by decide)
    (by decide)).2.1

/-- One batched request on a connection with no stored error and the batch
stream free: the three calls leave the caller with the empty stream it came
with and the connection with the payload appended to the batch (after the
batch header, when the batch was empty), the count moved on and nothing else
changed. -/
theorem batch_one_request (p : List Byte) (c : Connection) (n : Nat)
    (he : c.exception = none) (hu : c.batchStreamInUse = false) :
    runBatchOps [.prepare, .marshal p, .finish] ⟨[], c, n⟩ =
      ⟨[], { c with batchStream := batchWith c.batchStream p, batchRequestNum := wrapInt32 (c.batchRequestNum + 1) }, n + 1⟩ := by
  have hp : prepareBatchRequest [] c =
      (.returned, if c.batchStream.isEmpty then c.batchStream ++ requestBatchHdr
        else c.batchStream, { c with batchStreamInUse := true, batchStream := [] }) := by
    unfold prepareBatchRequest
    rw [if_neg (by simp [hu]), he]
  simp only [runBatchOps, BatchOp.apply]
  rw [hp]
  unfold finishBatchRequest batchWith
  dsimp only
  rw [hu]

theorem batchCalls_run (ps : List (List Byte)) :
    ∀ (c : Connection) (n : Nat), c.exception = none → c.batchStreamInUse = false →
      (runBatchOps (batchCalls ps) ⟨[], c, n⟩).os = [] ∧
      (runBatchOps (batchCalls ps) ⟨[], c, n⟩).finishes = n + ps.length ∧
      (runBatchOps (batchCalls ps) ⟨[], c, n⟩).c =
        { c with
          batchStream := ps.foldl batchWith c.batchStream,
          batchRequestNum := (runBatchOps (batchCalls ps) ⟨[], c, n⟩).c.batchRequestNum } := by
  induction ps with
  | nil =>
    intro c n _ _
    exact ⟨rfl, rfl, rfl⟩
  | cons p ps ih =>
    intro c n he hu
    have h1 := batch_one_request p c n he hu
    have hrun : runBatchOps (batchCalls (p :: ps)) ⟨[], c, n⟩ =
        runBatchOps (batchCalls ps) (runBatchOps [.prepare, .marshal p, .finish] ⟨[], c, n⟩) := by
      rfl
    rw [hrun, h1]
    obtain ⟨i1, i2, i3⟩ := ih { c with batchStream := batchWith c.batchStream p, batchRequestNum := wrapInt32 (c.batchRequestNum + 1) } (n + 1) he hu
    refine ⟨i1, ?_, ?_⟩
    · rw [i2, List.length_cons]
      omega
    · rw [i3]
      rfl

theorem batch_fold_content (ps : List (List Byte)) :
    ∀ b : List Byte, b ≠ [] →
      ps.foldl batchWith b = b ++ ps.flatten := by
  induction ps with
  | nil =>
    intro b _
    simp
  | cons p ps ih =>
    intro b hb
    have hne : b.isEmpty = false := by
      cases b with
      | nil => exact absurd rfl hb
      | cons x xs => rfl
    have hw : batchWith b p = b ++ p := by
      unfold batchWith
      rw [hne]
      rfl
    rw [List.foldl_cons, hw, ih (b ++ p) (by simp [hb])]
    simp

theorem countFinish_batchCalls (ps : List (List Byte)) :
    countFinish (batchCalls ps) = ps.length := by
  induction ps with
  | nil => rfl
  | cons p ps ih =>
    unfold batchCalls
    rw [countFinish_cons, countFinish_cons, countFinish_cons, ih]
    simp

/-- C25 (as stated, refuted). Three requests are batched on an active
connection, then `close(true)`, then `flushBatchRequests`: the flush raises
ForcedCloseConnectionException and writes nothing, but the batch buffer is
not reset: it still holds the header and the three requests, and the batch
count is still 3. -/
theorem forced_close_leaves_batch_buffer :
    (flushBatchRequests (close true
      (runBatchOps (batchCalls [[1], [2], [3]]) ⟨[], activeClient, 0⟩).c).2).1 =
      .raised .ForcedCloseConnectionException ∧
    (flushBatchRequests (close true
      (runBatchOps (batchCalls [[1], [2], [3]]) ⟨[], activeClient, 0⟩).c).2).2.tr.written = [] ∧
    (flushBatchRequests (close true
      (runBatchOps (batchCalls [[1], [2], [3]]) ⟨[], activeClient, 0⟩).c).2).2.batchStream =
      requestBatchHdr ++ [1, 2, 3] ∧
    (flushBatchRequests (close true
      (runBatchOps (batchCalls [[1], [2], [3]]) ⟨[], activeClient, 0⟩).c).2).2.batchStream ≠ [] ∧
    (flushBatchRequests (close true
      (runBatchOps (batchCalls [[1], [2], [3]]) ⟨[], activeClient, 0⟩).c).2).2.batchRequestNum =
      3 := by
  decide

/-- C25 (amended). Forced close mid-batch: for every k >= 1 requests batched
(`prepareBatchRequest`, marshalling, `finishBatchRequest`, k times) on a
connection with no stored error and an empty batch, if `close(true)` is
called before the flush, then `flushBatchRequests` raises
ForcedCloseConnectionException, writes nothing and changes nothing: the batch
buffer keeps the header and the k requests and the batch count stays k. -/
theorem forced_close_mid_batch (ps : List (List Byte)) (c : Connection)
    (hk : ps ≠ []) (hlen : ps.length ≤ 2147483647) (he : c.exception = none)
    (hs : c.state ≠ .StateClosed) (hu : c.batchStreamInUse = false)
    (hb : c.batchStream = []) (hn : c.batchRequestNum = 0) :
    (flushBatchRequests (close true (runBatchOps (batchCalls ps) ⟨[], c, 0⟩).c).2).1 =
      .raised .ForcedCloseConnectionException ∧
    (flushBatchRequests (close true (runBatchOps (batchCalls ps) ⟨[], c, 0⟩).c).2).2 =
      (close true (runBatchOps (batchCalls ps) ⟨[], c, 0⟩).c).2 ∧
    (close true (runBatchOps (batchCalls ps) ⟨[], c, 0⟩).c).2.tr.written = c.tr.written ∧
    (close true (runBatchOps (batchCalls ps) ⟨[], c, 0⟩).c).2.batchStream =
      requestBatchHdr ++ ps.flatten ∧
    (close true (runBatchOps (batchCalls ps) ⟨[], c, 0⟩).c).2.batchRequestNum =
      (ps.length : Int) := by
  obtain ⟨_, r2, r3⟩ := batchCalls_run ps c 0 he hu
  have hcnt := batchRequestNum_counts_finishes (batchCalls ps) ⟨[], c, 0⟩ hn
    (by
      show 0 + countFinish (batchCalls ps) ≤ 2147483647
      rw [countFinish_batchCalls]
      omega)
  rw [r2] at hcnt
  generalize (runBatchOps (batchCalls ps) ⟨[], c, 0⟩).c = a at r3 hcnt
  have hcontent : a.batchStream = requestBatchHdr ++ ps.flatten := by
    rw [r3]
    dsimp only
    rw [hb]
    cases ps with
    | nil => exact absurd rfl hk
    | cons p rest =>
      rw [List.foldl_cons]
      have hw : batchWith [] p = requestBatchHdr ++ p := rfl
      rw [hw, batch_fold_content rest (requestBatchHdr ++ p) (by simp [requestBatchHdr, magic])]
      simp
  have hae : a.exception = none := by rw [r3]; exact he
  have has : a.state ≠ .StateClosed := by rw [r3]; exact hs
  have hau : a.batchStreamInUse = false := by rw [r3]; exact hu
  have hclose : close true a = (.returned, setStateClosedEx .ForcedCloseConnectionException a) := by
    unfold close
    rw [if_pos rfl, setStateEx_closed_eq]
  have hex : (setStateClosedEx .ForcedCloseConnectionException a).exception =
      some .ForcedCloseConnectionException := by
    rw [setStateClosedEx_exception, if_neg has, hae]
    rfl
  obtain ⟨b1, b2, b3⟩ := setStateClosedEx_batch .ForcedCloseConnectionException a
  rw [hclose]
  dsimp only
  have hflush : flushBatchRequests (setStateClosedEx .ForcedCloseConnectionException a) =
      (.raised .ForcedCloseConnectionException,
        setStateClosedEx .ForcedCloseConnectionException a) := by
    unfold flushBatchRequests
    rw [if_neg (by rw [b3, hau]; simp), hex]
  rw [hflush]
  refine ⟨rfl, rfl, ?_, ?_, ?_⟩
  · rw [(setStateClosedEx_written _ a).1, r3]
  · rw [b1, hcontent]
  · rw [b2, hcnt]
    simp

theorem forced_close_mid_batch_witness :
    (flushBatchRequests (close true
      (runBatchOps (batchCalls [[1], [2], [3]]) ⟨[], activeClient, 0⟩).c).2).1 =
      .raised .ForcedCloseConnectionException ∧
    (close true (runBatchOps (batchCalls [[1], [2], [3]]) ⟨[], activeClient, 0⟩).c).2.batchStream =
      requestBatchHdr ++ [[1], [2], [3]].flatten :=
  ⟨(forced_close_mid_batch [[1], [2], [3]] activeClient (by decide) (by decide) (by decide)
      (by decide) (by decide) (by decide) (by decide)).1,
    (forced_close_mid_batch [[1], [2], [3]] activeClient (by decide) (by decide) (by decide)
      (by decide) (by decide) (by decide) (by decide)).2.2.2.1⟩

theorem Transceiver.write_completes_eq (t : Transceiver) (buf : List Byte)
    (h : t.nextWriteCompletes = true) :
    (t.write buf).1 = none ∧ (t.write buf).2.written = t.written ++ [buf] ∧
    (t.write buf).2.shutdownCalls = t.shutdownCalls ∧
    (t.write buf).2.closeCalls = t.closeCalls ∧ (t.write buf).2.input = t.input := by
  unfold Transceiver.nextWriteCompletes at h
  unfold Transceiver.write
  split
  · exact ⟨rfl, rfl, rfl, rfl, rfl⟩
  · exact ⟨rfl, rfl, rfl, rfl, rfl⟩
  · rename_i e rest hq
    rw [hq] at h
    simp at h

theorem initiateShutdown_completes (c : Connection) (hw : c.tr.nextWriteCompletes = true) :
    (initiateShutdown c).1 = none ∧
    (initiateShutdown c).2.tr.written = c.tr.written ++ [closeConnectionFrame] ∧
    (initiateShutdown c).2.tr.shutdownCalls = c.tr.shutdownCalls := by
  obtain ⟨h1, h2, h3, _, _⟩ := Transceiver.write_completes_eq c.tr closeConnectionFrame hw
  exact ⟨h1, h2, h3⟩

theorem initiateShutdown_no_half_close (c : Connection) :
    (initiateShutdown c).2.tr.shutdownCalls = c.tr.shutdownCalls := by
  unfold initiateShutdown Transceiver.write
  dsimp only
  split <;> rfl

theorem setStateCommit_closing_idle (c : Connection) (hd : c.dispatchCount = 0)
    (hw : c.tr.nextWriteCompletes = true) :
    (setStateCommit .StateClosing c).tr.written = c.tr.written ++ [closeConnectionFrame] ∧
    (c.blocking = false →
      (setStateCommit .StateClosing c).state = .StateClosing ∧
      (setStateCommit .StateClosing c).tr.shutdownCalls = c.tr.shutdownCalls) ∧
    (c.blocking = true → (setStateCommit .StateClosing c).state = .StateClosed) := by
  obtain ⟨h1, h2, h3⟩ := initiateShutdown_completes { c with state := .StateClosing } hw
  unfold setStateCommit
  dsimp only
  rw [if_pos ⟨rfl, hd⟩]
  split
  · rename_i c2 hq
    rw [hq] at h2 h3
    dsimp only at h2 h3
    have hb2 : c2.blocking = c.blocking := by
      have : (initiateShutdown { c with state := .StateClosing }).2.blocking = c.blocking := rfl
      rw [hq] at this
      exact this
    have hs2 : c2.state = .StateClosing := by
      have : (initiateShutdown { c with state := .StateClosing }).2.state = .StateClosing := rfl
      rw [hq] at this
      exact this
    refine ⟨?_, ?_, ?_⟩
    · split
      · rw [(setStateClosed_written c2).1]
        exact h2
      · exact h2
    · intro hb
      rw [hb2, hb]
      exact ⟨hs2, h3⟩
    · intro hb
      rw [hb2, hb]
      exact setStateClosed_state c2
  · rename_i ex c2 hq
    rw [hq] at h1
    cases h1

theorem setStateCommit_closing_busy (c : Connection) (hd : c.dispatchCount ≠ 0) :
    setStateCommit .StateClosing c = { c with state := .StateClosing } := by
  unfold setStateCommit
  dsimp only
  rw [if_neg (fun h => hd h.2)]

theorem setState_closing_eq (c : Connection) (h1 : c.state ≠ .StateClosing)
    (h2 : c.state ≠ .StateClosed) :
    setState .StateClosing c = setStateCommit .StateClosing c := by
  unfold setState
  rw [if_neg h1]
  dsimp only
  rw [if_neg h2]

theorem sendNoResponse_closing_last (c : Connection) (hs : c.state = .StateClosing)
    (hd : c.dispatchCount = 1) (hw : c.tr.nextWriteCompletes = true) :
    (sendNoResponse c).tr.written = c.tr.written ++ [closeConnectionFrame] ∧
    (sendNoResponse c).dispatchCount = 0 := by
  obtain ⟨h1, h2, _⟩ := initiateShutdown_completes { c with dispatchCount := c.dispatchCount - 1 } hw
  unfold sendNoResponse
  dsimp only
  rw [if_pos ⟨hs, by rw [hd]; rfl⟩]
  split
  · rename_i c2 hq
    rw [hq] at h2
    have hdc : (initiateShutdown { c with dispatchCount := c.dispatchCount - 1 }).2.dispatchCount
        = c.dispatchCount - 1 := rfl
    rw [hq] at hdc
    dsimp only at hdc
    exact ⟨h2, by rw [hdc, hd]; rfl⟩
  · rename_i ex c2 hq
    rw [hq] at h1
    cases h1

theorem sendNoResponse_closing_more (c : Connection) (hd : c.dispatchCount ≠ 1) :
    sendNoResponse c = { c with dispatchCount := c.dispatchCount - 1 } := by
  unfold sendNoResponse
  dsimp only
  rw [if_neg (fun h => hd (by omega))]

theorem sendResponseWrite_dispatchCount (os : List Byte) (c : Connection) :
    (sendResponseWrite os c).2.dispatchCount = c.dispatchCount := by
  unfold sendResponseWrite
  split
  · split
    · rfl
    · exact (keeps_setStateEx _ _ c).2.2.2.1
  · dsimp only
    split
    · exact (keeps_setStateEx _ _ _).2.2.2.1
    · rfl

/-- The first block of `sendResponse` when the write completes: the reply,
with its size patched in, is written and nothing else changes. -/
theorem sendResponseWrite_completes (os : List Byte) (c : Connection)
    (ht : c.transceiver = true) (hw : c.tr.nextWriteCompletes = true) :
    sendResponseWrite os c = (.returned, { c with tr :=
      (c.tr.write (patchInt os 10 (wrapInt32 (os.length : Int)))).2 }) := by
  have h1 := Transceiver.write_of_completes c.tr (patchInt os 10 (wrapInt32 (os.length : Int))) hw
  unfold sendResponseWrite
  rw [if_neg (by simp [ht])]
  dsimp only
  split
  · rename_i ex t hq
    rw [hq] at h1
    simp at h1
  · rename_i t hq
    rw [hq]

/-- The second block of `sendResponse` writes nothing unless it brings the
dispatch count from 1 to 0: the transport is as the first block left it. -/
theorem sendResponse_more (os : List Byte) (c : Connection) (hd : c.dispatchCount ≠ 1) :
    (sendResponse os c).2.tr = (sendResponseWrite os c).2.tr := by
  have hc := sendResponseWrite_dispatchCount os c
  unfold sendResponse
  generalize sendResponseWrite os c = r at hc ⊢
  obtain ⟨o, c1⟩ := r
  cases o with
  | returned =>
    dsimp only at hc ⊢
    rw [sendNoResponse_closing_more c1 (by rw [hc]; exact hd)]
  | raised e => rfl
  | assertFailed => rfl
  | blocked => rfl
  | invalidIterator => rfl

/-- C26. On every transition into Closing (`setState(StateClosing)`, from
`setState(StateClosing, ex)` as well) with `_dispatchCount == 0`, once the
write completes, the connection has written exactly one close-connection
frame, the 14 header bytes I,c,e,P,1,0,1,0,4,0,14,0,0,0, and
`initiateShutdown` does not shut the transport down; in blocking mode the
connection then moves on to Closed, otherwise it is Closing. With
`_dispatchCount` not 0 on entering Closing nothing is written; then
`sendNoResponse` writes the frame exactly when it brings the count to 0, and
so does `sendResponse`: with the count at 1 it writes its reply and then the
close-connection frame, with any other count its second block writes nothing
(a reply whose write completes is the only buffer written). -/
theorem closing_sends_close_connection_frame (c : Connection) :
    closeConnectionFrame = [0x49, 0x63, 0x65, 0x50, 1, 0, 1, 0, 4, 0, 14, 0, 0, 0] ∧
    (initiateShutdown c).2.tr.shutdownCalls = c.tr.shutdownCalls ∧
    (c.state ≠ .StateClosing → c.state ≠ .StateClosed → c.dispatchCount = 0 →
      c.tr.nextWriteCompletes = true →
      (setState .StateClosing c).tr.written = c.tr.written ++ [closeConnectionFrame] ∧
      (∀ ex, (setStateEx .StateClosing ex c).tr.written =
        c.tr.written ++ [closeConnectionFrame]) ∧
      (c.blocking = false →
        (setState .StateClosing c).state = .StateClosing ∧
        (setState .StateClosing c).tr.shutdownCalls = c.tr.shutdownCalls) ∧
      (c.blocking = true → (setState .StateClosing c).state = .StateClosed)) ∧
    (c.state ≠ .StateClosing → c.state ≠ .StateClosed → c.dispatchCount ≠ 0 →
      (setState .StateClosing c).tr = c.tr ∧
      (setState .StateClosing c).state = .StateClosing ∧
      (∀ ex, (setStateEx .StateClosing ex c).tr = c.tr)) ∧
    (c.state = .StateClosing → c.dispatchCount ≠ 1 → (sendNoResponse c).tr = c.tr) ∧
    (c.state = .StateClosing → c.dispatchCount = 1 → c.tr.nextWriteCompletes = true →
      (sendNoResponse c).tr.written = c.tr.written ++ [closeConnectionFrame]) ∧
    (∀ os, c.state = .StateClosing → c.dispatchCount ≠ 1 →
      (sendResponse os c).2.tr = (sendResponseWrite os c).2.tr ∧
      (c.transceiver = true → c.tr.nextWriteCompletes = true →
        (sendResponse os c).2.tr.written =
          c.tr.written ++ [patchInt os 10 (wrapInt32 (os.length : Int))])) ∧
    (∀ os, c.state = .StateClosing → c.dispatchCount = 1 → c.transceiver = true →
      c.tr.nextWriteCompletes = true →
      (c.tr.write (patchInt os 10 (wrapInt32 (os.length : Int)))).2.nextWriteCompletes = true →
      (sendResponse os c).2.tr.written =
        c.tr.written ++ [patchInt os 10 (wrapInt32 (os.length : Int)), closeConnectionFrame] ∧
      (sendResponse os c).2.dispatchCount = 0) := by
  refine ⟨by decide, initiateShutdown_no_half_close c, ?_, ?_, ?_, ?_, ?_, ?_⟩
  · intro h1 h2 hd hw
    rw [setState_closing_eq c h1 h2]
    obtain ⟨a1, a2, a3⟩ := setStateCommit_closing_idle c hd hw
    refine ⟨a1, ?_, a2, a3⟩
    intro ex
    unfold setStateEx
    rw [if_neg h1]
    dsimp only
    split
    · rw [setState_closing_eq { c with exception := some ex } h1 h2]
      exact (setStateCommit_closing_idle { c with exception := some ex } hd hw).1
    · rw [setState_closing_eq c h1 h2]
      exact a1
  · intro h1 h2 hd
    rw [setState_closing_eq c h1 h2, setStateCommit_closing_busy c hd]
    refine ⟨rfl, rfl, ?_⟩
    intro ex
    unfold setStateEx
    rw [if_neg h1]
    dsimp only
    split
    · rw [setState_closing_eq { c with exception := some ex } h1 h2,
        setStateCommit_closing_busy { c with exception := some ex } hd]
    · rw [setState_closing_eq c h1 h2, setStateCommit_closing_busy c hd]
  · intro _ hd
    rw [sendNoResponse_closing_more c hd]
  · intro hs hd hw
    exact (sendNoResponse_closing_last c hs hd hw).1
  · intro os _ hd
    refine ⟨sendResponse_more os c hd, ?_⟩
    intro ht hw
    rw [sendResponse_more os c hd, sendResponseWrite_completes os c ht hw]
    exact (Transceiver.write_completes_eq c.tr _ hw).2.1
  · intro os hs hd ht hw hw2
    have hl := sendNoResponse_closing_last
      { c with tr := (c.tr.write (patchInt os 10 (wrapInt32 (os.length : Int)))).2 } hs hd hw2
    have hwr := (Transceiver.write_completes_eq c.tr
      (patchInt os 10 (wrapInt32 (os.length : Int))) hw).2.1
    unfold sendResponse
    rw [sendResponseWrite_completes os c ht hw]
    dsimp only
    refine ⟨?_, hl.2⟩
    rw [hl.1]
    dsimp only
    rw [hwr, List.append_assoc]
    rfl

theorem closing_sends_close_connection_frame_witness :
    (setState .StateClosing activeClient).tr.written =
      activeClient.tr.written ++ [[0x49, 0x63, 0x65, 0x50, 1, 0, 1, 0, 4, 0, 14, 0, 0, 0]] ∧
    (setState .StateClosing activeClient).state = .StateClosing ∧
    closingReplySender.tr.written = [] ∧
    (sendResponse (replyHdr ++ [5, 0, 0, 0, 0]) closingReplySender).2.tr.written =
      closingReplySender.tr.written ++
        [patchInt (replyHdr ++ [5, 0, 0, 0, 0]) 10
          (wrapInt32 ((replyHdr ++ [5, 0, 0, 0, 0]).length : Int)), closeConnectionFrame] :=
  ⟨((closing_sends_close_connection_frame activeClient).2.2.1 (by decide) (by decide)
      (by decide) (by decide)).1,
    (((closing_sends_close_connection_frame activeClient).2.2.1 (by decide) (by decide)
      (by decide) (by decide)).2.2.1 (by decide)).1,
    by decide,
    ((closing_sends_close_connection_frame closingReplySender).2.2.2.2.2.2.2
      (replyHdr ++ [5, 0, 0, 0, 0]) (by decide) (by decide) (by decide) (by decide)
      (by decide)).1⟩

theorem consistent_of_same {c d : Connection} (h : Consistent c) (hs : SameCore c d) :
    Consistent d := by
  obtain ⟨h1, h2, h3⟩ := hs
  unfold Consistent
  rw [h1, h2, h3]
  exact h

theorem consistent_init (tr : Transceiver) (blocking adapter : Bool) (messageSizeMax : Nat)
    (timeout : Int) : Consistent (Connection.init tr blocking adapter messageSizeMax timeout) := by
  unfold Consistent Connection.init
  simp

theorem consistent_stored {c : Connection} (h : Consistent c) (hs : c.state = .StateClosed) :
    c.exception ≠ none := h.1.mpr (Or.inr hs)

theorem consistent_owned {c : Connection} (h : Consistent c) (hs : c.state ≠ .StateClosed) :
    c.transceiver = true := by
  cases ht : c.transceiver with
  | true => rfl
  | false => exact absurd (h.2 ht) hs

theorem consistent_of_closed {c : Connection} (hs : c.state = .StateClosed)
    (he : c.exception ≠ none) : Consistent c :=
  ⟨⟨fun _ => Or.inr hs, fun _ => he⟩, fun _ => hs⟩

theorem consistent_setStateClosed (c : Connection) (he : c.exception ≠ none) :
    Consistent (setStateClosed c) :=
  consistent_of_closed (setStateClosed_state c) (by rw [setStateClosed_exception]; exact he)

theorem consistent_setStateClosedEx (ex : LocalException) (c : Connection) (h : Consistent c) :
    Consistent (setStateClosedEx ex c) := by
  by_cases hs : c.state = .StateClosed
  · unfold setStateClosedEx
    rw [if_pos hs]
    exact h
  · apply consistent_of_closed (setStateClosedEx_state ex c)
    rw [setStateClosedEx_exception, if_neg hs]
    split
    · simp
    · rename_i hn
      intro h0
      rw [h0] at hn
      exact hn rfl

theorem consistent_setStateCommit_closing (c : Connection) (he : c.exception ≠ none)
    (ht : c.transceiver = true) : Consistent (setStateCommit .StateClosing c) := by
  have hmid : ∀ d : Connection, d.state = .StateClosing → d.exception = c.exception →
      d.transceiver = true → Consistent d := by
    intro d h1 h2 h3
    refine ⟨⟨fun _ => Or.inl h1, fun _ => by rw [h2]; exact he⟩, ?_⟩
    intro h4
    rw [h3] at h4
    cases h4
  unfold setStateCommit
  dsimp only
  split
  · split
    · rename_i c2 hq
      have e1 : (initiateShutdown { c with state := .StateClosing }).2.exception = c.exception :=
        rfl
      have e2 : (initiateShutdown { c with state := .StateClosing }).2.state = .StateClosing :=
        rfl
      have e3 : (initiateShutdown { c with state := .StateClosing }).2.transceiver =
          c.transceiver := rfl
      rw [hq] at e1 e2 e3
      dsimp only at e1 e2 e3
      split
      · exact consistent_setStateClosed c2 (by rw [e1]; exact he)
      · exact hmid c2 e2 e1 (by rw [e3]; exact ht)
    · rename_i ex c2 hq
      have e1 : (initiateShutdown { c with state := .StateClosing }).2.exception = c.exception :=
        rfl
      have e2 : (initiateShutdown { c with state := .StateClosing }).2.state = .StateClosing :=
        rfl
      have e3 : (initiateShutdown { c with state := .StateClosing }).2.transceiver =
          c.transceiver := rfl
      rw [hq] at e1 e2 e3
      dsimp only at e1 e2 e3
      exact consistent_setStateClosedEx ex c2 (hmid c2 e2 e1 (by rw [e3]; exact ht))
  · exact hmid _ rfl rfl ht

theorem consistent_setStateCommit_open (t : State) (c : Connection) (h : Consistent c)
    (hc : c.state ≠ .StateClosing ∧ c.state ≠ .StateClosed)
    (ht : t ≠ .StateClosing ∧ t ≠ .StateClosed) : Consistent (setStateCommit t c) := by
  have hex : c.exception = none := by
    by_contra hne
    rcases h.1.mp hne with h1 | h1
    · exact hc.1 h1
    · exact hc.2 h1
  unfold setStateCommit
  dsimp only
  rw [if_neg (fun hh => ht.1 hh.1)]
  refine ⟨⟨?_, ?_⟩, ?_⟩
  · intro hne
    exact absurd hex hne
  · intro hh
    rcases hh with h1 | h1
    · exact absurd h1 ht.1
    · exact absurd h1 ht.2
  · intro htr
    exact absurd (h.2 htr) hc.2

theorem consistent_setState_open (t : State) (c : Connection) (h : Consistent c)
    (ht : t = .StateActive ∨ t = .StateHolding) : Consistent (setState t c) := by
  unfold setState
  split
  · exact h
  · rcases ht with ht | ht
    · subst ht
      dsimp only
      split
      · exact h
      · rename_i hn
        apply consistent_setStateCommit_open _ c h _ (by decide)
        have : c.state = .StateHolding ∨ c.state = .StateNotValidated := by
          by_contra hx
          apply hn
          exact ⟨fun a => hx (Or.inl a), fun a => hx (Or.inr a)⟩
        rcases this with a | a <;> rw [a] <;> decide
    · subst ht
      dsimp only
      split
      · exact h
      · rename_i hn
        apply consistent_setStateCommit_open _ c h _ (by decide)
        have : c.state = .StateActive ∨ c.state = .StateNotValidated := by
          by_contra hx
          apply hn
          exact ⟨fun a => hx (Or.inl a), fun a => hx (Or.inr a)⟩
        rcases this with a | a <;> rw [a] <;> decide

theorem consistent_setStateEx (t : State) (ex : LocalException) (c : Connection)
    (h : Consistent c) (ht : t = .StateClosing ∨ t = .StateClosed) :
    Consistent (setStateEx t ex c) := by
  rcases ht with ht | ht
  · subst ht
    unfold setStateEx
    split
    · exact h
    · rename_i hne
      dsimp only
      have key : ∀ d : Connection, d.state = c.state → d.transceiver = c.transceiver →
          d.exception ≠ none → Consistent (setState .StateClosing d) := by
        intro d hs htr hex
        unfold setState
        rw [if_neg (by rw [hs]; exact hne)]
        dsimp only
        split
        · rename_i hcl
          exact consistent_of_closed hcl hex
        · rename_i hcl
          apply consistent_setStateCommit_closing d hex
          rw [htr]
          exact consistent_owned h (by rw [← hs]; exact hcl)
      split
      · exact key _ rfl rfl (by simp)
      · rename_i hn
        apply key c rfl rfl
        intro h0
        rw [h0] at hn
        exact hn rfl
  · subst ht
    rw [setStateEx_closed_eq]
    exact consistent_setStateClosedEx ex c h

theorem consistent_sendNoResponse (c : Connection) (h : Consistent c) :
    Consistent (sendNoResponse c) := by
  have h1 : Consistent { c with dispatchCount := c.dispatchCount - 1 } :=
    consistent_of_same h ⟨rfl, rfl, rfl⟩
  unfold sendNoResponse
  dsimp only
  split
  · split
    · rename_i c2 hq
      have hs : SameCore { c with dispatchCount := c.dispatchCount - 1 }
          (initiateShutdown { c with dispatchCount := c.dispatchCount - 1 }).2 := ⟨rfl, rfl, rfl⟩
      rw [hq] at hs
      exact consistent_of_same h1 hs
    · rename_i ex c2 hq
      have hs : SameCore { c with dispatchCount := c.dispatchCount - 1 }
          (initiateShutdown { c with dispatchCount := c.dispatchCount - 1 }).2 := ⟨rfl, rfl, rfl⟩
      rw [hq] at hs
      exact consistent_setStateEx _ ex c2 (consistent_of_same h1 hs) (Or.inr rfl)
  · exact h1

theorem consistent_sendResponseWrite (os : List Byte) (c : Connection) (h : Consistent c) :
    Consistent (sendResponseWrite os c).2 ∧ (sendResponseWrite os c).1 = .returned := by
  unfold sendResponseWrite
  split
  · rename_i ht
    have ht2 : c.transceiver = false := by simpa using ht
    have hex := consistent_stored h (h.2 ht2)
    split
    · rename_i he
      exact absurd he hex
    · rename_i e he
      exact ⟨consistent_setStateEx _ e c h (Or.inr rfl), rfl⟩
  · dsimp only
    split
    · rename_i ex t hq
      exact ⟨consistent_setStateEx _ ex _ (consistent_of_same h ⟨rfl, rfl, rfl⟩) (Or.inr rfl), rfl⟩
    · exact ⟨consistent_of_same h ⟨rfl, rfl, rfl⟩, rfl⟩

theorem consistent_sendResponse (os : List Byte) (c : Connection) (h : Consistent c) :
    Consistent (sendResponse os c).2 ∧ (sendResponse os c).1 = .returned := by
  obtain ⟨h1, h2⟩ := consistent_sendResponseWrite os c h
  unfold sendResponse
  split
  · rename_i c1 hq
    rw [hq] at h1
    exact ⟨consistent_sendNoResponse c1 h1, rfl⟩
  · rename_i r hne
    exfalso
    apply hne (sendResponseWrite os c).2
    rw [← h2]

theorem consistent_parse (c : Connection) (r i : Int) (h : Consistent c) :
    Consistent (readStreamAndParseMessage c r i).c := by
  have hc := readStreamAndParseMessage_c c r i
  rw [hc]
  exact consistent_of_same h ⟨rfl, rfl, rfl⟩

theorem consistent_prepareRequest (os : List Byte) (out : Option Outgoing) (c : Connection)
    (h : Consistent c) :
    Consistent (prepareRequest os out c).2.2 ∧
    (prepareRequest os out c).2.2.transceiver = c.transceiver := by
  unfold prepareRequest
  split
  · exact ⟨h, rfl⟩
  · dsimp only
    split
    · exact ⟨consistent_of_same h ⟨rfl, rfl, rfl⟩, rfl⟩
    · exact ⟨consistent_of_same h ⟨rfl, rfl, rfl⟩, rfl⟩

theorem consistent_awaitReply (o : Outgoing) (requestId : Int) (os : List Byte)
    (completed : Bool) (c : Connection) (h : Consistent c) :
    Consistent (awaitReply o requestId os completed c).c ∧
    (awaitReply o requestId os completed c).ending ≠ .assertFailed := by
  have hp := consistent_parse c 0 0 h
  unfold awaitReply
  split
  · dsimp only
    split
    · exact ⟨hp, by simp⟩
    · split
      · exact ⟨hp, by simp⟩
      · split
        · exact ⟨hp, by simp⟩
        · exact ⟨consistent_of_same hp ⟨rfl, rfl, rfl⟩, by simp⟩
  · split
    · exact ⟨h, by simp⟩
    · split
      · exact ⟨consistent_setStateEx _ _ c h (Or.inr rfl), by simp⟩
      · exact ⟨h, by simp⟩

theorem consistent_sendRequestTry (os : List Byte) (out : Option Outgoing) (completed : Bool)
    (c : Connection) (h : Consistent c) :
    Consistent (sendRequestTry os out completed c).c ∧
    (sendRequestTry os out completed c).ending ≠ .assertFailed := by
  obtain ⟨hp, hpt⟩ := consistent_prepareRequest os out c h
  unfold sendRequestTry
  split
  · rename_i ht
    have ht2 : c.transceiver = false := by simpa using ht
    have hex := consistent_stored h (h.2 ht2)
    split
    · rename_i he
      exact absurd he hex
    · exact ⟨h, by simp⟩
  · dsimp only
    split
    · exact ⟨consistent_of_same hp ⟨rfl, rfl, rfl⟩, by simp⟩
    · split
      · exact ⟨consistent_of_same hp ⟨rfl, rfl, rfl⟩, by simp⟩
      · exact consistent_awaitReply _ _ _ _ _ (consistent_of_same hp ⟨rfl, rfl, rfl⟩)

theorem setStateEx_closed_stored (ex : LocalException) (c : Connection) (h : Consistent c) :
    (setStateEx .StateClosed ex c).exception ≠ none := by
  have h1 := consistent_setStateEx .StateClosed ex c h (Or.inr rfl)
  apply consistent_stored h1
  rw [setStateEx_closed_eq]
  exact setStateClosedEx_state ex c

theorem consistent_sendRequest (os : List Byte) (out : Option Outgoing) (completed : Bool)
    (c : Connection) (h : Consistent c) :
    Consistent (sendRequest os out completed c).c ∧
    (sendRequest os out completed c).outcome ≠ .assertFailed := by
  obtain ⟨ht, hne⟩ := consistent_sendRequestTry os out completed c h
  have hspec := (sendRequestTry_spec os out completed c).2.2.1
  unfold sendRequest
  dsimp only
  split
  · exact ⟨ht, by simp⟩
  · rename_i ha
    exact absurd ha hne
  · exact ⟨ht, by simp⟩
  · rename_i ex hth
    have hc1 := consistent_setStateEx .StateClosed ex _ ht (Or.inr rfl)
    have hst := setStateEx_closed_stored ex _ ht
    split
    · rename_i hnone
      exact absurd hnone hst
    · rename_i e he
      split
      · rename_i hsent
        split
        · exact ⟨consistent_of_same hc1 ⟨rfl, rfl, rfl⟩, by simp⟩
        · exact absurd rfl ((hspec ex hth).2 hsent)
      · exact ⟨hc1, by simp⟩

theorem consistent_flushBatchTry (c : Connection) (h : Consistent c) (he : c.exception = none) :
    Consistent (flushBatchTry c).2 ∧ (flushBatchTry c).1 ≠ .assertFailed ∧
    (flushBatchTry c).1 ≠ .blocked := by
  have ht : c.transceiver = true := by
    apply consistent_owned h
    intro hs
    exact consistent_stored h hs he
  unfold flushBatchTry
  rw [if_neg (by simp [ht])]
  dsimp only
  split
  · exact ⟨consistent_of_same h ⟨rfl, rfl, rfl⟩, by simp, by simp⟩
  · exact ⟨consistent_of_same h ⟨rfl, rfl, rfl⟩, by simp, by simp⟩

theorem consistent_flushBatchRequests (c : Connection) (h : Consistent c) :
    Consistent (flushBatchRequests c).2 ∧ (flushBatchRequests c).1 ≠ .assertFailed := by
  unfold flushBatchRequests
  split
  · exact ⟨h, by simp⟩
  · split
    · exact ⟨h, by simp⟩
    · rename_i he
      split
      · exact ⟨h, by simp⟩
      · obtain ⟨f1, f2, f3⟩ := consistent_flushBatchTry { c with batchStreamInUse := true }
          (consistent_of_same h ⟨rfl, rfl, rfl⟩) he
        dsimp only
        split
        · rename_i ex c2 hq
          rw [hq] at f1
          have hst := setStateEx_closed_stored ex c2 f1
          split
          · rename_i hn
            exact absurd hn hst
          · exact ⟨consistent_setStateEx _ ex c2 f1 (Or.inr rfl), by simp⟩
        · rename_i c2 hq
          rw [hq] at f1
          exact ⟨consistent_of_same f1 ⟨rfl, rfl, rfl⟩, by simp⟩
        · rename_i c2 hq
          rw [hq] at f2
          exact absurd rfl f2
        · rename_i c2 hq
          rw [hq] at f3
          exact absurd rfl f3

theorem consistent_close (force : Bool) (c : Connection) (h : Consistent c) :
    Consistent (close force c).2 := by
  unfold close
  split
  · exact consistent_setStateEx _ _ c h (Or.inr rfl)
  · split
    · exact h
    · exact consistent_setStateEx _ _ c h (Or.inl rfl)

theorem consistent_destroy (reason : DestructionReason) (c : Connection) (h : Consistent c) :
    Consistent (destroy reason c) := by
  unfold destroy
  split
  · exact consistent_setStateEx _ _ c h (Or.inl rfl)
  · exact consistent_setStateEx _ _ c h (Or.inl rfl)

theorem consistent_apply (o : Op) (c : Connection) (h : Consistent c)
    (hv : o.callSite = true) : Consistent (o.apply c) := by
  cases o with
  | activate => exact consistent_setState_open _ c h (Or.inl rfl)
  | hold => exact consistent_setState_open _ c h (Or.inr rfl)
  | destroy reason => exact consistent_destroy reason c h
  | close force => exact consistent_close force c h
  | setState s =>
    apply consistent_setState_open s c h
    cases s <;> simp [Op.callSite] at hv ⊢
  | setStateEx s ex =>
    apply consistent_setStateEx s ex c h
    cases s <;> simp [Op.callSite] at hv ⊢
  | sendRequest os out completed => exact (consistent_sendRequest os out completed c h).1
  | flushBatchRequests => exact (consistent_flushBatchRequests c h).1
  | sendResponse os => exact (consistent_sendResponse os c h).1
  | sendNoResponse => exact consistent_sendNoResponse c h

theorem consistent_validateTry (c : Connection) (h : Consistent c) :
    Consistent (validateTry c).2 := by
  unfold validateTry
  split
  · split
    · exact consistent_of_same h ⟨rfl, rfl, rfl⟩
    · exact consistent_of_same h ⟨rfl, rfl, rfl⟩
  · split
    · exact consistent_of_same h ⟨rfl, rfl, rfl⟩
    · exact consistent_of_same h ⟨rfl, rfl, rfl⟩

theorem consistent_validate (c : Connection) (h : Consistent c) :
    Consistent (validate c).2 ∧ (validate c).1 ≠ .assertFailed ∧
    (∀ e, (validate c).1 = .raised e → (validate c).2.state = .StateClosed) := by
  have hvt := consistent_validateTry c h
  unfold validate
  split
  · rename_i hs
    have hex := consistent_stored h hs
    split
    · rename_i he
      exact absurd he hex
    · exact ⟨h, by simp, fun _ _ => hs⟩
  · split
    · rename_i ex c1 hq
      rw [hq] at hvt
      have hst := setStateEx_closed_stored ex c1 hvt
      have hcl : (setStateEx .StateClosed ex c1).state = .StateClosed := by
        rw [setStateEx_closed_eq]
        exact setStateClosedEx_state ex c1
      dsimp only
      split
      · rename_i hn
        exact absurd hn hst
      · exact ⟨consistent_setStateEx _ ex c1 hvt (Or.inr rfl), by simp, fun _ _ => hcl⟩
    · rename_i c1 hq
      rw [hq] at hvt
      refine ⟨consistent_setState_open _ c1 hvt (Or.inr rfl), by simp, ?_⟩
      intro e he
      cases he

theorem consistent_runStart (c : Connection) (h : Consistent c) :
    Consistent (runStart c).2 := by
  obtain ⟨h1, _, h3⟩ := consistent_validate c h
  unfold runStart
  split
  · rename_i c1 hq
    rw [hq] at h1
    exact consistent_setState_open _ c1 h1 (Or.inl rfl)
  · rename_i e c1 hq
    rw [hq] at h1 h3
    have hcl : c1.state = .StateClosed := h3 e rfl
    have hex : c1.exception ≠ none := consistent_stored h1 hcl
    exact consistent_of_closed hcl hex
  · rename_i o c1 _ _ hq
    rw [hq] at h1
    exact h1

theorem consistent_runRead (c : Connection) (h : Consistent c) : Consistent (runRead c).c := by
  have hp := consistent_parse c 0 0 h
  unfold runRead
  dsimp only
  split
  · exact consistent_setStateEx _ _ _ hp (Or.inr rfl)
  · exact hp

theorem consistent_processReply (stream : List Byte) (r : Int) (c : Connection)
    (h : Consistent c) : Consistent (processReply stream r c).2 := by
  unfold processReply
  split
  · split
    · exact h
    · exact consistent_of_same h ⟨rfl, rfl, rfl⟩
  · split
    · exact consistent_setStateEx _ _ c h (Or.inr rfl)
    · exact consistent_of_same h ⟨rfl, rfl, rfl⟩

theorem consistent_classifyMessage (stream : List Byte) (w : Worker) (c : Connection)
    (h : Consistent c) : Consistent (classifyMessage stream w c).2.2 := by
  rcases classifyMessage_conn stream w c with h1 | h1 | h1
  · rw [h1]
    exact h
  · rw [h1]
    exact consistent_of_same h ⟨rfl, rfl, rfl⟩
  · rw [h1]
    exact consistent_processReply stream _ c h

theorem consistent_classifyClose (w : Worker) (c : Connection) (h : Consistent c) :
    Consistent (classifyClose w c).2.2 ∧ (classifyClose w c).1 ≠ .assertFailed ∧
    ((classifyClose w c).2.2.transceiver = false → c.transceiver = true →
      (classifyClose w c).2.1.closed = true) := by
  unfold classifyClose
  dsimp only
  by_cases hs : c.state = .StateClosed
  · have hex := consistent_stored h hs
    rw [if_pos hs, if_pos hs, if_pos (Or.inl hs)]
    dsimp only
    cases he : c.exception with
    | none => exact absurd he hex
    | some e =>
      dsimp only
      refine ⟨consistent_of_closed hs (by simp [he]), by simp, fun _ _ => rfl⟩
  · rw [if_neg hs, if_neg hs]
    split
    · rename_i hcl
      have hcg : c.state = .StateClosing := by
        rcases hcl with a | a
        · exact absurd a hs
        · exact a
      have hex : c.exception ≠ none := h.1.mpr (Or.inl hcg)
      cases he : c.exception with
      | none => exact absurd he hex
      | some e =>
        dsimp only
        refine ⟨consistent_of_same h ⟨rfl, he.symm ▸ rfl, rfl⟩, by simp, ?_⟩
        intro a b
        rw [b] at a
        cases a
    · refine ⟨h, by simp, ?_⟩
      intro a b
      rw [b] at a
      cases a

theorem consistent_runClassify (stream : List Byte) (w : Worker) (c : Connection)
    (h : Consistent c) :
    Consistent (runClassify stream w c).2.2 ∧ (runClassify stream w c).1 ≠ .assertFailed := by
  have hm := consistent_classifyMessage stream w c h
  unfold runClassify
  dsimp only
  split
  · rename_i hi
    exact ⟨hm, by rw [hi]; decide⟩
  · split
    · exact ⟨hm, by simp⟩
    · obtain ⟨a, b, _⟩ := consistent_classifyClose (classifyMessage stream w c).2.1 _ hm
      exact ⟨a, b⟩

theorem consistent_dispatchLoop (requestId : Int) (n : Nat) :
    ∀ (script : List InvokeOutcome) (c : Connection), Consistent c →
      Consistent (dispatchLoop requestId n script c).c := by
  induction n with
  | zero =>
    intro script c h
    exact h
  | succ n ih =>
    intro script c h
    unfold dispatchLoop
    split
    · dsimp only
      apply ih
      split
      · exact (consistent_sendResponse _ c h).1
      · exact consistent_sendNoResponse c h
    · exact h

theorem consistent_runDispatch (w : Worker) (script : List InvokeOutcome) (c : Connection)
    (h : Consistent c) : Consistent (runDispatch w script c).c := by
  have hl := consistent_dispatchLoop w.requestId w.invokeNum.toNat script c h
  unfold runDispatch
  dsimp only
  generalize dispatchLoop w.requestId w.invokeNum.toNat script c = r at hl
  split
  · dsimp only
    split
    · exact consistent_of_same (consistent_setStateEx _ _ _ hl (Or.inr rfl)) ⟨rfl, rfl, rfl⟩
    · exact consistent_of_same (consistent_setStateEx _ _ _ hl (Or.inr rfl)) ⟨rfl, rfl, rfl⟩
    · exact consistent_of_same (consistent_setStateEx _ _ _ hl (Or.inr rfl)) ⟨rfl, rfl, rfl⟩
    · exact consistent_of_same hl ⟨rfl, rfl, rfl⟩
  · dsimp only
    split
    · exact consistent_setStateEx _ _ _ hl (Or.inr rfl)
    · exact consistent_setStateEx _ _ _ hl (Or.inr rfl)
    · exact consistent_setStateEx _ _ _ hl (Or.inr rfl)
    · exact hl

theorem consistent_prepareBatchRequest (os : List Byte) (c : Connection) (h : Consistent c) :
    Consistent (prepareBatchRequest os c).2.2 := by
  unfold prepareBatchRequest
  split
  · exact h
  · split
    · exact h
    · exact consistent_of_same h ⟨rfl, rfl, rfl⟩

/-- Every reachable connection is consistent: its fatal error is stored
exactly in Closing and Closed, and its transport is released in Closed
only. -/
theorem consistent_of_reachable {c : Connection} (h : Reachable c) : Consistent c := by
  induction h with
  | init tr blocking adapter messageSizeMax timeout =>
    exact consistent_init tr blocking adapter messageSizeMax timeout
  | op o _ hv ih => exact consistent_apply o _ ih hv
  | validate _ ih => exact (consistent_validate _ ih).1
  | runStart _ ih => exact consistent_runStart _ ih
  | runRead _ ih => exact consistent_runRead _ ih
  | runClassify stream w _ ih => exact (consistent_runClassify stream w _ ih).1
  | runDispatch w script _ ih => exact consistent_runDispatch w script _ ih
  | prepareBatchRequest os _ ih => exact consistent_prepareBatchRequest os _ ih
  | finishBatchRequest os _ ih => exact consistent_of_same ih ⟨rfl, rfl, rfl⟩
  | abortBatchRequest _ ih => exact consistent_of_same ih ⟨rfl, rfl, rfl⟩

theorem setStateEx_of_closed (t : State) (ex : LocalException) (c : Connection)
    (ht : t = .StateClosing ∨ t = .StateClosed) (hs : c.state = .StateClosed)
    (he : c.exception ≠ none) : setStateEx t ex c = c := by
  rcases ht with ht | ht
  · subst ht
    unfold setStateEx
    rw [if_neg (by rw [hs]; decide)]
    dsimp only
    have hn : ¬ c.exception.isNone = true := by
      intro h
      apply he
      simpa using h
    rw [if_neg hn]
    unfold setState
    rw [if_neg (by rw [hs]; decide)]
    dsimp only
    rw [if_pos hs]
  · subst ht
    unfold setStateEx
    rw [if_pos hs]

theorem setState_open_of_closed (t : State) (c : Connection)
    (ht : t = .StateActive ∨ t = .StateHolding) (hs : c.state = .StateClosed) :
    setState t c = c := by
  rcases ht with ht | ht
  · subst ht
    unfold setState
    rw [if_neg (by rw [hs]; decide)]
    dsimp only
    rw [if_pos (by rw [hs]; decide)]
  · subst ht
    unfold setState
    rw [if_neg (by rw [hs]; decide)]
    dsimp only
    rw [if_pos (by rw [hs]; decide)]

theorem sendNoResponse_of_closed (c : Connection) (hs : c.state = .StateClosed) :
    sendNoResponse c = { c with dispatchCount := c.dispatchCount - 1 } := by
  unfold sendNoResponse
  dsimp only
  rw [if_neg (by rw [hs]; simp)]

theorem sendResponse_of_released (os : List Byte) (c : Connection) (ht : c.transceiver = false)
    (hs : c.state = .StateClosed) (he : c.exception ≠ none) :
    (sendResponse os c).2 = { c with dispatchCount := c.dispatchCount - 1 } := by
  have hw : sendResponseWrite os c = (.returned, c) := by
    unfold sendResponseWrite
    rw [if_pos (by simp [ht])]
    cases hx : c.exception with
    | none => exact absurd hx he
    | some e =>
      dsimp only
      rw [setStateEx_of_closed _ e c (Or.inr rfl) hs he]
  unfold sendResponse
  rw [hw]
  dsimp only
  exact sendNoResponse_of_closed c hs

theorem sendRequest_of_released (os : List Byte) (out : Option Outgoing) (completed : Bool)
    (c : Connection) (ht : c.transceiver = false) (hs : c.state = .StateClosed)
    (he : c.exception ≠ none) : (sendRequest os out completed c).c = c := by
  cases hx : c.exception with
  | none => exact absurd hx he
  | some e =>
    have hw : sendRequestTry os out completed c = ⟨.thrown e, false, 0, os, c⟩ := by
      unfold sendRequestTry
      rw [if_pos (by simp [ht]), hx]
    unfold sendRequest
    dsimp only
    rw [hw]
    dsimp only
    rw [setStateEx_of_closed _ e c (Or.inr rfl) hs he, hx]
    dsimp only
    rw [if_neg (by simp)]

theorem flushBatchRequests_of_stored (c : Connection) (he : c.exception ≠ none) :
    (flushBatchRequests c).2 = c := by
  cases hx : c.exception with
  | none => exact absurd hx he
  | some e =>
    unfold flushBatchRequests
    rw [if_neg (by simp [hx]), hx]

theorem prepareBatchRequest_of_stored (os : List Byte) (c : Connection)
    (he : c.exception ≠ none) : (prepareBatchRequest os c).2.2 = c := by
  cases hx : c.exception with
  | none => exact absurd hx he
  | some e =>
    unfold prepareBatchRequest
    rw [if_neg (by simp [hx]), hx]

/-- No operation the code calls touches the transport of a connection that
has released it: the transport object is as it was and the pointer stays
null. -/
theorem apply_of_released (o : Op) (c : Connection) (hv : o.callSite = true)
    (ht : c.transceiver = false) (hs : c.state = .StateClosed) (he : c.exception ≠ none) :
    (o.apply c).tr = c.tr ∧ (o.apply c).transceiver = false ∧
    (o.apply c).state = .StateClosed ∧ (o.apply c).exception = c.exception := by
  have hsame : ∀ d : Connection, d = c →
      d.tr = c.tr ∧ d.transceiver = false ∧ d.state = .StateClosed ∧
      d.exception = c.exception := by
    intro d hd
    rw [hd]
    exact ⟨rfl, ht, hs, rfl⟩
  cases o with
  | activate => exact hsame _ (setState_open_of_closed _ c (Or.inl rfl) hs)
  | hold => exact hsame _ (setState_open_of_closed _ c (Or.inr rfl) hs)
  | destroy reason =>
    apply hsame
    show destroy reason c = c
    unfold destroy
    split
    · exact setStateEx_of_closed _ _ c (Or.inl rfl) hs he
    · exact setStateEx_of_closed _ _ c (Or.inl rfl) hs he
  | close force =>
    apply hsame
    show (close force c).2 = c
    unfold close
    split
    · exact setStateEx_of_closed _ _ c (Or.inr rfl) hs he
    · split
      · rfl
      · exact setStateEx_of_closed _ _ c (Or.inl rfl) hs he
  | setState s =>
    apply hsame
    apply setState_open_of_closed s c _ hs
    cases s <;> simp [Op.callSite] at hv ⊢
  | setStateEx s ex =>
    apply hsame
    apply setStateEx_of_closed s ex c _ hs he
    cases s <;> simp [Op.callSite] at hv ⊢
  | sendRequest os out completed =>
    exact hsame _ (sendRequest_of_released os out completed c ht hs he)
  | flushBatchRequests => exact hsame _ (flushBatchRequests_of_stored c he)
  | sendResponse os =>
    have e : (Op.sendResponse os).apply c = (sendResponse os c).2 := rfl
    rw [e, sendResponse_of_released os c ht hs he]
    exact ⟨rfl, ht, hs, rfl⟩
  | sendNoResponse =>
    have e : Op.sendNoResponse.apply c = sendNoResponse c := rfl
    rw [e, sendNoResponse_of_closed c hs]
    exact ⟨rfl, ht, hs, rfl⟩

theorem dispatchLoop_of_released (requestId : Int) (n : Nat) :
    ∀ (script : List InvokeOutcome) (c : Connection), c.transceiver = false →
      c.state = .StateClosed → c.exception ≠ none →
      (dispatchLoop requestId n script c).c.tr = c.tr ∧
      (dispatchLoop requestId n script c).c.transceiver = false ∧
      (dispatchLoop requestId n script c).c.state = .StateClosed ∧
      (dispatchLoop requestId n script c).c.exception = c.exception := by
  induction n with
  | zero =>
    intro script c ht hs he
    exact ⟨rfl, ht, hs, rfl⟩
  | succ n ih =>
    intro script c ht hs he
    unfold dispatchLoop
    split
    · dsimp only
      split
      · rw [sendResponse_of_released _ c ht hs he]
        exact ih script.tail { c with dispatchCount := c.dispatchCount - 1 } ht hs he
      · rw [sendNoResponse_of_closed c hs]
        exact ih script.tail { c with dispatchCount := c.dispatchCount - 1 } ht hs he
    · exact ⟨rfl, ht, hs, rfl⟩

theorem runDispatch_of_released (w : Worker) (script : List InvokeOutcome) (c : Connection)
    (ht : c.transceiver = false) (hs : c.state = .StateClosed) (he : c.exception ≠ none) :
    (runDispatch w script c).c.tr = c.tr ∧ (runDispatch w script c).c.transceiver = false := by
  obtain ⟨l1, l2, l3, l4⟩ := dispatchLoop_of_released w.requestId w.invokeNum.toNat script c ht hs he
  unfold runDispatch
  dsimp only
  generalize dispatchLoop w.requestId w.invokeNum.toNat script c = r at l1 l2 l3 l4
  have hex : r.c.exception ≠ none := by rw [l4]; exact he
  split
  · dsimp only
    split
    · rw [setStateEx_of_closed _ _ r.c (Or.inr rfl) l3 hex]
      exact ⟨l1, l2⟩
    · rw [setStateEx_of_closed _ _ r.c (Or.inr rfl) l3 hex]
      exact ⟨l1, l2⟩
    · rw [setStateEx_of_closed _ _ r.c (Or.inr rfl) l3 hex]
      exact ⟨l1, l2⟩
    · exact ⟨l1, l2⟩
  · dsimp only
    split
    · rw [setStateEx_of_closed _ _ r.c (Or.inr rfl) l3 hex]
      exact ⟨l1, l2⟩
    · rw [setStateEx_of_closed _ _ r.c (Or.inr rfl) l3 hex]
      exact ⟨l1, l2⟩
    · rw [setStateEx_of_closed _ _ r.c (Or.inr rfl) l3 hex]
      exact ⟨l1, l2⟩
    · exact ⟨l1, l2⟩

theorem validate_of_closed (c : Connection) (hs : c.state = .StateClosed) :
    (validate c).2 = c := by
  unfold validate
  rw [if_pos hs]
  split <;> rfl

/-- The iteration of the worker that releases the transport sets its local
`closed`, which ends the loop `while(!closed)`: the worker makes no further
read. -/
theorem runClassify_releases (stream : List Byte) (w : Worker) (c : Connection)
    (h : Consistent c) (hr : (runClassify stream w c).2.2.transceiver = false) :
    (runClassify stream w c).2.1.closed = true := by
  have hm := consistent_classifyMessage stream w c h
  have hinv : (classifyMessage stream w c).1 = .invalidIterator →
      (classifyMessage stream w c).2.2.state ≠ .StateClosed := by
    intro h1
    obtain ⟨a, _, b, _⟩ := classifyMessage_invalid stream w c h1
    rw [b]
    exact a
  unfold runClassify at hr ⊢
  dsimp only at hr ⊢
  generalize classifyMessage stream w c = m at hm hr hinv ⊢
  split at hr
  · rename_i hi
    have := consistent_owned hm (hinv hi)
    rw [this] at hr
    cases hr
  · rename_i hi
    rw [if_neg hi]
    split at hr
    · rename_i hh
      have := consistent_owned hm (by rw [hh]; decide)
      dsimp only at hr
      rw [this] at hr
      cases hr
    · rename_i hh
      rw [if_neg hh]
      by_cases hs : m.2.2.state = .StateClosed
      · unfold classifyClose
        dsimp only
        rw [if_pos hs, if_pos hs, if_pos (Or.inl hs)]
        dsimp only
        split <;> rfl
      · exfalso
        have hown := consistent_owned hm hs
        unfold classifyClose at hr
        dsimp only at hr
        rw [if_neg hs, if_neg hs] at hr
        split at hr
        · split at hr
          · dsimp only at hr
            rw [hown] at hr
            cases hr
          · dsimp only at hr
            rw [hown] at hr
            cases hr
        · dsimp only at hr
          rw [hown] at hr
          cases hr

theorem setState_open_state (t : State) (c : Connection)
    (ht : t = .StateActive ∨ t = .StateHolding) :
    (setState t c).state = c.state ∨ (setState t c).state = t := by
  have hc : (setStateCommit t c).state = t := by
    unfold setStateCommit
    dsimp only
    rw [if_neg (by rcases ht with a | a <;> rw [a] <;> simp)]
  unfold setState
  split
  · exact Or.inl rfl
  · rcases ht with ht | ht
    · subst ht
      dsimp only
      split
      · exact Or.inl rfl
      · exact Or.inr hc
    · subst ht
      dsimp only
      split
      · exact Or.inl rfl
      · exact Or.inr hc

theorem runStart_releases (c : Connection) (h : Consistent c)
    (hr : (runStart c).2.transceiver = false) : (runStart c).1 = false := by
  have hcons := consistent_runStart c h
  have hvt := consistent_validateTry c h
  have hcl := hcons.2 hr
  revert hcl
  unfold runStart
  split
  · rename_i c1 hq
    intro hcl
    exfalso
    have hv : validate c = (.returned, c1) := hq
    unfold validate at hv
    split at hv
    · split at hv <;> cases hv
    · rename_i hnc
      split at hv
      · dsimp only at hv
        split at hv <;> cases hv
      · rename_i c0 hq0
        have hc1 : c1 = hold c0 := by
          cases hv
          rfl
        have hs0 : c0.state = c.state := by
          have : (validateTry c).2.state = c.state := by
            unfold validateTry
            repeat' split
            all_goals rfl
          rw [hq0] at this
          exact this
        have h1 : c1.state ≠ .StateClosed := by
          rw [hc1]
          unfold hold
          rcases setState_open_state .StateHolding c0 (Or.inr rfl) with a | a
          · rw [a, hs0]
            exact hnc
          · rw [a]
            decide
        have h2 : (activate c1).state ≠ .StateClosed := by
          unfold activate
          rcases setState_open_state .StateActive c1 (Or.inl rfl) with a | a
          · rw [a]
            exact h1
          · rw [a]
            decide
        exact h2 hcl
  · intro _
    rfl
  · intro _
    rfl

/-- C27. In every reachable connection the transport is still owned unless
the state is Closed. Once it is released, no operation the code calls uses
it or takes it up again (the transport object and the null pointer stay as
they are), neither do `validate`, `prepareBatchRequest` and the dispatch part
of the worker; and the step of the worker that releases the transport ends
the worker (`closed` is set, or `run` returns before its loop). -/
theorem transceiver_owned_until_closed (c : Connection) (h : Reachable c) :
    (c.state ≠ .StateClosed → c.transceiver = true) ∧
    (c.transceiver = false →
      (∀ o : Op, o.callSite = true →
        (o.apply c).tr = c.tr ∧ (o.apply c).transceiver = false) ∧
      (validate c).2 = c ∧
      (∀ os, (prepareBatchRequest os c).2.2 = c) ∧
      (∀ w script, (runDispatch w script c).c.tr = c.tr ∧
        (runDispatch w script c).c.transceiver = false)) ∧
    (∀ stream w, (runClassify stream w c).2.2.transceiver = false →
      (runClassify stream w c).2.1.closed = true) ∧
    ((runStart c).2.transceiver = false → (runStart c).1 = false) := by
  have hc := consistent_of_reachable h
  refine ⟨consistent_owned hc, ?_, ?_, runStart_releases c hc⟩
  · intro ht
    have hs := hc.2 ht
    have he := consistent_stored hc hs
    refine ⟨?_, validate_of_closed c hs, fun os => prepareBatchRequest_of_stored os c he,
      fun w script => runDispatch_of_released w script c ht hs he⟩
    intro o hv
    obtain ⟨a, b, _, _⟩ := apply_of_released o c hv ht hs he
    exact ⟨a, b⟩
  · intro stream w hr
    exact runClassify_releases stream w c hc hr

theorem transceiver_owned_until_closed_witness :
    ((Op.close true).apply blockingConnection).transceiver = false ∧
    ((Op.close true).apply blockingConnection).state = .StateClosed ∧
    ((Op.sendRequest requestHdr (some 7) false).apply
      ((Op.close true).apply blockingConnection)).tr =
      ((Op.close true).apply blockingConnection).tr :=
  ⟨by decide, by decide,
    (((transceiver_owned_until_closed ((Op.close true).apply blockingConnection)
      (Reachable.op (Op.close true) (Reachable.init (Transceiver.fresh [] []) true false
        1048576 5000) rfl)).2.1 (by decide)).1
      (Op.sendRequest requestHdr (some 7) false) rfl).1⟩

/-- C30. In every reachable connection a fatal error is stored if and only
if the state is Closing or Closed; so every place that rethrows the stored
error when the state is at least Closing or the transport is released finds
one: the assertion `assert(_exception.get())` holds in `waitForValidation`,
`validate`, `sendRequest`, `flushBatchRequests`, `sendResponse` and the
classification step of the worker. -/
theorem fatal_error_stored_iff_closing (c : Connection) (h : Reachable c) :
    (c.exception ≠ none ↔ (c.state = .StateClosing ∨ c.state = .StateClosed)) ∧
    waitForValidation c ≠ .assertFailed ∧
    (validate c).1 ≠ .assertFailed ∧
    (∀ os out completed, (sendRequest os out completed c).outcome ≠ .assertFailed) ∧
    (flushBatchRequests c).1 ≠ .assertFailed ∧
    (∀ os, (sendResponse os c).1 ≠ .assertFailed) ∧
    (∀ stream w, (runClassify stream w c).1 ≠ .assertFailed) := by
  have hc := consistent_of_reachable h
  refine ⟨hc.1, ?_, (consistent_validate c hc).2.1,
    fun os out completed => (consistent_sendRequest os out completed c hc).2,
    (consistent_flushBatchRequests c hc).2, ?_,
    fun stream w => (consistent_runClassify stream w c hc).2⟩
  · unfold waitForValidation
    split
    · simp
    · split
      · rename_i hge
        have hs : c.state = .StateClosing ∨ c.state = .StateClosed := by
          revert hge
          cases c.state <;> simp [State.toNat]
        have hex := hc.1.mpr hs
        split
        · rename_i hn
          exact absurd hn hex
        · simp
      · simp
  · intro os
    rw [(consistent_sendResponse os c hc).2]
    simp

theorem fatal_error_stored_iff_closing_witness :
    ((Op.destroy .CommunicatorDestroyed).apply activeClient).state = .StateClosing ∧
    ((Op.destroy .CommunicatorDestroyed).apply activeClient).exception ≠ none ∧
    waitForValidation ((Op.destroy .CommunicatorDestroyed).apply activeClient) =
      .raised .CommunicatorDestroyedException :=
  ⟨by decide,
    (fatal_error_stored_iff_closing ((Op.destroy .CommunicatorDestroyed).apply activeClient)
      (Reachable.op (Op.destroy .CommunicatorDestroyed)
        (Reachable.op Op.activate
          (Reachable.op Op.hold
            (Reachable.init (Transceiver.fresh [] []) false false 1048576 (-1)) rfl) rfl)
        rfl)).1.mpr (Or.inl (by decide)),
    by decide⟩

/-! ## The outgoing registry and failures of `sendRequest` -/

theorem mapInsert_key_mem (m : List (Int × Outgoing)) (k : Int) (o : Outgoing) :
    k ∈ (mapInsert m k o).map Prod.fst := by
  induction m with
  | nil => simp [mapInsert]
  | cons p rest ih =>
    obtain ⟨k1, v1⟩ := p
    unfold mapInsert
    split
    · simp
    · split
      · rename_i h
        simp [h]
      · simp only [List.map_cons, List.mem_cons]
        exact Or.inr ih

theorem mapNext_mem (m : List (Int × Outgoing)) (r k : Int)
    (hnd : (m.map Prod.fst).Nodup) (h : mapNext m r = some k) :
    k ∈ (mapErase m r).map Prod.fst := by
  have key : ∀ m : List (Int × Outgoing), (m.map Prod.fst).Nodup → mapNext m r = some k →
      ∃ o, (k, o) ∈ m ∧ k ≠ r := by
    intro m
    induction m with
    | nil =>
      intro _ h
      simp [mapNext] at h
    | cons p rest ih =>
      obtain ⟨k1, v1⟩ := p
      intro hnd h
      simp only [List.map_cons, List.nodup_cons] at hnd
      unfold mapNext at h
      split at h
      · rename_i hk
        cases rest with
        | nil => simp at h
        | cons q rest2 =>
          obtain ⟨k2, v2⟩ := q
          have h3 : k2 = k := by
            simpa using h
          subst h3
          subst hk
          refine ⟨v2, by simp, ?_⟩
          intro he
          apply hnd.1
          rw [← he]
          simp
      · obtain ⟨o, ho, hne⟩ := ih hnd.2 h
        exact ⟨o, List.mem_cons_of_mem _ ho, hne⟩
  obtain ⟨o, ho, hne⟩ := key m hnd h
  exact List.mem_map.mpr ⟨(k, o), (mapErase_mem m r (k, o)).mpr ⟨ho, hne⟩, rfl⟩

/-- The insert of `sendRequest` keeps the hint valid: it sets the hint to the
iterator `insert` returns, which refers to the entry with the new id. -/
theorem prepareRequest_hintValid (os : List Byte) (out : Option Outgoing) (c : Connection)
    (hh : HintValid c) : HintValid (prepareRequest os out c).2.2 := by
  unfold prepareRequest
  split
  · exact hh
  · dsimp only
    split
    · intro k hk
      dsimp only at hk
      cases hk
      exact mapInsert_key_mem _ _ _
    · exact hh

/-- The reply block of the worker keeps the hint valid on a registry with
distinct keys: the erase through the hint moves the hint to the next entry,
and the erase of another entry leaves the entry of the hint in the map. -/
theorem processReply_hintValid (stream : List Byte) (r : Int) (c : Connection)
    (hnd : (c.requests.map Prod.fst).Nodup) (hh : HintValid c) :
    HintValid (processReply stream r c).2 := by
  unfold processReply
  split
  · split
    · exact hh
    · intro k hk
      exact mapNext_mem c.requests r k hnd hk
  · rename_i hne
    split
    · have hk := keeps_setStateEx .StateClosed .UnknownRequestIdException c
      intro k h
      rw [hk.2.1] at h
      rw [hk.1]
      exact hh k h
    · intro k h
      have h1 : c.requestsHint = some k := h
      have hkr : k ≠ r := by
        intro he
        apply hne
        rw [h1, he]
      obtain ⟨p, hp, hpk⟩ := List.mem_map.mp (hh k h1)
      refine List.mem_map.mpr ⟨p, (mapErase_mem c.requests r p).mpr ⟨hp, ?_⟩, hpk⟩
      rw [hpk]
      exact hkr

/-- The fail-all block of the worker in Closing or Closed clears the map and
leaves the hint as it is: the hint is valid afterwards only when it was the
end position before. -/
theorem classifyClose_hint (w : Worker) (c : Connection) (e : LocalException)
    (hs : c.state = .StateClosing ∨ c.state = .StateClosed) (he : c.exception = some e) :
    (classifyClose w c).2.2.requests = [] ∧
    (classifyClose w c).2.2.requestsHint = c.requestsHint ∧
    (HintValid (classifyClose w c).2.2 ↔ c.requestsHint = none) := by
  have h12 : (classifyClose w c).2.2.requests = [] ∧
      (classifyClose w c).2.2.requestsHint = c.requestsHint := by
    unfold classifyClose
    dsimp only
    by_cases hc : c.state = .StateClosed
    · rw [if_pos hc, if_pos (Or.inl hc)]
      dsimp only
      rw [he]
      exact ⟨rfl, rfl⟩
    · have h2 : c.state = .StateClosing := by
        rcases hs with h | h
        · exact h
        · exact absurd h hc
      rw [if_neg hc, if_pos (Or.inr h2), he]
      exact ⟨rfl, rfl⟩
  refine ⟨h12.1, h12.2, ?_⟩
  unfold HintValid
  rw [h12.1, h12.2]
  constructor
  · intro h
    cases hq : c.requestsHint with
    | none => rfl
    | some k =>
      have := h k hq
      simp at this
  · intro h k hk
    rw [h] at hk
    cases hk

/-- C31 (code defect, evaluated). The fail-all clear leaves the hint
dangling. On a client connection with one pending two-way request (id 1,
hint at its entry) that `destroy` moved to Closing, the classification step
of the worker for a message that is neither request nor reply fails the
pending outgoing and clears the map, and the hint still refers to the erased
entry with key 1: it is neither the end position nor an entry of the map. A
reply with id 1 handled next takes the hint and dereferences it. -/
theorem fail_all_clear_keeps_stale_hint :
    (destroy .CommunicatorDestroyed pendingConnection).state = .StateClosing ∧
    (destroy .CommunicatorDestroyed pendingConnection).requests = [(1, 7)] ∧
    (destroy .CommunicatorDestroyed pendingConnection).requestsHint = some 1 ∧
    (runClassify [] ⟨0, 0, false⟩
      (destroy .CommunicatorDestroyed pendingConnection)).2.2.requests = [] ∧
    (runClassify [] ⟨0, 0, false⟩
      (destroy .CommunicatorDestroyed pendingConnection)).2.2.requestsHint = some 1 ∧
    (runClassify [] ⟨0, 0, false⟩
      (destroy .CommunicatorDestroyed pendingConnection)).2.2.state = .StateClosing ∧
    ¬ HintValid (runClassify [] ⟨0, 0, false⟩
      (destroy .CommunicatorDestroyed pendingConnection)).2.2 ∧
    (processReply [] 1 (runClassify [] ⟨0, 0, false⟩
      (destroy .CommunicatorDestroyed pendingConnection)).2.2).1 = .invalidHint := by
  refine ⟨by decide, by decide, by decide, by decide, by decide, by decide, ?_, by decide⟩
  intro h
  have h1 := h 1 (by decide)
  have h2 : (runClassify [] ⟨0, 0, false⟩
      (destroy .CommunicatorDestroyed pendingConnection)).2.2.requests = [] := by decide
  rw [h2] at h1
  simp at h1

/-- The registry at the end of a `try` block of a two-way `sendRequest` that
did not get to `requestSent = true`: with a transport and not in blocking
mode the insert made before the write is still there; otherwise the registry
is as the call found it. -/
theorem sendRequestTry_unsent_requests (os : List Byte) (o : Outgoing) (completed : Bool)
    (c : Connection) (h : (sendRequestTry os (some o) completed c).requestSent = false) :
    (sendRequestTry os (some o) completed c).c.requests =
      (if c.transceiver = true ∧ c.blocking = false then
        mapInsert c.requests (allocRequestId c.nextRequestId).1 o
      else c.requests) := by
  revert h
  unfold sendRequestTry
  split
  · rename_i ht
    have ht1 : ¬ (c.transceiver = true ∧ c.blocking = false) := by
      intro hh
      rw [hh.1] at ht
      cases ht
    rw [if_neg ht1]
    split
    · exact fun _ => rfl
    · exact fun _ => rfl
  · rename_i ht
    have ht1 : c.transceiver = true := by
      cases hq : c.transceiver with
      | true => rfl
      | false =>
        rw [hq] at ht
        exact absurd rfl ht
    dsimp only
    split
    · intro _
      dsimp only
      unfold prepareRequest
      dsimp only
      cases hb : c.blocking with
      | true =>
        rw [if_neg (by simp), if_neg (by simp)]
      | false =>
        rw [if_pos (by simp), if_pos ⟨ht1, rfl⟩]
    · intro h
      rw [(awaitReply_spec _ _ _ _ _).1] at h
      cases h

/-- The registry after a two-way `sendRequest` that raised to its caller: the
handler raises only with `requestSent` unset and does not touch the registry,
so with a transport and not in blocking mode the entry inserted before the
write is still registered; in blocking mode, and with the transport released,
the registry is as the call found it. -/
theorem sendRequest_raised_requests (os : List Byte) (o : Outgoing) (completed : Bool)
    (c : Connection) (e : LocalException)
    (h : (sendRequest os (some o) completed c).outcome = .raised e) :
    (sendRequest os (some o) completed c).c.requests =
      (if c.transceiver = true ∧ c.blocking = false then
        mapInsert c.requests (allocRequestId c.nextRequestId).1 o
      else c.requests) := by
  have key : ∀ r : SendResult, r = sendRequest os (some o) completed c →
      r.outcome = .raised e →
      r.c.requests = (sendRequestTry os (some o) completed c).c.requests ∧
      (sendRequestTry os (some o) completed c).requestSent = false := by
    intro r hr1 hr2
    unfold sendRequest at hr1
    dsimp only at hr1
    split at hr1
    · subst hr1
      cases hr2
    · subst hr1
      cases hr2
    · subst hr1
      cases hr2
    · rename_i ex hth
      have hk := (keeps_setStateEx .StateClosed ex (sendRequestTry os (some o) completed c).c).1
      split at hr1
      · subst hr1
        cases hr2
      · split at hr1
        · subst hr1
          cases hr2
        · rename_i hns
          subst hr1
          refine ⟨hk, ?_⟩
          cases hq : (sendRequestTry os (some o) completed c).requestSent with
          | false => rfl
          | true => exact absurd hq hns
  obtain ⟨k1, k2⟩ := key _ rfl h
  rw [k1]
  exact sendRequestTry_unsent_requests os o completed c k2

/-- C32 (code defect, evaluated). A two-way `sendRequest` on an active
connection in thread-per-connection mode whose write times out: the call
raises TimeoutException to its caller, and the entry for its outgoing (handle
7, id 1), inserted before the write, is still in the registry of the now
Closed connection; the next classification step of the worker calls
`finished` with the stored exception on that outgoing. -/
theorem raised_send_stays_registered :
    (applyOps [Op.hold, Op.activate] faultyConnection).requests = [] ∧
    (applyOps [Op.hold, Op.activate] faultyConnection).state = .StateActive ∧
    (sendRequest requestHdr (some 7) false
      (applyOps [Op.hold, Op.activate] faultyConnection)).outcome = .raised .TimeoutException ∧
    (sendRequest requestHdr (some 7) false
      (applyOps [Op.hold, Op.activate] faultyConnection)).c.requests = [(1, 7)] ∧
    (sendRequest requestHdr (some 7) false
      (applyOps [Op.hold, Op.activate] faultyConnection)).c.state = .StateClosed ∧
    (sendRequest requestHdr (some 7) false
      (applyOps [Op.hold, Op.activate] faultyConnection)).c.finished = [] ∧
    (runClassify [] ⟨0, 0, false⟩ (sendRequest requestHdr (some 7) false
      (applyOps [Op.hold, Op.activate] faultyConnection)).c).2.2.finished =
      [(7, .failed .TimeoutException)] := by
  refine ⟨?_, ?_, ?_, ?_, ?_, ?_, ?_⟩ <;> decide

theorem awaitReply_thrown_core (o : Outgoing) (requestId : Int) (os : List Byte)
    (completed : Bool) (c : Connection) (ex : LocalException)
    (h : (awaitReply o requestId os completed c).ending = .thrown ex) :
    SameCore c (awaitReply o requestId os completed c).c := by
  have hc := readStreamAndParseMessage_c c 0 0
  have hp : SameCore c (readStreamAndParseMessage c 0 0).c := by
    rw [hc]
    exact ⟨rfl, rfl, rfl⟩
  revert h
  unfold awaitReply
  split
  · dsimp only
    split
    · exact fun _ => hp
    · split
      · exact fun _ => hp
      · split
        · exact fun _ => hp
        · intro h
          cases h
  · split
    · intro h
      cases h
    · split
      · intro h
        cases h
      · intro h
        cases h

/-- An exception of the `try` block of `sendRequest` leaves `_state`,
`_exception` and the pointer `_transceiver` as the call found them. -/
theorem sendRequestTry_thrown_core (os : List Byte) (out : Option Outgoing) (completed : Bool)
    (c : Connection) (ex : LocalException)
    (h : (sendRequestTry os out completed c).ending = .thrown ex) :
    SameCore c (sendRequestTry os out completed c).c := by
  have hp := prepareRequest_fields os out c
  have hpt : (prepareRequest os out c).2.2.transceiver = c.transceiver := by
    unfold prepareRequest
    split
    · rfl
    · dsimp only
      split
      · rfl
      · rfl
  revert h
  unfold sendRequestTry
  split
  · split
    · intro h
      cases h
    · exact fun _ => ⟨rfl, rfl, rfl⟩
  · dsimp only
    split
    · exact fun _ => ⟨hp.2.1, hp.2.2.1, hpt⟩
    · split
      · intro h
        cases h
      · rename_i t hq o
        intro h
        have ha := awaitReply_thrown_core _ _ _ _ _ ex h
        exact ⟨ha.1.trans hp.2.1, ha.2.1.trans hp.2.2.1, ha.2.2.trans hpt⟩

/-- The call `setState(StateClosed, ex)` on a connection `d` with the state
and the stored exception of `c`: the state is Closed afterwards and the
stored exception is the one stored before, or `ex` when none was. -/
theorem setStateEx_closed_first (ex : LocalException) (c d : Connection)
    (hs : d.state = c.state) (he : d.exception = c.exception)
    (hinv : c.state = .StateClosed → c.exception ≠ none) :
    (setStateEx .StateClosed ex d).state = .StateClosed ∧
    ∃ e, (setStateEx .StateClosed ex d).exception = some e ∧
      (∀ e0, c.exception = some e0 → e = e0) ∧ (c.exception = none → e = ex) := by
  refine ⟨?_, ?_⟩
  · rw [setStateEx_closed_eq]
    exact setStateClosedEx_state _ _
  · rw [setStateEx_closed_eq, setStateClosedEx_exception, hs, he]
    cases hx : c.exception with
    | none =>
      have hns : ¬ c.state = .StateClosed := fun a => hinv a hx
      rw [if_neg hns]
      exact ⟨ex, rfl, fun e0 h0 => (by cases h0), fun _ => rfl⟩
    | some e1 =>
      refine ⟨e1, ?_, fun e0 h0 => (by cases h0; rfl), fun h0 => (by cases h0)⟩
      split
      · rfl
      · rfl

/-- The `try` block of a two-way `sendRequest` in thread-per-connection mode
whose write completes and whose outgoing is not completed before the timeout
(`tout > 0`) expires: it ends with `setState(StateClosed, TimeoutException)`
on a connection with the state and the stored exception the call found. -/
theorem sendRequestTry_timeout (os : List Byte) (o : Outgoing) (c : Connection)
    (ht : c.transceiver = true) (hb : c.blocking = false)
    (hw : c.tr.nextWriteCompletes = true) (hto : c.timeout > 0) :
    (sendRequestTry os (some o) false c).ending = .done ∧
    ∃ d, (sendRequestTry os (some o) false c).c = setStateEx .StateClosed .TimeoutException d ∧
      d.state = c.state ∧ d.exception = c.exception := by
  have h1 := Transceiver.write_of_completes c.tr
    (patchInt (patchInt os headerSize (allocRequestId c.nextRequestId).1) 10
      (wrapInt32 ((patchInt os headerSize (allocRequestId c.nextRequestId).1).length : Int))) hw
  unfold sendRequestTry
  rw [if_neg (by simp [ht])]
  unfold prepareRequest
  dsimp only
  rw [if_pos (by simp [hb])]
  dsimp only
  split
  · rename_i ex t hq
    rw [hq] at h1
    simp at h1
  · rename_i t hq
    unfold awaitReply
    dsimp only
    rw [if_neg (by simp [hb]), if_neg (by simp), if_pos hto]
    exact ⟨rfl, _, rfl, rfl, rfl⟩

/-- C33. On a connection that has an exception stored whenever it is Closed
(as every reachable connection has): whenever `sendRequest` fails (its `try`
block throws `ex`), the connection is Closed afterwards and the error the call raises to its caller,
or hands to `out->finished` when the request was sent, is the stored fatal
error of the connection: the error stored before the call when there was
one, and `ex` otherwise. Every call that raises is such a call. A two-way
call in thread-per-connection mode that times out waiting for its reply also
leaves the connection Closed with the first stored error, TimeoutException
when none was stored before. -/
theorem send_request_fails_with_stored_error (c : Connection) (os : List Byte)
    (out : Option Outgoing) (completed : Bool)
    (hinv : c.state = .StateClosed → c.exception ≠ none) :
    (∀ ex, (sendRequestTry os out completed c).ending = .thrown ex →
      (sendRequest os out completed c).c.state = .StateClosed ∧
      ∃ e, (sendRequest os out completed c).c.exception = some e ∧
        (∀ e0, c.exception = some e0 → e = e0) ∧
        (c.exception = none → e = ex) ∧
        (((sendRequest os out completed c).outcome = .raised e ∧
            (sendRequest os out completed c).c.finished = c.finished) ∨
          ∃ o, out = some o ∧ (sendRequest os out completed c).outcome = .returned ∧
            (sendRequest os out completed c).c.finished = c.finished ++ [(o, .failed e)])) ∧
    (∀ e, (sendRequest os out completed c).outcome = .raised e →
      ∃ ex, (sendRequestTry os out completed c).ending = .thrown ex) ∧
    (∀ o, out = some o → completed = false → c.transceiver = true → c.blocking = false →
      c.tr.nextWriteCompletes = true → c.timeout > 0 →
      (sendRequest os out completed c).outcome = .returned ∧
      (sendRequest os out completed c).c.state = .StateClosed ∧
      ∃ e, (sendRequest os out completed c).c.exception = some e ∧
        (∀ e0, c.exception = some e0 → e = e0) ∧
        (c.exception = none → e = .TimeoutException)) := by
  refine ⟨?_, ?_, ?_⟩
  · intro ex hth
    obtain ⟨hs, he, _⟩ := sendRequestTry_thrown_core os out completed c ex hth
    have hspec := (sendRequestTry_spec os out completed c).2.2.1 ex hth
    have hfin : (setStateEx .StateClosed ex (sendRequestTry os out completed c).c).finished =
        c.finished := by
      rw [setStateEx_closed_eq, (setStateClosedEx_written _ _).2]
      exact hspec.1
    obtain ⟨hstate, e, hse, hfirst, hnone⟩ :=
      setStateEx_closed_first ex c (sendRequestTry os out completed c).c hs he hinv
    have key : ∀ r : SendResult, r = sendRequest os out completed c →
        r.c.state = .StateClosed ∧ r.c.exception = some e ∧
        ((r.outcome = .raised e ∧ r.c.finished = c.finished) ∨
          ∃ o, out = some o ∧ r.outcome = .returned ∧
            r.c.finished = c.finished ++ [(o, .failed e)]) := by
      intro r hr
      unfold sendRequest at hr
      dsimp only at hr
      rw [hth] at hr
      dsimp only at hr
      rw [hse] at hr
      dsimp only at hr
      split at hr
      · rename_i hsent
        cases hout : out with
        | none => exact absurd hout (hspec.2 hsent)
        | some o =>
          subst hout
          dsimp only at hr
          subst hr
          refine ⟨hstate, rfl, Or.inr ⟨o, rfl, rfl, ?_⟩⟩
          dsimp only
          rw [hfin]
      · subst hr
        exact ⟨hstate, hse, Or.inl ⟨rfl, hfin⟩⟩
    obtain ⟨k1, k2, k3⟩ := key _ rfl
    exact ⟨k1, e, k2, hfirst, hnone, k3⟩
  · intro e hr
    have key : ∀ r : SendResult, r = sendRequest os out completed c → r.outcome = .raised e →
        ∃ ex, (sendRequestTry os out completed c).ending = .thrown ex := by
      intro r hr1 hr2
      unfold sendRequest at hr1
      dsimp only at hr1
      split at hr1
      · subst hr1
        cases hr2
      · subst hr1
        cases hr2
      · subst hr1
        cases hr2
      · rename_i ex hth
        exact ⟨ex, hth⟩
    exact key _ rfl hr
  · intro o ho hc ht hb hw hto
    subst ho
    subst hc
    obtain ⟨hend, d, hdc, hds, hde⟩ := sendRequestTry_timeout os o c ht hb hw hto
    obtain ⟨h1, h2⟩ := setStateEx_closed_first .TimeoutException c d hds hde hinv
    have key : ∀ r : SendResult, r = sendRequest os (some o) false c →
        r.outcome = .returned ∧ r.c = (sendRequestTry os (some o) false c).c := by
      intro r hr
      unfold sendRequest at hr
      dsimp only at hr
      rw [hend] at hr
      dsimp only at hr
      subst hr
      exact ⟨rfl, rfl⟩
    obtain ⟨k1, k2⟩ := key _ rfl
    rw [k2, hdc]
    exact ⟨k1, h1, h2⟩

theorem send_request_fails_with_stored_error_witness :
    (closingFaultyConnection.state = .StateClosed → closingFaultyConnection.exception ≠ none) ∧
    closingFaultyConnection.exception = some .CommunicatorDestroyedException ∧
    (sendRequestTry requestHdr (some 7) false closingFaultyConnection).ending =
      .thrown .TimeoutException ∧
    (sendRequest requestHdr (some 7) false closingFaultyConnection).outcome =
      .raised .CommunicatorDestroyedException ∧
    ((sendRequest requestHdr (some 7) false closingFaultyConnection).c.state = .StateClosed ∧
      ∃ e, (sendRequest requestHdr (some 7) false closingFaultyConnection).c.exception = some e ∧
        (∀ e0, closingFaultyConnection.exception = some e0 → e = e0) ∧
        (closingFaultyConnection.exception = none → e = .TimeoutException) ∧
        (((sendRequest requestHdr (some 7) false closingFaultyConnection).outcome = .raised e ∧
            (sendRequest requestHdr (some 7) false closingFaultyConnection).c.finished =
              closingFaultyConnection.finished) ∨
          ∃ o, some 7 = some o ∧
            (sendRequest requestHdr (some 7) false closingFaultyConnection).outcome = .returned ∧
            (sendRequest requestHdr (some 7) false closingFaultyConnection).c.finished =
              closingFaultyConnection.finished ++ [(o, .failed e)])) :=
  ⟨by decide, by decide, by decide, by decide,
    (send_request_fails_with_stored_error closingFaultyConnection requestHdr (some 7) false
      (by decide)).1 .TimeoutException (by decide)⟩

end Ice
